import Mathlib

/-!
# ReactOS uniprocessor HAL: 8259A PIC management (hal/halx86/up/pic.c)

A shallow embedding of the IRQL / PIC arbitration code.  The per-CPU control
block, the two mutable dispatch tables, the interrupt flag and the mask
registers of the PIC pair form the machine state; every C function becomes a
function on that state.  Port accesses are appended to a trace, each one
together with the control block as it was at the instant of the access.
Handlers reached through function pointers are run by an environment that is a
parameter of the model.
-/

set_option linter.unusedVariables false

namespace HalPic

/-! ## Constants of the missing headers -/

/-- Modelled from the spec: the header constant PASSIVE_LEVEL is not under src; IRQL 0. -/
abbrev PASSIVE_LEVEL : Nat := 0

/-- Modelled from the spec: the header constant APC_LEVEL is not under src; it is the
software slot 1 (slot 1 of SWInterruptHandlerTable is the APC handler). -/
abbrev APC_LEVEL : Nat := 1

/-- Modelled from the spec: the header constant DISPATCH_LEVEL is not under src; it is the
software slot 2 (slot 2 of SWInterruptHandlerTable is the dispatch handler). -/
abbrev DISPATCH_LEVEL : Nat := 2

/-- Modelled from the spec: the header constant PROFILE_LEVEL is not under src; IRQ 0 maps to
it and the mask table kills the RTC (IRQ 8) exactly from IRQL 27 on. -/
abbrev PROFILE_LEVEL : Nat := 27

/-- Modelled from the spec: the header constant CLOCK2_LEVEL is not under src; the comment of
KiI8259MaskTable says that IRQL 28 is called CLOCK2_LEVEL. -/
abbrev CLOCK2_LEVEL : Nat := 28

/-- Modelled from the spec: the header constant HIGH_LEVEL is not under src; the top IRQL 31. -/
abbrev HIGH_LEVEL : Nat := 31

/-- Modelled from the spec: the header constant PRIMARY_VECTOR_BASE is not under src;
section 6.2 gives BASE = 0x30. -/
abbrev PRIMARY_VECTOR_BASE : Nat := 0x30

/-- Modelled from the spec: master control port of section 6.1. -/
abbrev PIC1_CONTROL_PORT : Nat := 0x20

/-- Modelled from the spec: master data port of section 6.1. -/
abbrev PIC1_DATA_PORT : Nat := 0x21

/-- Modelled from the spec: slave control port of section 6.1. -/
abbrev PIC2_CONTROL_PORT : Nat := 0xA0

/-- Modelled from the spec: slave data port of section 6.1. -/
abbrev PIC2_DATA_PORT : Nat := 0xA1

/-- Modelled from the spec: master ELCR port of section 6.1. -/
abbrev EISA_ELCR_MASTER : Nat := 0x4D0

/-- Modelled from the spec: slave ELCR port of section 6.1. -/
abbrev EISA_ELCR_SLAVE : Nat := 0x4D1

/-- Modelled from the spec: the bit-field type I8259_OCW2 is not under src; an OCW2 whose
only non-zero field is EoiMode = SpecificEoi is the byte 0x60 (section 6.1). -/
abbrev Ocw2SpecificEoi : Nat := 0x60

/-- Modelled from the spec: the bit-field type I8259_OCW3 is not under src; an OCW3 with
Sbo = 1 and ReadRequest = ReadIsr is the byte 0x0B (section 6.1). -/
abbrev Ocw3ReadIsr : Nat := 0x0B

/-- Codes passed to KeBugCheck by this file. -/
inductive BugCheckCode where
  | IRQL_NOT_GREATER_OR_EQUAL
  | IRQL_NOT_LESS_OR_EQUAL
deriving DecidableEq

/-- Values of KINTERRUPT_MODE. -/
inductive KINTERRUPT_MODE where
  | LevelSensitive
  | Latched
deriving DecidableEq

/-! ## Function pointers -/

/-- The routines that may sit in HalpSpecialDismissTable. -/
inductive HalDismiss where
  | HalpDismissIrqGeneric
  | HalpDismissIrq07
  | HalpDismissIrq13
  | HalpDismissIrq15
  | HalpDismissIrqLevel
  | HalpDismissIrq07Level
  | HalpDismissIrq13Level
  | HalpDismissIrq15Level
deriving DecidableEq

/-- The routines that may sit in SWInterruptHandlerTable; HalpHardwareInterrupt x is the
trampoline generated by HalpDelayedHardwareInterrupt(x), one "int PRIMARY_VECTOR_BASE + x". -/
inductive SwHandler where
  | KiUnexpectedInterrupt
  | HalpApcInterrupt
  | HalpDispatchInterrupt2
  | HalpHardwareInterrupt (x : Nat)
  | HalpHardwareInterruptLevel
deriving DecidableEq

/-- The routines of SWInterruptHandlerTable2 (entries used when a trap frame exists). -/
inductive SwHandler2 where
  | KiUnexpectedInterrupt
  | HalpApcInterrupt2ndEntry
  | HalpDispatchInterrupt2ndEntry
deriving DecidableEq

/-! ## Machine state -/

/-- The four fields of the processor control region used by this file. -/
structure Pcr where
  Irql : Nat
  IRR : Nat
  IDR : Nat
  IrrActive : Nat
deriving DecidableEq

/-- Direction of a port access. -/
inductive PortOp where
  | write
  | read
deriving DecidableEq

/-- One port access: direction, port, byte, and the control block at that instant. -/
structure PortEvent where
  op : PortOp
  port : Nat
  data : Nat
  pcr : Pcr
deriving DecidableEq

/-- Everything the code of pic.c reads or writes.  pic1Mask and pic2Mask are the interrupt
mask registers behind the data ports 0x21 and 0xA1; pic1CtlIn and pic2CtlIn are the bytes the
hardware answers to a read of the control ports 0x20 and 0xA0 (the in-service register once
OCW3 has asked for it); elcrMaster and elcrSlave are the bytes behind the EISA ELCR ports. -/
structure Machine where
  Irql : Nat
  IRR : Nat
  IDR : Nat
  IrrActive : Nat
  HalpSpecialDismissTable : List HalDismiss
  SWInterruptHandlerTable : List SwHandler
  HalpEisaELCR : Nat
  IF : Bool
  pic1Mask : Nat
  pic2Mask : Nat
  pic1CtlIn : Nat
  pic2CtlIn : Nat
  elcrMaster : Nat
  elcrSlave : Nat
  trace : List PortEvent
deriving DecidableEq

/-- The control block of a machine state. -/
def Machine.pcr (s : Machine) : Pcr :=
  { Irql := s.Irql, IRR := s.IRR, IDR := s.IDR, IrrActive := s.IrrActive }

/-- How a call ends: it returns a value in a new state, it reaches KeBugCheck, it runs into
undefined behaviour (an index outside a table, a shift count of 32 or more), or the bound on
loop iterations of the model is used up. -/
inductive Outcome (α : Type) where
  | ret (val : α) (m : Machine)
  | bugcheck (code : BugCheckCode) (m : Machine)
  | undefined
  | unfinished
deriving DecidableEq

/-- Sequencing: continue with f when the first call returned. -/
def Outcome.andThen {α β : Type} (o : Outcome α) (f : α → Machine → Outcome β) : Outcome β :=
  match o with
  | .ret a m => f a m
  | .bugcheck c m => .bugcheck c m
  | .undefined => .undefined
  | .unfinished => .unfinished

/-- The environment that executes a handler called through slot i of
SWInterruptHandlerTable: the kernel, the vector stubs and the device service routines. -/
abbrev Invoke := Nat → SwHandler → Machine → Outcome Unit

/-! ## Static tables -/

/-- Initial contents of HalpSpecialDismissTable. -/
def HalpSpecialDismissTable : List HalDismiss :=
  [ .HalpDismissIrqGeneric, .HalpDismissIrqGeneric, .HalpDismissIrqGeneric,
    .HalpDismissIrqGeneric, .HalpDismissIrqGeneric, .HalpDismissIrqGeneric,
    .HalpDismissIrqGeneric, .HalpDismissIrq07, .HalpDismissIrqGeneric,
    .HalpDismissIrqGeneric, .HalpDismissIrqGeneric, .HalpDismissIrqGeneric,
    .HalpDismissIrqGeneric, .HalpDismissIrq13, .HalpDismissIrqGeneric,
    .HalpDismissIrq15 ]

/-- The level dismissal routines, HalpSpecialDismissLevelTable. -/
def HalpSpecialDismissLevelTable : List HalDismiss :=
  [ .HalpDismissIrqLevel, .HalpDismissIrqLevel, .HalpDismissIrqLevel,
    .HalpDismissIrqLevel, .HalpDismissIrqLevel, .HalpDismissIrqLevel,
    .HalpDismissIrqLevel, .HalpDismissIrq07Level, .HalpDismissIrqLevel,
    .HalpDismissIrqLevel, .HalpDismissIrqLevel, .HalpDismissIrqLevel,
    .HalpDismissIrqLevel, .HalpDismissIrq13Level, .HalpDismissIrqLevel,
    .HalpDismissIrq15Level ]

/-- The static mapping between IRQLs and PIC masks, KiI8259MaskTable. -/
def KiI8259MaskTable : List Nat :=
  [ 0b00000000000000000000000000000000,
    0b00000000000000000000000000000000,
    0b00000000000000000000000000000000,
    0b00000000000000000000000000000000,
    0b11111111100000000000000000000000,
    0b11111111110000000000000000000000,
    0b11111111111000000000000000000000,
    0b11111111111100000000000000000000,
    0b11111111111110000000000000000000,
    0b11111111111111000000000000000000,
    0b11111111111111100000000000000000,
    0b11111111111111110000000000000000,
    0b11111111111111111000000000000000,
    0b11111111111111111100000000000000,
    0b11111111111111111110000000000000,
    0b11111111111111111111000000000000,
    0b11111111111111111111100000000000,
    0b11111111111111111111110000000000,
    0b11111111111111111111111000000000,
    0b11111111111111111111111000000000,
    0b11111111111111111111111010000000,
    0b11111111111111111111111011000000,
    0b11111111111111111111111011100000,
    0b11111111111111111111111011110000,
    0b11111111111111111111111011111000,
    0b11111111111111111111111011111000,
    0b11111111111111111111111011111010,
    0b11111111111111111111111111111010,
    0b11111111111111111111111111111011,
    0b11111111111111111111111111111011,
    0b11111111111111111111111111111011,
    0b11111111111111111111111111111011 ]

/-- Which pending IRR bits can preempt a given IRQL, FindHigherIrqlMask. -/
def FindHigherIrqlMask : List Nat :=
  [ 0b11111111111111111111111111111110,
    0b11111111111111111111111111111100,
    0b11111111111111111111111111111000,
    0b11111111111111111111111111110000,
    0b00000111111111111111111111110000,
    0b00000011111111111111111111110000,
    0b00000001111111111111111111110000,
    0b00000000111111111111111111110000,
    0b00000000011111111111111111110000,
    0b00000000001111111111111111110000,
    0b00000000000111111111111111110000,
    0b00000000000011111111111111110000,
    0b00000000000001111111111111110000,
    0b00000000000000111111111111110000,
    0b00000000000000011111111111110000,
    0b00000000000000001111111111110000,
    0b00000000000000000111111111110000,
    0b00000000000000000011111111110000,
    0b00000000000000000001111111110000,
    0b00000000000000000001111111110000,
    0b00000000000000000001011111110000,
    0b00000000000000000001001111110000,
    0b00000000000000000001000111110000,
    0b00000000000000000001000011110000,
    0b00000000000000000001000001110000,
    0b00000000000000000001000000110000,
    0b00000000000000000001000000010000,
    0b00000000000000000000000000010000,
    0b00000000000000000000000000000000,
    0b00000000000000000000000000000000,
    0b00000000000000000000000000000000,
    0b00000000000000000000000000000000 ]

/-- Highest pending software IRQL for each value of the low IRR bits, SWInterruptLookUpTable. -/
def SWInterruptLookUpTable : List Nat :=
  [ PASSIVE_LEVEL, PASSIVE_LEVEL, APC_LEVEL, APC_LEVEL,
    DISPATCH_LEVEL, DISPATCH_LEVEL, DISPATCH_LEVEL, DISPATCH_LEVEL ]

/-- Initial contents of SWInterruptHandlerTable. -/
def SWInterruptHandlerTable : List SwHandler :=
  [ .KiUnexpectedInterrupt, .HalpApcInterrupt, .HalpDispatchInterrupt2,
    .KiUnexpectedInterrupt,
    .HalpHardwareInterrupt 0, .HalpHardwareInterrupt 1, .HalpHardwareInterrupt 2,
    .HalpHardwareInterrupt 3, .HalpHardwareInterrupt 4, .HalpHardwareInterrupt 5,
    .HalpHardwareInterrupt 6, .HalpHardwareInterrupt 7, .HalpHardwareInterrupt 8,
    .HalpHardwareInterrupt 9, .HalpHardwareInterrupt 10, .HalpHardwareInterrupt 11,
    .HalpHardwareInterrupt 12, .HalpHardwareInterrupt 13, .HalpHardwareInterrupt 14,
    .HalpHardwareInterrupt 15 ]

/-- Handlers for pending software interrupts when a trap frame exists, SWInterruptHandlerTable2. -/
def SWInterruptHandlerTable2 : List SwHandler2 :=
  [ .KiUnexpectedInterrupt, .HalpApcInterrupt2ndEntry, .HalpDispatchInterrupt2ndEntry ]

/-! ## Primitives -/

/-- The intrinsic __outbyte: one byte goes to the port; a write to a data port of the PIC
pair loads the mask register behind it. -/
def outbyte (Port Data : Nat) (s : Machine) : Machine :=
  let s1 := { s with trace := s.trace ++ [PortEvent.mk .write Port (Data % 256) s.pcr] }
  if Port = PIC1_DATA_PORT then { s1 with pic1Mask := Data % 256 }
  else if Port = PIC2_DATA_PORT then { s1 with pic2Mask := Data % 256 }
  else s1

/-- The byte a port answers to a read in state s. -/
def portByte (Port : Nat) (s : Machine) : Nat :=
  if Port = PIC1_DATA_PORT then s.pic1Mask % 256
  else if Port = PIC2_DATA_PORT then s.pic2Mask % 256
  else if Port = PIC1_CONTROL_PORT then s.pic1CtlIn % 256
  else if Port = PIC2_CONTROL_PORT then s.pic2CtlIn % 256
  else if Port = EISA_ELCR_MASTER then s.elcrMaster % 256
  else if Port = EISA_ELCR_SLAVE then s.elcrSlave % 256
  else 0

/-- The intrinsic __inbyte: the byte read, and the state with the access recorded. -/
def inbyte (Port : Nat) (s : Machine) : Nat × Machine :=
  (portByte Port s,
   { s with trace := s.trace ++ [PortEvent.mk .read Port (portByte Port s) s.pcr] })

/-- Scan of bits n-1 down to 0 for the highest one set in Mask. -/
def BitScanReverse.go (Mask : Nat) : Nat → Nat
  | 0 => 0
  | i + 1 => if Mask.testBit i then i else BitScanReverse.go Mask i

/-- The intrinsic BitScanReverse on a 32-bit mask: index of the most significant set bit. -/
def BitScanReverse (Mask : Nat) : Nat :=
  BitScanReverse.go Mask 32

/-- The call SWInterruptHandlerTable[i](): the handler stored in slot i is run by the
environment; an index outside the table is undefined behaviour. -/
def callSW (run : Invoke) (i : Nat) (s : Machine) : Outcome Unit :=
  match s.SWInterruptHandlerTable[i]? with
  | none => .undefined
  | some h => run i h s

/-- Writes Mask.Master to the master data port and Mask.Slave to the slave data port, where
Both is the 16-bit value of the PIC_MASK union. -/
def writePicMask (Both : Nat) (s : Machine) : Machine :=
  outbyte PIC2_DATA_PORT (Both / 256) (outbyte PIC1_DATA_PORT (Both % 256) s)

/-- The specific EOI sequence shared by the edge and level dismissal routines. -/
def sendEoi (Irq : Nat) (s : Machine) : Machine :=
  if Irq ≥ 8 then
    outbyte PIC1_CONTROL_PORT (Ocw2SpecificEoi ||| 2)
      (outbyte PIC2_CONTROL_PORT (Ocw2SpecificEoi ||| ((Irq - 8) &&& 0xFF)) s)
  else
    outbyte PIC1_CONTROL_PORT (Ocw2SpecificEoi ||| (Irq &&& 0xFF)) s

/-! ## IRQL management -/

/-- KeGetCurrentIrql. -/
def KeGetCurrentIrql (s : Machine) : Nat :=
  s.Irql

/-- KeRaiseIrqlToDpcLevel; dbg says whether the build has DBG set. -/
def KeRaiseIrqlToDpcLevel (dbg : Bool) (s : Machine) : Outcome Nat :=
  let CurrentIrql := s.Irql
  let s1 := { s with Irql := DISPATCH_LEVEL }
  if dbg = true ∧ CurrentIrql > DISPATCH_LEVEL then
    .bugcheck .IRQL_NOT_GREATER_OR_EQUAL s1
  else .ret CurrentIrql s1

/-- KeRaiseIrqlToSynchLevel; SYNCH_LEVEL is a constant of a header that is not under src and
is taken as a parameter. -/
def KeRaiseIrqlToSynchLevel (SYNCH_LEVEL : Nat) (dbg : Bool) (s : Machine) : Outcome Nat :=
  let CurrentIrql := s.Irql
  let s1 := { s with Irql := SYNCH_LEVEL }
  if dbg = true ∧ CurrentIrql > SYNCH_LEVEL then
    .bugcheck .IRQL_NOT_GREATER_OR_EQUAL s1
  else .ret CurrentIrql s1

/-- KfRaiseIrql. -/
def KfRaiseIrql (dbg : Bool) (NewIrql : Nat) (s : Machine) : Outcome Nat :=
  let CurrentIrql := s.Irql
  if dbg = true ∧ CurrentIrql > NewIrql then
    .bugcheck .IRQL_NOT_GREATER_OR_EQUAL { s with Irql := PASSIVE_LEVEL }
  else .ret CurrentIrql { s with Irql := NewIrql }

/-- KfLowerIrql. -/
def KfLowerIrql (run : Invoke) (dbg : Bool) (OldIrql : Nat) (s : Machine) : Outcome Unit :=
  if dbg = true ∧ OldIrql > s.Irql then
    .bugcheck .IRQL_NOT_LESS_OR_EQUAL { s with Irql := HIGH_LEVEL }
  else
    let EFlags := s.IF
    let s1 := { s with IF := false, Irql := OldIrql }
    match FindHigherIrqlMask[OldIrql]? with
    | none => .undefined
    | some higher =>
      let PendingIrqlMask := s1.IRR &&& higher
      if PendingIrqlMask ≠ 0 then
        let PendingIrql := BitScanReverse PendingIrqlMask
        let s2 :=
          if PendingIrql > DISPATCH_LEVEL then
            let s3 := writePicMask (s1.IDR &&& 0xFFFF) s1
            { s3 with IRR := s3.IRR ^^^ (1 <<< PendingIrql) }
          else s1
        (callSW run PendingIrql s2).andThen fun _ s4 => .ret () { s4 with IF := EFlags }
      else .ret () { s1 with IF := EFlags }

/-! ## Software interrupts -/

/-- HalRequestSoftwareInterrupt. -/
def HalRequestSoftwareInterrupt (run : Invoke) (Irql : Nat) (s : Machine) : Outcome Unit :=
  if Irql ≥ 32 then .undefined
  else
    let EFlags := s.IF
    let s1 := { s with IF := false, IRR := s.IRR ||| (1 <<< Irql) }
    match SWInterruptLookUpTable[s1.IRR &&& 3]? with
    | none => .undefined
    | some PendingIrql =>
      if PendingIrql > s1.Irql then
        (callSW run PendingIrql s1).andThen fun _ s2 => .ret () { s2 with IF := EFlags }
      else .ret () { s1 with IF := EFlags }

/-- HalClearSoftwareInterrupt. -/
def HalClearSoftwareInterrupt (Irql : Nat) (s : Machine) : Outcome Unit :=
  if Irql ≥ 32 then .undefined
  else .ret () { s with IRR := s.IRR &&& (0xFFFFFFFF ^^^ (1 <<< Irql)) }

/-- The while (TRUE) loop of HalpEndSoftwareInterrupt2, at most fuel iterations. -/
def HalpEndSoftwareInterrupt2.loop (run : Invoke) (OldIrql : Nat) :
    Nat → Machine → Outcome (Option SwHandler2)
  | 0, _ => .unfinished
  | fuel + 1, s =>
    match FindHigherIrqlMask[OldIrql]? with
    | none => .undefined
    | some higher =>
      let PendingIrqlMask := s.IRR &&& higher
      if PendingIrqlMask = 0 then .ret none s
      else if s.IrrActive &&& 0xFFFFFFF0 ≠ 0 then .ret none s
      else
        let PendingIrql := BitScanReverse PendingIrqlMask
        if PendingIrql > DISPATCH_LEVEL then
          let s1 := writePicMask (s.IDR &&& 0xFFFF) s
          let PendingIrqMask := 1 <<< PendingIrql
          let s2 := { s1 with IrrActive := s1.IrrActive ||| PendingIrqMask,
                              IRR := s1.IRR ^^^ PendingIrqMask }
          (callSW run PendingIrql s2).andThen fun _ s3 =>
            HalpEndSoftwareInterrupt2.loop run OldIrql fuel
              { s3 with IrrActive := s3.IrrActive ^^^ PendingIrqMask }
        else
          match SWInterruptHandlerTable2[PendingIrql]? with
          | none => .undefined
          | some h => .ret (some h) s

/-- HalpEndSoftwareInterrupt2: the value returned is the second-entry handler the caller has
to jump to, or none for NULL. -/
def HalpEndSoftwareInterrupt2 (run : Invoke) (fuel : Nat) (OldIrql : Nat) (s : Machine) :
    Outcome (Option SwHandler2) :=
  HalpEndSoftwareInterrupt2.loop run OldIrql fuel { s with Irql := OldIrql }

/-! ## Edge interrupt dismissal -/

/-- The inline routine _HalpDismissIrqGeneric; the value is the BOOLEAN returned together
with what was stored through OldIrql, if anything. -/
def _HalpDismissIrqGeneric (Irql Irq : Nat) (s : Machine) : Outcome (Bool × Option Nat) :=
  let CurrentIrql := s.Irql
  if Irql > CurrentIrql then
    let s1 := { s with Irql := Irql }
    let s2 := sendEoi Irq s1
    .ret (true, some CurrentIrql) { s2 with IF := true }
  else if Irq + 4 ≥ 32 then .undefined
  else
    let s1 := { s with IRR := s.IRR ||| (1 <<< (Irq + 4)) }
    match KiI8259MaskTable[CurrentIrql]? with
    | none => .undefined
    | some mask => .ret (false, none) (writePicMask ((mask ||| s1.IDR) &&& 0xFFFF) s1)

/-- HalpDismissIrqGeneric. -/
def HalpDismissIrqGeneric (Irql Irq : Nat) (s : Machine) : Outcome (Bool × Option Nat) :=
  _HalpDismissIrqGeneric Irql Irq s

/-- HalpDismissIrq15. -/
def HalpDismissIrq15 (Irql Irq : Nat) (s : Machine) : Outcome (Bool × Option Nat) :=
  let s1 := outbyte PIC2_CONTROL_PORT Ocw3ReadIsr s
  let Isr := inbyte PIC2_CONTROL_PORT s1
  if Isr.1.testBit 7 = false then
    .ret (false, none) (outbyte PIC1_CONTROL_PORT (Ocw2SpecificEoi ||| 2) Isr.2)
  else _HalpDismissIrqGeneric Irql Irq Isr.2

/-- HalpDismissIrq13. -/
def HalpDismissIrq13 (Irql Irq : Nat) (s : Machine) : Outcome (Bool × Option Nat) :=
  _HalpDismissIrqGeneric Irql Irq (outbyte 0xF0 0 s)

/-- HalpDismissIrq07. -/
def HalpDismissIrq07 (Irql Irq : Nat) (s : Machine) : Outcome (Bool × Option Nat) :=
  let s1 := outbyte PIC1_CONTROL_PORT Ocw3ReadIsr s
  let Isr := inbyte PIC1_CONTROL_PORT s1
  if Isr.1.testBit 7 = false then .ret (false, none) Isr.2
  else _HalpDismissIrqGeneric Irql Irq Isr.2

/-! ## Level interrupt dismissal -/

/-- The inline routine _HalpDismissIrqLevel. -/
def _HalpDismissIrqLevel (Irql Irq : Nat) (s : Machine) : Outcome (Bool × Option Nat) :=
  match KiI8259MaskTable[Irql]? with
  | none => .undefined
  | some mask =>
    let s1 := writePicMask ((mask ||| s.IDR) &&& 0xFFFF) s
    if Irq + 4 ≥ 32 then .undefined
    else
      let s2 := { s1 with IRR := s1.IRR ||| (1 <<< (Irq + 4)) }
      let CurrentIrql := s2.Irql
      let s3 := sendEoi Irq s2
      if Irql > CurrentIrql then
        .ret (true, some CurrentIrql) { s3 with Irql := Irql, IF := true }
      else .ret (false, none) s3

/-- HalpDismissIrqLevel. -/
def HalpDismissIrqLevel (Irql Irq : Nat) (s : Machine) : Outcome (Bool × Option Nat) :=
  _HalpDismissIrqLevel Irql Irq s

/-- HalpDismissIrq15Level. -/
def HalpDismissIrq15Level (Irql Irq : Nat) (s : Machine) : Outcome (Bool × Option Nat) :=
  let s1 := outbyte PIC2_CONTROL_PORT Ocw3ReadIsr s
  let Isr := inbyte PIC2_CONTROL_PORT s1
  if Isr.1.testBit 7 = false then
    .ret (false, none) (outbyte PIC1_CONTROL_PORT (Ocw2SpecificEoi ||| 2) Isr.2)
  else _HalpDismissIrqLevel Irql Irq Isr.2

/-- HalpDismissIrq13Level. -/
def HalpDismissIrq13Level (Irql Irq : Nat) (s : Machine) : Outcome (Bool × Option Nat) :=
  _HalpDismissIrqLevel Irql Irq (outbyte 0xF0 0 s)

/-- HalpDismissIrq07Level. -/
def HalpDismissIrq07Level (Irql Irq : Nat) (s : Machine) : Outcome (Bool × Option Nat) :=
  let s1 := outbyte PIC1_CONTROL_PORT Ocw3ReadIsr s
  let Isr := inbyte PIC1_CONTROL_PORT s1
  if Isr.1.testBit 7 = false then .ret (false, none) Isr.2
  else _HalpDismissIrqLevel Irql Irq Isr.2

/-- The call through a dismissal function pointer. -/
def callDismiss (d : HalDismiss) (Irql Irq : Nat) (s : Machine) :
    Outcome (Bool × Option Nat) :=
  match d with
  | .HalpDismissIrqGeneric => HalpDismissIrqGeneric Irql Irq s
  | .HalpDismissIrq07 => HalpDismissIrq07 Irql Irq s
  | .HalpDismissIrq13 => HalpDismissIrq13 Irql Irq s
  | .HalpDismissIrq15 => HalpDismissIrq15 Irql Irq s
  | .HalpDismissIrqLevel => HalpDismissIrqLevel Irql Irq s
  | .HalpDismissIrq07Level => HalpDismissIrq07Level Irql Irq s
  | .HalpDismissIrq13Level => HalpDismissIrq13Level Irql Irq s
  | .HalpDismissIrq15Level => HalpDismissIrq15Level Irql Irq s

/-! ## System interrupts -/

/-- The ULONG subtraction Vector - PRIMARY_VECTOR_BASE. -/
def vectorIrq (Vector : Nat) : Nat :=
  (Vector % 2 ^ 32 + 2 ^ 32 - PRIMARY_VECTOR_BASE) % 2 ^ 32

/-- HalEnableSystemInterrupt. -/
def HalEnableSystemInterrupt (Vector Irql : Nat) (InterruptMode : KINTERRUPT_MODE)
    (s : Machine) : Outcome Bool :=
  let Irq := vectorIrq Vector
  if Irq ≥ CLOCK2_LEVEL then .ret false s
  else
    let switched : Option Machine :=
      if InterruptMode = .LevelSensitive then
        match HalpSpecialDismissLevelTable[Irq]? with
        | none => none
        | some level =>
          if Irq + 4 < s.SWInterruptHandlerTable.length ∧
              Irq < s.HalpSpecialDismissTable.length then
            some { s with
              SWInterruptHandlerTable :=
                s.SWInterruptHandlerTable.set (Irq + 4) .HalpHardwareInterruptLevel,
              HalpSpecialDismissTable := s.HalpSpecialDismissTable.set Irq level }
          else none
      else some s
    match switched with
    | none => .undefined
    | some s1 =>
      let s2 := { s1 with IF := false, IDR := s1.IDR &&& (0xFFFFFFFF ^^^ (1 <<< Irq)) }
      match KiI8259MaskTable[s2.Irql]? with
      | none => .undefined
      | some mask =>
        let s3 := writePicMask ((mask ||| s2.IDR) &&& 0xFFFF) s2
        .ret true { s3 with IF := true }

/-- HalBeginSystemInterrupt. -/
def HalBeginSystemInterrupt (Irql Vector : Nat) (s : Machine) : Outcome (Bool × Option Nat) :=
  let Irq := vectorIrq Vector
  match s.HalpSpecialDismissTable[Irq]? with
  | none => .undefined
  | some d => callDismiss d Irql Irq s

/-- The while (TRUE) loop of HalEndSystemInterrupt, at most fuel iterations. -/
def HalEndSystemInterrupt.loop (run : Invoke) :
    Nat → Nat → Machine → Outcome (Option SwHandler2)
  | 0, _, _ => .unfinished
  | fuel + 1, PendingIrqlMask, s =>
    let PendingIrql := BitScanReverse PendingIrqlMask
    if PendingIrql > DISPATCH_LEVEL then
      let s1 := writePicMask (s.IDR &&& 0xFFFF) s
      let PendingIrqMask := 1 <<< PendingIrql
      if s1.IrrActive &&& PendingIrqMask ≠ 0 then .ret none s1
      else
        let s2 := { s1 with IrrActive := s1.IrrActive ||| PendingIrqMask,
                            IRR := s1.IRR ^^^ PendingIrqMask }
        (callSW run PendingIrql s2).andThen fun _ s3 =>
          let s4 := { s3 with IrrActive := s3.IrrActive ^^^ PendingIrqMask }
          match FindHigherIrqlMask[s4.Irql]? with
          | none => .undefined
          | some higher =>
            if s4.IRR &&& higher = 0 then .ret none s4
            else HalEndSystemInterrupt.loop run fuel (s4.IRR &&& higher) s4
    else
      match SWInterruptHandlerTable2[PendingIrql]? with
      | none => .undefined
      | some h => .ret (some h) s

/-- HalEndSystemInterrupt: the value is the second-entry handler to which control passes for
good (the call SWInterruptHandlerTable2[PendingIrql](TrapFrame) does not come back), or none
when the function returns to its caller. -/
def HalEndSystemInterrupt (run : Invoke) (fuel : Nat) (OldIrql : Nat) (s : Machine) :
    Outcome (Option SwHandler2) :=
  let s1 := { s with Irql := OldIrql }
  match FindHigherIrqlMask[OldIrql]? with
  | none => .undefined
  | some higher =>
    let PendingIrqlMask := s1.IRR &&& higher
    if PendingIrqlMask ≠ 0 then
      if s1.IrrActive &&& 0xFFFFFFF0 ≠ 0 then .ret none s1
      else HalEndSystemInterrupt.loop run fuel PendingIrqlMask s1
    else .ret none s1

/-! ## Example states -/

/-- A machine at IRQL 0 with nothing pending, nothing disabled, the initial tables, interrupts
enabled, an empty trace, and both control ports answering 0x80. -/
def bootMachine : Machine :=
  { Irql := 0, IRR := 0, IDR := 0, IrrActive := 0,
    HalpSpecialDismissTable := HalpSpecialDismissTable,
    SWInterruptHandlerTable := SWInterruptHandlerTable,
    HalpEisaELCR := 0, IF := true,
    pic1Mask := 0, pic2Mask := 0, pic1CtlIn := 0x80, pic2CtlIn := 0x80,
    elcrMaster := 0, elcrSlave := 0, trace := [] }

/-- An environment in which every handler returns at once without touching the machine. -/
def idleInvoke : Invoke :=
  fun _ _ m => .ret () m

/-- The machine of scenario S2 after IRQ 5 has been deferred at IRQL PROFILE_LEVEL - 3. -/
def deferredMachine : Machine :=
  { bootMachine with
      Irql := 24, IRR := 0x200, pic1Mask := 0xF8, pic2Mask := 0xFE,
      trace := [PortEvent.mk .write 0x21 0xF8 ⟨24, 0x200, 0, 0⟩,
                PortEvent.mk .write 0xA1 0xFE ⟨24, 0x200, 0, 0⟩] }

/-- An environment for examples.  The trampoline HalpHardwareInterrupt x raises the vector
PRIMARY_VECTOR_BASE + x, whose stub calls HalBeginSystemInterrupt with the IRQL
PROFILE_LEVEL - x; when the interrupt is accepted the device service routine queues a DPC
(HalRequestSoftwareInterrupt at DISPATCH_LEVEL) and the stub ends with HalEndSystemInterrupt.
Every other handler returns at once. -/
def dpcQueueingInvoke : Invoke :=
  fun _ h m =>
    match h with
    | .HalpHardwareInterrupt x =>
      (HalBeginSystemInterrupt (PROFILE_LEVEL - x) (PRIMARY_VECTOR_BASE + x) m).andThen
        fun r m1 =>
          match r with
          | (true, some OldIrql) =>
            (HalRequestSoftwareInterrupt idleInvoke DISPATCH_LEVEL m1).andThen fun _ m2 =>
              (HalEndSystemInterrupt idleInvoke 1 OldIrql m2).andThen fun _ m3 => .ret () m3
          | _ => .ret () m1
    | _ => .ret () m

/-! ## Further system interrupt routines -/

/-- The 16-bit interrupt mask of the PIC pair: the master register is the low byte, the slave
register the high byte. -/
def Machine.picMask (s : Machine) : Nat :=
  s.pic1Mask % 256 + 256 * (s.pic2Mask % 256)

/-- HalDisableSystemInterrupt.  PicMask.Both is the 16-bit view of the two bytes read back,
Master being the low byte and Slave the high byte. -/
def HalDisableSystemInterrupt (Vector Irql : Nat) (s : Machine) : Outcome Unit :=
  if vectorIrq Vector ≥ 32 then .undefined
  else
    let IrqMask := 1 <<< vectorIrq Vector
    let s1 := { s with IF := false, IDR := s.IDR ||| IrqMask }
    let Master := inbyte PIC1_DATA_PORT s1
    let Slave := inbyte PIC2_DATA_PORT Master.2
    let Both := ((Master.1 + 256 * Slave.1) ||| IrqMask) % 65536
    let s2 := writePicMask Both Slave.2
    .ret () { s2 with IF := true }

/-- The for loop of HalpInitializePICs that scans HalpEisaELCR for level interrupts, at most
fuel iterations; i and j are the loop variables. -/
def HalpInitializePICs.scan : Nat → Nat → Nat → Machine → Outcome Unit
  | 0, _, _, _ => .unfinished
  | fuel + 1, i, j, s =>
    if j < 16 then
      if s.HalpEisaELCR &&& i ≠ 0 then
        match HalpSpecialDismissLevelTable[j]? with
        | none => .undefined
        | some level =>
          if j + 4 < s.SWInterruptHandlerTable.length ∧ j < s.HalpSpecialDismissTable.length then
            HalpInitializePICs.scan fuel ((i <<< 1) % 2 ^ 32) (j + 1)
              { s with
                  SWInterruptHandlerTable :=
                    s.SWInterruptHandlerTable.set (j + 4) .HalpHardwareInterruptLevel,
                  HalpSpecialDismissTable := s.HalpSpecialDismissTable.set j level }
          else .undefined
      else HalpInitializePICs.scan fuel ((i <<< 1) % 2 ^ 32) (j + 1) s
    else .ret () s

/-- HalpInitializePICs.  The routines HalpInitializeLegacyPICs and HalpRegisterVector are
code that is not under src and are parameters; the fields Irq0Level, Irq1Level, Irq2Level of
Elcr.Master and Irq8Level, Irq13Level of Elcr.Slave are bits 0, 1, 2, 8 and 13 of Elcr.Bits. -/
def HalpInitializePICs (HalpInitializeLegacyPICs : Machine → Machine)
    (HalpRegisterVector : Nat → Nat → Nat → Machine → Machine)
    (EnableInterrupts : Bool) (s : Machine) : Outcome Unit :=
  let EFlags := s.IF
  let s1 := HalpInitializeLegacyPICs { s with IF := false }
  let Slave := inbyte EISA_ELCR_SLAVE s1
  let Master := inbyte EISA_ELCR_MASTER Slave.2
  let Elcr := (Slave.1 <<< 8) ||| Master.1
  let scanned : Outcome Unit :=
    if Elcr.testBit 0 = false ∧ Elcr.testBit 1 = false ∧ Elcr.testBit 2 = false ∧
        Elcr.testBit 8 = false ∧ Elcr.testBit 13 = false then
      HalpInitializePICs.scan 17 1 0 { Master.2 with HalpEisaELCR := Elcr }
    else .ret () Master.2
  scanned.andThen fun _ s2 =>
    let s3 := HalpRegisterVector (PRIMARY_VECTOR_BASE + 2) (PRIMARY_VECTOR_BASE + 2) HIGH_LEVEL s2
    .ret () { s3 with IF := (EnableInterrupts || EFlags) }

/-- HalpIrqToVector, on the UCHAR range. -/
def HalpIrqToVector (Irq : Nat) : Nat :=
  (PRIMARY_VECTOR_BASE + Irq % 256) % 256

/-- HalpVectorToIrq, on the UCHAR range. -/
def HalpVectorToIrq (Vector : Nat) : Nat :=
  (((Vector % 256 : Nat) : Int) - (PRIMARY_VECTOR_BASE : Int)).emod 256 |>.toNat

/-- HalpVectorToIrql: the int expression PROFILE_LEVEL - (Vector - PRIMARY_VECTOR_BASE)
converted to KIRQL, an unsigned char. -/
def HalpVectorToIrql (Vector : Nat) : Nat :=
  ((PROFILE_LEVEL : Int) - (((Vector % 256 : Nat) : Int) - (PRIMARY_VECTOR_BASE : Int))).emod 256
    |>.toNat

/-! ## Sequences of exposed operations -/

/-- The cascade line is open: bit 2 of the PIC mask is clear and IRQ 2 is not disabled in
IDR. -/
def CascadeOpen (s : Machine) : Prop :=
  s.picMask.testBit 2 = false ∧ s.IDR.testBit 2 = false

/-- The exposed operations that change the machine, with their arguments. -/
inductive HalOp where
  | raise (NewIrql : Nat)
  | raiseToDpc
  | raiseToSynch
  | lower (OldIrql : Nat)
  | beginSystemInterrupt (Irql Vector : Nat)
  | endSystemInterrupt (OldIrql : Nat)
  | enableSystemInterrupt (Vector Irql : Nat) (InterruptMode : KINTERRUPT_MODE)
  | disableSystemInterrupt (Vector Irql : Nat)
  | requestSoftwareInterrupt (Irql : Nat)
  | clearSoftwareInterrupt (Irql : Nat)
deriving DecidableEq

/-- One exposed operation; the value it returns is dropped.  When HalEndSystemInterrupt passes
control to a second-entry handler, that handler is run by the environment run2. -/
def HalOp.exec (run : Invoke) (run2 : SwHandler2 → Machine → Outcome Unit) (dbg : Bool)
    (SYNCH_LEVEL fuel : Nat) (op : HalOp) (s : Machine) : Outcome Unit :=
  match op with
  | .raise NewIrql => (KfRaiseIrql dbg NewIrql s).andThen fun _ m => .ret () m
  | .raiseToDpc => (KeRaiseIrqlToDpcLevel dbg s).andThen fun _ m => .ret () m
  | .raiseToSynch => (KeRaiseIrqlToSynchLevel SYNCH_LEVEL dbg s).andThen fun _ m => .ret () m
  | .lower OldIrql => KfLowerIrql run dbg OldIrql s
  | .beginSystemInterrupt Irql Vector =>
    (HalBeginSystemInterrupt Irql Vector s).andThen fun _ m => .ret () m
  | .endSystemInterrupt OldIrql =>
    (HalEndSystemInterrupt run fuel OldIrql s).andThen fun r m =>
      match r with
      | none => .ret () m
      | some h => run2 h m
  | .enableSystemInterrupt Vector Irql InterruptMode =>
    (HalEnableSystemInterrupt Vector Irql InterruptMode s).andThen fun _ m => .ret () m
  | .disableSystemInterrupt Vector Irql => HalDisableSystemInterrupt Vector Irql s
  | .requestSoftwareInterrupt Irql => HalRequestSoftwareInterrupt run Irql s
  | .clearSoftwareInterrupt Irql => HalClearSoftwareInterrupt Irql s

/-- A sequence of exposed operations, executed in order. -/
def execOps (run : Invoke) (run2 : SwHandler2 → Machine → Outcome Unit) (dbg : Bool)
    (SYNCH_LEVEL fuel : Nat) : List HalOp → Machine → Outcome Unit
  | [], s => .ret () s
  | op :: ops, s =>
    (op.exec run run2 dbg SYNCH_LEVEL fuel s).andThen fun _ m =>
      execOps run run2 dbg SYNCH_LEVEL fuel ops m

/-! ## Level replay entry -/

/-- HalpHardwareInterruptLevel. -/
def HalpHardwareInterruptLevel (run : Invoke) (s : Machine) : Outcome Unit :=
  match FindHigherIrqlMask[s.Irql]? with
  | none => .undefined
  | some higher =>
    let PendingIrqlMask := s.IRR &&& higher
    if PendingIrqlMask ≠ 0 then
      if s.IrrActive &&& 0xFFFFFFF0 ≠ 0 then .ret () s
      else
        let PendingIrql := BitScanReverse PendingIrqlMask
        callSW run PendingIrql { s with IRR := s.IRR ^^^ (1 <<< PendingIrql) }
    else .ret () s

/-- The boot machine after IRQ 10 has been switched to level mode. -/
def levelTenMachine : Machine :=
  { bootMachine with
      SWInterruptHandlerTable := bootMachine.SWInterruptHandlerTable.set 14
        .HalpHardwareInterruptLevel,
      HalpSpecialDismissTable := bootMachine.HalpSpecialDismissTable.set 10
        .HalpDismissIrqLevel }

/-- An environment for examples: the level replay entry is the routine of this file, every
other handler returns at once. -/
def levelInvoke : Invoke :=
  fun _ h m =>
    match h with
    | .HalpHardwareInterruptLevel => HalpHardwareInterruptLevel idleInvoke m
    | _ => .ret () m

/-! ## Software interrupt traps and the replayed vector path -/

/-- Modelled from the spec: the routines outside pic.c that the handlers of this file call
(section 6.3, consumed upcalls): unexpected_interrupt, kernel APC delivery, the kernel DPC
dispatcher, and the device service routine connected to a vector. -/
structure Kernel where
  KiUnexpectedInterrupt : Machine → Outcome Unit
  KiDeliverApc : Machine → Machine
  KiDispatchInterrupt : Machine → Machine
  ServiceRoutine : Nat → Machine → Machine

/-- The environment that executes a handler of SWInterruptHandlerTable2. -/
abbrev Invoke2 := SwHandler2 → Machine → Outcome Unit

/-- Modelled from the spec: HalpEndSoftwareInterrupt, declared at the top of pic.c and defined
in assembly elsewhere; section 4.5 describes it as the drain protocol returning a tail, which
then runs on the trap frame of the caller.  It calls HalpEndSoftwareInterrupt2 and passes
control to the handler returned, if any. -/
def HalpEndSoftwareInterrupt (run : Invoke) (run2 : Invoke2) (fuel : Nat) (OldIrql : Nat)
    (s : Machine) : Outcome Unit :=
  (HalpEndSoftwareInterrupt2 run fuel OldIrql s).andThen fun t m =>
    match t with
    | none => .ret () m
    | some h => run2 h m

/-- The inline routine _HalpApcInterruptHandler; its last step KiEoiHelper leaves the
interrupt, so that the call is over when HalpEndSoftwareInterrupt is. -/
def _HalpApcInterruptHandler (K : Kernel) (run : Invoke) (run2 : Invoke2) (fuel : Nat)
    (s : Machine) : Outcome Unit :=
  let CurrentIrql := s.Irql
  let s1 := { s with Irql := APC_LEVEL,
                     IRR := s.IRR &&& (0xFFFFFFFF ^^^ (1 <<< APC_LEVEL)) }
  let s2 := K.KiDeliverApc { s1 with IF := true }
  HalpEndSoftwareInterrupt run run2 fuel CurrentIrql { s2 with IF := false }

/-- HalpApcInterrupt2ndEntry. -/
def HalpApcInterrupt2ndEntry (K : Kernel) (run : Invoke) (run2 : Invoke2) (fuel : Nat)
    (s : Machine) : Outcome Unit :=
  _HalpApcInterruptHandler K run run2 fuel s

/-- HalpApcInterruptHandler, reached from the entry HalpApcInterrupt of slot 1: the trap frame
it builds holds the flags of the caller, which the exit from the interrupt restores. -/
def HalpApcInterruptHandler (K : Kernel) (run : Invoke) (run2 : Invoke2) (fuel : Nat)
    (s : Machine) : Outcome Unit :=
  (_HalpApcInterruptHandler K run run2 fuel s).andThen fun _ m => .ret () { m with IF := s.IF }

/-- The inline routine _HalpDispatchInterruptHandler: the IRQL found at entry, and the state
after the kernel has dispatched. -/
def _HalpDispatchInterruptHandler (K : Kernel) (s : Machine) : Nat × Machine :=
  let CurrentIrql := s.Irql
  let s1 := { s with Irql := DISPATCH_LEVEL,
                     IRR := s.IRR &&& (0xFFFFFFFF ^^^ (1 <<< DISPATCH_LEVEL)) }
  let s2 := K.KiDispatchInterrupt { s1 with IF := true }
  (CurrentIrql, { s2 with IF := false })

/-- HalpDispatchInterrupt2ndEntry. -/
def HalpDispatchInterrupt2ndEntry (K : Kernel) (run : Invoke) (run2 : Invoke2) (fuel : Nat)
    (s : Machine) : Outcome Unit :=
  let r := _HalpDispatchInterruptHandler K s
  HalpEndSoftwareInterrupt run run2 fuel r.1 r.2

/-- HalpDispatchInterrupt2. -/
def HalpDispatchInterrupt2 (K : Kernel) (run : Invoke) (s : Machine) : Outcome Unit :=
  let r := _HalpDispatchInterruptHandler K s
  let OldIrql := r.1
  let s1 := { r.2 with Irql := OldIrql }
  match FindHigherIrqlMask[OldIrql]? with
  | none => .undefined
  | some higher =>
    let PendingIrqlMask := s1.IRR &&& higher
    if PendingIrqlMask ≠ 0 then
      let PendingIrql := BitScanReverse PendingIrqlMask
      let s2 :=
        if PendingIrql > DISPATCH_LEVEL then
          let s3 := writePicMask (s1.IDR &&& 0xFFFF) s1
          { s3 with IRR := s3.IRR ^^^ (1 <<< PendingIrql) }
        else s1
      callSW run PendingIrql s2
    else .ret () s1

/-- Modelled from the spec: the path of vector PRIMARY_VECTOR_BASE + x, which the trampoline
HalpHardwareInterrupt x enters with its one int instruction (section 4.6: vector stub, then
begin_system_interrupt, the device service routine iff accepted, end_system_interrupt with
its drain loop, then IRET).  The stub passes the IRQL PROFILE_LEVEL - x of the linear mapping;
a refused interrupt returns at once; the tail returned by HalEndSystemInterrupt runs on the
same trap frame; the exit restores the interrupt flag found at entry. -/
def vectorStub (K : Kernel) (run : Invoke) (run2 : Invoke2) (fuel : Nat) (x : Nat)
    (s : Machine) : Outcome Unit :=
  ((HalBeginSystemInterrupt (PROFILE_LEVEL - x) (PRIMARY_VECTOR_BASE + x)
      { s with IF := false }).andThen fun r m =>
    match r with
    | (true, some OldIrql) =>
      let m1 := K.ServiceRoutine (PRIMARY_VECTOR_BASE + x) m
      (HalEndSystemInterrupt run fuel OldIrql { m1 with IF := false }).andThen fun t m2 =>
        match t with
        | none => .ret () m2
        | some h => run2 h m2
    | (true, none) => .undefined
    | (false, _) => .ret () m).andThen fun _ m => .ret () { m with IF := s.IF }

/-- The handlers of SWInterruptHandlerTable2 with the kernel K, nesting at most n deep. -/
def kernelInvoke2 (K : Kernel) (run : Invoke) : Nat → Invoke2
  | 0, _, _ => .unfinished
  | n + 1, h, s =>
    match h with
    | .KiUnexpectedInterrupt => K.KiUnexpectedInterrupt s
    | .HalpApcInterrupt2ndEntry => HalpApcInterrupt2ndEntry K run (kernelInvoke2 K run n) n s
    | .HalpDispatchInterrupt2ndEntry =>
      HalpDispatchInterrupt2ndEntry K run (kernelInvoke2 K run n) n s

/-- The handlers of SWInterruptHandlerTable with the kernel K, nesting at most n deep; n also
bounds the iterations of each drain loop entered. -/
def kernelInvoke (K : Kernel) : Nat → Invoke
  | 0 => fun _ _ _ => .unfinished
  | n + 1 => fun _ h s =>
    match h with
    | .KiUnexpectedInterrupt => K.KiUnexpectedInterrupt s
    | .HalpApcInterrupt =>
      HalpApcInterruptHandler K (kernelInvoke K n) (kernelInvoke2 K (kernelInvoke K n) n) n s
    | .HalpDispatchInterrupt2 => HalpDispatchInterrupt2 K (kernelInvoke K n) s
    | .HalpHardwareInterrupt x =>
      vectorStub K (kernelInvoke K n) (kernelInvoke2 K (kernelInvoke K n) n) n x s
    | .HalpHardwareInterruptLevel => HalpHardwareInterruptLevel (kernelInvoke K n) s

/-- A kernel for examples: the upcalls change nothing and an unexpected interrupt ends in
undefined behaviour. -/
def quietKernel : Kernel :=
  { KiUnexpectedInterrupt := fun _ => .undefined,
    KiDeliverApc := fun m => m,
    KiDispatchInterrupt := fun m => m,
    ServiceRoutine := fun _ m => m }

/-- Dismissal routines of the edge kind. -/
def HalDismiss.edge : HalDismiss → Bool
  | .HalpDismissIrqGeneric => true
  | .HalpDismissIrq07 => true
  | .HalpDismissIrq13 => true
  | .HalpDismissIrq15 => true
  | _ => false

/-- The shapes the two mutable tables can take: slots 0 to 3 of SWInterruptHandlerTable are
never written, and slot k + 4 holds either the trampoline of IRQ k, with an edge dismissal
routine for IRQ k, or the level replay entry. -/
def TablesWellFormed (s : Machine) : Prop :=
  s.SWInterruptHandlerTable.length = 20 ∧
  s.SWInterruptHandlerTable.take 4 = SWInterruptHandlerTable.take 4 ∧
  ∀ k, k < 16 →
    s.SWInterruptHandlerTable[k + 4]? = some .HalpHardwareInterruptLevel ∨
    (s.SWInterruptHandlerTable[k + 4]? = some (.HalpHardwareInterrupt k) ∧
      s.HalpSpecialDismissTable[k]?.map HalDismiss.edge = some true)

/-- The in-service register that the dismissal routine d reads answers with bit 7 set, so
that d does not take its interrupt for a spurious one; only the edge routines of IR7 and IR15
read such a register. -/
def SlotInService (d : HalDismiss) (s : Machine) : Prop :=
  (d = .HalpDismissIrq07 → s.pic1CtlIn.testBit 7 = true) ∧
  (d = .HalpDismissIrq15 → s.pic2CtlIn.testBit 7 = true)

/-- Every deferred hardware IRQ is still in service: the defer path sends no EOI, so for each
pending IRR bit k + 4 the in-service register that the dismissal routine of slot k reads
answers with bit 7 set.  Nothing is asked of the registers when no IR7 or IR15 is pending. -/
def InServiceDeferred (s : Machine) : Prop :=
  ∀ k d, k < 16 → s.IRR.testBit (k + 4) = true → s.HalpSpecialDismissTable[k]? = some d →
    SlotInService d s

/-- The tables and the answers of the two control ports: what the drain reads and never
writes. -/
def Machine.fixed (s : Machine) : List SwHandler × List HalDismiss × Nat × Nat :=
  (s.SWInterruptHandlerTable, s.HalpSpecialDismissTable, s.pic1CtlIn, s.pic2CtlIn)

/-- State m2 has the IRQL, the IRR, the IrrActive, the tables and the control port answers of
state m1. -/
def Same (m1 m2 : Machine) : Prop :=
  m2.Irql = m1.Irql ∧ m2.IRR = m1.IRR ∧ m2.IrrActive = m1.IrrActive ∧ m2.fixed = m1.fixed

/-- State m2 is what a completed drain at IRQL 0 makes of state m1: nothing above
PASSIVE_LEVEL is pending, and IrrActive, the tables and the control port answers are those
of m1. -/
def Drained (m1 m2 : Machine) : Prop :=
  m2.Irql = 0 ∧ m2.IRR &&& 0xFFFFFFFE = 0 ∧ m2.IrrActive = m1.IrrActive ∧ m2.fixed = m1.fixed

/-- An upcall that latches nothing: it returns with the control block, the tables and the
answers of the control ports as it found them. -/
def Quiet (f : Machine → Machine) : Prop :=
  ∀ m, Same m (f m)

/-- The kernel latches no interrupt during its upcalls, and an unexpected interrupt does not
return. -/
def Kernel.Quiescent (K : Kernel) : Prop :=
  Quiet K.KiDeliverApc ∧ Quiet K.KiDispatchInterrupt ∧ (∀ v, Quiet (K.ServiceRoutine v)) ∧
  ∀ m m', K.KiUnexpectedInterrupt m ≠ .ret () m'

/-- Every pending bit has a handler that returns: the IRR holds no bit beyond slot 19 and not
bit 3, whose slot is KiUnexpectedInterrupt. -/
def PendingValid (s : Machine) : Prop :=
  s.IRR < 2 ^ 20 ∧ s.IRR.testBit 3 = false

/-- The tail returned by a drain loop, if any, is the second entry of a software interrupt
that is pending. -/
def TailPending (t : Option SwHandler2) (m : Machine) : Prop :=
  match t with
  | none => True
  | some h =>
    (h = .HalpApcInterrupt2ndEntry ∧ m.IRR.testBit 1 = true) ∨
    (h = .HalpDispatchInterrupt2ndEntry ∧ m.IRR.testBit 2 = true)

/-! ## Mode switching -/

/-- The operations that write the two dispatch tables. -/
inductive TableOp where
  | initializePICs (EnableInterrupts : Bool)
  | enableSystemInterrupt (Vector Irql : Nat) (InterruptMode : KINTERRUPT_MODE)
deriving DecidableEq

/-- One table-writing operation; the value it returns is dropped. -/
def TableOp.exec (HalpInitializeLegacyPICs : Machine → Machine)
    (HalpRegisterVector : Nat → Nat → Nat → Machine → Machine) (op : TableOp) (s : Machine) :
    Outcome Unit :=
  match op with
  | .initializePICs EnableInterrupts =>
    HalpInitializePICs HalpInitializeLegacyPICs HalpRegisterVector EnableInterrupts s
  | .enableSystemInterrupt Vector Irql InterruptMode =>
    (HalEnableSystemInterrupt Vector Irql InterruptMode s).andThen fun _ m => .ret () m

/-- A sequence of table-writing operations, executed in order. -/
def execTableOps (HalpInitializeLegacyPICs : Machine → Machine)
    (HalpRegisterVector : Nat → Nat → Nat → Machine → Machine) :
    List TableOp → Machine → Outcome Unit
  | [], s => .ret () s
  | op :: ops, s =>
    (op.exec HalpInitializeLegacyPICs HalpRegisterVector s).andThen fun _ m =>
      execTableOps HalpInitializeLegacyPICs HalpRegisterVector ops m

/-- Slot k is in edge mode: the dismiss table holds its initial routine and the handler table
the trampoline of IRQ k. -/
def EdgeSlot (s : Machine) (k : Nat) : Prop :=
  s.HalpSpecialDismissTable[k]? = HalpSpecialDismissTable[k]? ∧
  s.SWInterruptHandlerTable[k + 4]? = some (.HalpHardwareInterrupt k)

/-- Slot k is in level mode: the dismiss table holds the level routine of slot k and the
handler table the level replay entry. -/
def LevelSlot (s : Machine) (k : Nat) : Prop :=
  s.HalpSpecialDismissTable[k]? = HalpSpecialDismissLevelTable[k]? ∧
  s.SWInterruptHandlerTable[k + 4]? = some .HalpHardwareInterruptLevel

/-- The two dispatch tables have 16 and 20 entries and each of the 16 IRQ slots is in edge
mode or in level mode. -/
def TablesCoherent (s : Machine) : Prop :=
  s.HalpSpecialDismissTable.length = 16 ∧ s.SWInterruptHandlerTable.length = 20 ∧
  ∀ k, k < 16 → EdgeSlot s k ∨ LevelSlot s k

/-- Disabled IRQs are masked: every bit set in IDR & 0xFFFF is set in the 16-bit PIC mask. -/
def DisabledMasked (s : Machine) : Prop :=
  ∀ j, j < 16 → s.IDR.testBit j = true → s.picMask.testBit j = true

/-! ## Auxiliary facts -/

theorem vectorIrq_base (k : Nat) (hk : k < 16) : vectorIrq (PRIMARY_VECTOR_BASE + k) = k := by
  unfold vectorIrq PRIMARY_VECTOR_BASE
  omega

theorem KiI8259MaskTable_get (i : Nat) (h : i ≤ 31) :
    KiI8259MaskTable[i]? = some (KiI8259MaskTable.getD i 0) := by
  interval_cases i <;> rfl

theorem FindHigherIrqlMask_get (i : Nat) (h : i ≤ 31) :
    FindHigherIrqlMask[i]? = some (FindHigherIrqlMask.getD i 0) := by
  interval_cases i <;> rfl

theorem sendEoi_eq (k : Nat) (hk : k < 16) (s : Machine) :
    sendEoi k s =
      { s with trace := s.trace ++
          (if k < 8 then [PortEvent.mk .write 0x20 (0x60 ||| k) s.pcr]
           else [PortEvent.mk .write 0xA0 (0x60 ||| (k - 8)) s.pcr,
                 PortEvent.mk .write 0x20 0x62 s.pcr]) } := by
  interval_cases k <;> simp [sendEoi, outbyte, Machine.pcr, Ocw2SpecificEoi] <;> decide

theorem writePicMask_eq (m : Nat) (hm : m < 65536) (s : Machine) :
    writePicMask m s =
      { s with pic1Mask := m % 256, pic2Mask := m / 256,
               trace := s.trace ++ [PortEvent.mk .write 0x21 (m % 256) s.pcr,
                                    PortEvent.mk .write 0xA1 (m / 256) s.pcr] } := by
  have h : m / 256 % 256 = m / 256 := by omega
  simp [writePicMask, outbyte, Machine.pcr, h]

theorem and_ffff_lt (a : Nat) : a &&& 0xFFFF < 65536 := by
  have := @Nat.and_le_right a 0xFFFF
  omega

/-! ## Dismissal -/

/-- C1 (edge accept): when slot k (k in 0..15) of the dismiss table holds the generic edge
routine and the target IRQL T is above the current one, HalBeginSystemInterrupt T (BASE + k)
returns TRUE and stores the previous IRQL through OldIrql; the IRQL becomes T, interrupts are
enabled, IRR, IDR, IrrActive, both mask registers and the tables stay as they were, and the
only port accesses are the specific EOI: the byte 0x60|k to port 0x20 when k < 8, otherwise
the byte 0x60|(k-8) to port 0xA0 followed by 0x62 to port 0x20. -/
theorem edge_accept (k T : Nat) (s : Machine) (hk : k < 16)
    (hd : s.HalpSpecialDismissTable[k]? = some .HalpDismissIrqGeneric)
    (hT : T > s.Irql) :
    HalBeginSystemInterrupt T (PRIMARY_VECTOR_BASE + k) s =
      .ret (true, some s.Irql)
        { s with
            Irql := T, IF := true,
            trace := s.trace ++
              (if k < 8 then
                [PortEvent.mk .write 0x20 (0x60 ||| k) ⟨T, s.IRR, s.IDR, s.IrrActive⟩]
               else
                [PortEvent.mk .write 0xA0 (0x60 ||| (k - 8)) ⟨T, s.IRR, s.IDR, s.IrrActive⟩,
                 PortEvent.mk .write 0x20 0x62 ⟨T, s.IRR, s.IDR, s.IrrActive⟩]) } := by
  unfold HalBeginSystemInterrupt
  simp only [vectorIrq_base k hk, hd, callDismiss, HalpDismissIrqGeneric,
    _HalpDismissIrqGeneric, if_pos hT, sendEoi_eq k hk]
  rfl

/-- Scenario S1 as an instance of edge_accept: IRQ 4 at IRQL 0 with target PROFILE_LEVEL - 4
gives (TRUE, 0), the byte 0x64 on port 0x20 and an unchanged IRR. -/
theorem edge_accept_witness :
    (4 < 16 ∧ bootMachine.HalpSpecialDismissTable[4]? = some .HalpDismissIrqGeneric ∧
      PROFILE_LEVEL - 4 > bootMachine.Irql) ∧
    HalBeginSystemInterrupt (PROFILE_LEVEL - 4) (PRIMARY_VECTOR_BASE + 4) bootMachine =
      .ret (true, some 0)
        { bootMachine with
            Irql := 23, IF := true,
            trace := [PortEvent.mk .write 0x20 0x64 ⟨23, 0, 0, 0⟩] } :=
  ⟨by decide, edge_accept 4 (PROFILE_LEVEL - 4) bootMachine (by decide) (by decide) (by decide)⟩

theorem testBit_or_bit (a i j : Nat) :
    (a ||| (1 <<< i)).testBit j = (a.testBit j || decide (i = j)) := by
  rw [Nat.testBit_or, Nat.one_shiftLeft, Nat.testBit_two_pow]

/-- C2 (edge defer): when slot k (k in 0..15) of the dismiss table holds the generic edge
routine and the target IRQL T is not above the current IRQL (itself at most 31),
HalBeginSystemInterrupt T (BASE + k) returns FALSE and stores nothing through OldIrql; Irql,
IDR, IrrActive, the interrupt flag and the tables are unchanged, bit k+4 of IRR is set and
every other IRR bit is as before, and the only port accesses are the two writes of the mask
(KiI8259MaskTable[Irql] | IDR) & 0xFFFF, low byte to port 0x21 and high byte to port 0xA1:
nothing goes to the control ports 0x20 and 0xA0. -/
theorem edge_defer (k T : Nat) (s : Machine) (hk : k < 16)
    (hd : s.HalpSpecialDismissTable[k]? = some .HalpDismissIrqGeneric)
    (hT : T ≤ s.Irql) (hI : s.Irql ≤ 31) :
    HalBeginSystemInterrupt T (PRIMARY_VECTOR_BASE + k) s =
      .ret (false, none)
        { s with
            IRR := s.IRR ||| (1 <<< (k + 4)),
            pic1Mask := ((KiI8259MaskTable.getD s.Irql 0 ||| s.IDR) &&& 0xFFFF) % 256,
            pic2Mask := ((KiI8259MaskTable.getD s.Irql 0 ||| s.IDR) &&& 0xFFFF) / 256,
            trace := s.trace ++
              [PortEvent.mk .write 0x21
                 (((KiI8259MaskTable.getD s.Irql 0 ||| s.IDR) &&& 0xFFFF) % 256)
                 ⟨s.Irql, s.IRR ||| (1 <<< (k + 4)), s.IDR, s.IrrActive⟩,
               PortEvent.mk .write 0xA1
                 (((KiI8259MaskTable.getD s.Irql 0 ||| s.IDR) &&& 0xFFFF) / 256)
                 ⟨s.Irql, s.IRR ||| (1 <<< (k + 4)), s.IDR, s.IrrActive⟩] } ∧
    (s.IRR ||| (1 <<< (k + 4))).testBit (k + 4) = true ∧
    ∀ j, j ≠ k + 4 → (s.IRR ||| (1 <<< (k + 4))).testBit j = s.IRR.testBit j := by
  refine ⟨?_, ?_, ?_⟩
  · unfold HalBeginSystemInterrupt
    have hT' : ¬ T > s.Irql := by omega
    have hk' : ¬ k + 4 ≥ 32 := by omega
    simp only [vectorIrq_base k hk, hd, callDismiss, HalpDismissIrqGeneric,
      _HalpDismissIrqGeneric, if_neg hT', if_neg hk', KiI8259MaskTable_get s.Irql hI,
      writePicMask_eq _ (and_ffff_lt _)]
    rfl
  · rw [testBit_or_bit]
    simp
  · intro j hj
    have : ¬ (k + 4 = j) := fun h => hj h.symm
    rw [testBit_or_bit]
    simp [this]

/-- Scenario S2 as an instance of edge_defer: at IRQL PROFILE_LEVEL - 3, IRQ 5 is deferred and
bit 9 of IRR is set. -/
theorem edge_defer_witness :
    (5 < 16 ∧
      ({ bootMachine with Irql := PROFILE_LEVEL - 3 } : Machine).HalpSpecialDismissTable[5]? =
        some .HalpDismissIrqGeneric ∧
      PROFILE_LEVEL - 5 ≤ ({ bootMachine with Irql := PROFILE_LEVEL - 3 } : Machine).Irql ∧
      ({ bootMachine with Irql := PROFILE_LEVEL - 3 } : Machine).Irql ≤ 31) ∧
    HalBeginSystemInterrupt (PROFILE_LEVEL - 5) (PRIMARY_VECTOR_BASE + 5)
        { bootMachine with Irql := PROFILE_LEVEL - 3 } =
      .ret (false, none)
        { bootMachine with
            Irql := 24, IRR := 0x200, pic1Mask := 0xF8, pic2Mask := 0xFE,
            trace := [PortEvent.mk .write 0x21 0xF8 ⟨24, 0x200, 0, 0⟩,
                      PortEvent.mk .write 0xA1 0xFE ⟨24, 0x200, 0, 0⟩] } ∧
    (0x200 : Nat).testBit 9 = true :=
  ⟨by decide,
   (edge_defer 5 (PROFILE_LEVEL - 5) { bootMachine with Irql := PROFILE_LEVEL - 3 }
      (by decide) (by decide) (by decide) (by decide)).1,
   by decide⟩

/-- C3 (level dismissal): for k in 0..15 and a target IRQL T of at most 31, the generic level
routine writes the mask (KiI8259MaskTable[T] | IDR) & 0xFFFF (these two writes see the old
IRR), sets bit k+4 of IRR, and then sends the specific EOI (these writes see the new IRR and
the old Irql): 0x60|(k-8) to port 0xA0 then 0x62 to port 0x20 when k >= 8, else 0x60|k to
port 0x20.  All of this happens whether or not the interrupt is accepted.  The routine returns
TRUE exactly when T > Irql, and then it stores the previous IRQL through OldIrql, sets Irql
to T and enables interrupts; otherwise it returns FALSE and leaves Irql as it was. -/
theorem level_dismissal (k T : Nat) (s : Machine) (hk : k < 16) (hT : T ≤ 31) :
    HalpDismissIrqLevel T k s =
      .ret (decide (T > s.Irql), if T > s.Irql then some s.Irql else none)
        { s with
            Irql := if T > s.Irql then T else s.Irql,
            IF := if T > s.Irql then true else s.IF,
            IRR := s.IRR ||| (1 <<< (k + 4)),
            pic1Mask := ((KiI8259MaskTable.getD T 0 ||| s.IDR) &&& 0xFFFF) % 256,
            pic2Mask := ((KiI8259MaskTable.getD T 0 ||| s.IDR) &&& 0xFFFF) / 256,
            trace := s.trace ++
              [PortEvent.mk .write 0x21
                 (((KiI8259MaskTable.getD T 0 ||| s.IDR) &&& 0xFFFF) % 256)
                 ⟨s.Irql, s.IRR, s.IDR, s.IrrActive⟩,
               PortEvent.mk .write 0xA1
                 (((KiI8259MaskTable.getD T 0 ||| s.IDR) &&& 0xFFFF) / 256)
                 ⟨s.Irql, s.IRR, s.IDR, s.IrrActive⟩] ++
              (if k < 8 then
                [PortEvent.mk .write 0x20 (0x60 ||| k)
                   ⟨s.Irql, s.IRR ||| (1 <<< (k + 4)), s.IDR, s.IrrActive⟩]
               else
                [PortEvent.mk .write 0xA0 (0x60 ||| (k - 8))
                   ⟨s.Irql, s.IRR ||| (1 <<< (k + 4)), s.IDR, s.IrrActive⟩,
                 PortEvent.mk .write 0x20 0x62
                   ⟨s.Irql, s.IRR ||| (1 <<< (k + 4)), s.IDR, s.IrrActive⟩]) } ∧
    (s.IRR ||| (1 <<< (k + 4))).testBit (k + 4) = true := by
  refine ⟨?_, by rw [testBit_or_bit]; simp⟩
  have hk' : ¬ k + 4 ≥ 32 := by omega
  simp only [HalpDismissIrqLevel, _HalpDismissIrqLevel, KiI8259MaskTable_get T hT,
    writePicMask_eq _ (and_ffff_lt _), if_neg hk', sendEoi_eq k hk]
  by_cases h : T > s.Irql
  · simp [h, Machine.pcr]
  · simp [h, Machine.pcr]
/-- The dismissal of scenario S4 as an instance of level_dismissal: IRQ 10 at IRQL 0 with a DPC
pending. -/
theorem level_dismissal_witness :
    (10 < 16 ∧ PROFILE_LEVEL - 10 ≤ 31) ∧
    HalpDismissIrqLevel (PROFILE_LEVEL - 10) 10 { bootMachine with IRR := 4 } =
      .ret (true, some 0)
        { bootMachine with
            Irql := 17, IF := true, IRR := 0x4004, pic1Mask := 0x00, pic2Mask := 0xFC,
            trace := [PortEvent.mk .write 0x21 0x00 ⟨0, 4, 0, 0⟩,
                      PortEvent.mk .write 0xA1 0xFC ⟨0, 4, 0, 0⟩,
                      PortEvent.mk .write 0xA0 0x62 ⟨0, 0x4004, 0, 0⟩,
                      PortEvent.mk .write 0x20 0x62 ⟨0, 0x4004, 0, 0⟩] } :=
  ⟨by decide,
   (level_dismissal 10 (PROFILE_LEVEL - 10) { bootMachine with IRR := 4 }
      (by decide) (by decide)).1⟩

/-- C4 (spurious IR7 / IR15): when the byte that the slave control port answers has bit 7
clear, HalpDismissIrq15 and HalpDismissIrq15Level return FALSE, the port accesses are exactly
the write of 0x0B to 0xA0, the read of 0xA0 and the write of 0x62 to 0x20, and nothing else
of the machine changes; when the byte that the master control port answers has bit 7 clear,
HalpDismissIrq07 and HalpDismissIrq07Level return FALSE, the port accesses are exactly the
write of 0x0B to 0x20 and the read of 0x20, and nothing else of the machine changes. -/
theorem spurious_ir7_ir15 (T Irq : Nat) (s15 s7 : Machine)
    (h15 : (portByte PIC2_CONTROL_PORT s15).testBit 7 = false)
    (h7 : (portByte PIC1_CONTROL_PORT s7).testBit 7 = false) :
    (HalpDismissIrq15 T Irq s15 =
        .ret (false, none)
          { s15 with trace := s15.trace ++
              [PortEvent.mk .write 0xA0 0x0B s15.pcr,
               PortEvent.mk .read 0xA0 (portByte PIC2_CONTROL_PORT s15) s15.pcr,
               PortEvent.mk .write 0x20 0x62 s15.pcr] } ∧
      HalpDismissIrq15Level T Irq s15 = HalpDismissIrq15 T Irq s15) ∧
    (HalpDismissIrq07 T Irq s7 =
        .ret (false, none)
          { s7 with trace := s7.trace ++
              [PortEvent.mk .write 0x20 0x0B s7.pcr,
               PortEvent.mk .read 0x20 (portByte PIC1_CONTROL_PORT s7) s7.pcr] } ∧
      HalpDismissIrq07Level T Irq s7 = HalpDismissIrq07 T Irq s7) := by
  have e15 : portByte PIC2_CONTROL_PORT (outbyte PIC2_CONTROL_PORT Ocw3ReadIsr s15) =
      portByte PIC2_CONTROL_PORT s15 := by
    simp [portByte, outbyte]
  have e7 : portByte PIC1_CONTROL_PORT (outbyte PIC1_CONTROL_PORT Ocw3ReadIsr s7) =
      portByte PIC1_CONTROL_PORT s7 := by
    simp [portByte, outbyte]
  refine ⟨⟨?_, ?_⟩, ⟨?_, ?_⟩⟩
  · simp only [HalpDismissIrq15, inbyte, e15, h15, if_true]
    simp [outbyte, Machine.pcr, Ocw3ReadIsr, Ocw2SpecificEoi]
  · simp only [HalpDismissIrq15Level, HalpDismissIrq15, inbyte, e15, h15, if_true]
  · simp only [HalpDismissIrq07, inbyte, e7, h7, if_true]
    simp [outbyte, Machine.pcr, Ocw3ReadIsr, Ocw2SpecificEoi]
  · simp only [HalpDismissIrq07Level, HalpDismissIrq07, inbyte, e7, h7, if_true]

/-- Scenario S3 as an instance of spurious_ir7_ir15, together with a spurious IR7. -/
theorem spurious_ir7_ir15_witness :
    ((portByte PIC2_CONTROL_PORT { bootMachine with pic2CtlIn := 0x01 }).testBit 7 = false ∧
     (portByte PIC1_CONTROL_PORT { bootMachine with pic1CtlIn := 0x7F }).testBit 7 = false) ∧
    HalpDismissIrq15 (PROFILE_LEVEL - 15) 15 { bootMachine with pic2CtlIn := 0x01 } =
      .ret (false, none)
        { bootMachine with
            pic2CtlIn := 0x01,
            trace := [PortEvent.mk .write 0xA0 0x0B ⟨0, 0, 0, 0⟩,
                      PortEvent.mk .read 0xA0 0x01 ⟨0, 0, 0, 0⟩,
                      PortEvent.mk .write 0x20 0x62 ⟨0, 0, 0, 0⟩] } ∧
    HalpDismissIrq07 (PROFILE_LEVEL - 7) 7 { bootMachine with pic1CtlIn := 0x7F } =
      .ret (false, none)
        { bootMachine with
            pic1CtlIn := 0x7F,
            trace := [PortEvent.mk .write 0x20 0x0B ⟨0, 0, 0, 0⟩,
                      PortEvent.mk .read 0x20 0x7F ⟨0, 0, 0, 0⟩] } :=
  have h := spurious_ir7_ir15 (PROFILE_LEVEL - 15) 15 { bootMachine with pic2CtlIn := 0x01 }
    { bootMachine with pic1CtlIn := 0x7F } (by decide) (by decide)
  ⟨by decide, h.1.1, by decide⟩

/-- C5 (raise is software-only): when the new IRQL is at least the current one, KfRaiseIrql
returns the previous IRQL and the resulting machine differs from the old one in Irql alone, so
IRR, IDR, IrrActive, the mask registers and the port trace are untouched; the same holds for
KeRaiseIrqlToDpcLevel and KeRaiseIrqlToSynchLevel with their fixed targets.  This holds with
and without DBG. -/
theorem raise_software_only (dbg : Bool) (new SYNCH_LEVEL : Nat) (s : Machine)
    (h : s.Irql ≤ new) :
    KfRaiseIrql dbg new s = .ret s.Irql { s with Irql := new } ∧
    (s.Irql ≤ DISPATCH_LEVEL →
      KeRaiseIrqlToDpcLevel dbg s = .ret s.Irql { s with Irql := DISPATCH_LEVEL }) ∧
    (s.Irql ≤ SYNCH_LEVEL →
      KeRaiseIrqlToSynchLevel SYNCH_LEVEL dbg s = .ret s.Irql { s with Irql := SYNCH_LEVEL }) := by
  refine ⟨?_, ?_, ?_⟩
  · have : ¬ (dbg = true ∧ s.Irql > new) := by omega
    simp [KfRaiseIrql, this]
  · intro hd
    have : ¬ (dbg = true ∧ s.Irql > DISPATCH_LEVEL) := by omega
    simp [KeRaiseIrqlToDpcLevel, this]
  · intro hs
    have : ¬ (dbg = true ∧ s.Irql > SYNCH_LEVEL) := by omega
    simp [KeRaiseIrqlToSynchLevel, this]

/-- An instance of raise_software_only: a raise from IRQL 0 to 5 in a DBG build. -/
theorem raise_software_only_witness :
    bootMachine.Irql ≤ 5 ∧
    KfRaiseIrql true 5 bootMachine = .ret 0 { bootMachine with Irql := 5 } :=
  ⟨by decide, (raise_software_only true 5 DISPATCH_LEVEL bootMachine (by decide)).1⟩

theorem BitScanReverse_go_spec (m : Nat) :
    ∀ n, (∃ i, i < n ∧ m.testBit i = true) →
      m.testBit (BitScanReverse.go m n) = true ∧ BitScanReverse.go m n < n ∧
      ∀ j, BitScanReverse.go m n < j → j < n → m.testBit j = false := by
  intro n
  induction n with
  | zero =>
    rintro ⟨i, hi, _⟩
    omega
  | succ n ih =>
    rintro ⟨i, hi, hb⟩
    unfold BitScanReverse.go
    by_cases hn : m.testBit n = true
    · rw [if_pos hn]
      refine ⟨hn, by omega, ?_⟩
      intro j h1 h2
      omega
    · rw [if_neg hn]
      have hin : i < n := by
        rcases Nat.lt_or_ge i n with h | h
        · exact h
        · have : i = n := by omega
          subst this
          exact absurd hb hn
      obtain ⟨h1, h2, h3⟩ := ih ⟨i, hin, hb⟩
      refine ⟨h1, by omega, ?_⟩
      intro j hj1 hj2
      rcases Nat.lt_or_ge j n with h | h
      · exact h3 j hj1 h
      · have : j = n := by omega
        subst this
        simpa using hn

theorem BitScanReverse_spec (m : Nat) (hm : m ≠ 0) (h32 : m < 2 ^ 32) :
    m.testBit (BitScanReverse m) = true ∧ BitScanReverse m < 32 ∧
    ∀ j, BitScanReverse m < j → m.testBit j = false := by
  obtain ⟨i, hi⟩ := Nat.ne_zero_implies_bit_true hm
  have hi32 : i < 32 := by
    by_contra hge
    have hle : 2 ^ 32 ≤ 2 ^ i := Nat.pow_le_pow_right (by decide) (by omega)
    have := Nat.testBit_lt_two_pow (Nat.lt_of_lt_of_le h32 hle)
    rw [hi] at this
    exact absurd this (by decide)
  obtain ⟨h1, h2, h3⟩ := BitScanReverse_go_spec m 32 ⟨i, hi32, hi⟩
  refine ⟨h1, h2, ?_⟩
  intro j hj
  rcases Nat.lt_or_ge j 32 with h | h
  · exact h3 j hj h
  · have hle : 2 ^ 32 ≤ 2 ^ j := Nat.pow_le_pow_right (by decide) h
    exact Nat.testBit_lt_two_pow (Nat.lt_of_lt_of_le h32 hle)

theorem FindHigherIrqlMask_lt (i : Nat) : FindHigherIrqlMask.getD i 0 < 2 ^ 32 := by
  rcases Nat.lt_or_ge i 32 with h | h
  · interval_cases i <;> decide
  · rw [List.getD_eq_default]
    · decide
    · simpa [FindHigherIrqlMask] using h

theorem pending_lt (irr i : Nat) : irr &&& FindHigherIrqlMask.getD i 0 < 2 ^ 32 :=
  Nat.lt_of_le_of_lt Nat.and_le_right (FindHigherIrqlMask_lt i)

theorem KfLowerIrql_eq (run : Invoke) (dbg : Bool) (old : Nat) (s : Machine)
    (hpre : dbg = true → old ≤ s.Irql) (h31 : old ≤ 31) :
    KfLowerIrql run dbg old s =
      if s.IRR &&& FindHigherIrqlMask.getD old 0 = 0 then .ret () { s with Irql := old }
      else
        (callSW run (BitScanReverse (s.IRR &&& FindHigherIrqlMask.getD old 0))
          (if BitScanReverse (s.IRR &&& FindHigherIrqlMask.getD old 0) > DISPATCH_LEVEL then
            { s with
                Irql := old, IF := false,
                pic1Mask := (s.IDR &&& 0xFFFF) % 256,
                pic2Mask := (s.IDR &&& 0xFFFF) / 256,
                IRR := s.IRR ^^^
                  (1 <<< BitScanReverse (s.IRR &&& FindHigherIrqlMask.getD old 0)),
                trace := s.trace ++
                  [PortEvent.mk .write 0x21 ((s.IDR &&& 0xFFFF) % 256)
                     ⟨old, s.IRR, s.IDR, s.IrrActive⟩,
                   PortEvent.mk .write 0xA1 ((s.IDR &&& 0xFFFF) / 256)
                     ⟨old, s.IRR, s.IDR, s.IrrActive⟩] }
           else { s with Irql := old, IF := false })).andThen
          fun _ m => .ret () { m with IF := s.IF } := by
  have hdbg : ¬ (dbg = true ∧ old > s.Irql) := by
    rintro ⟨h1, h2⟩
    have := hpre h1
    omega
  unfold KfLowerIrql
  simp only [if_neg hdbg, FindHigherIrqlMask_get old h31, writePicMask_eq _ (and_ffff_lt _)]
  generalize FindHigherIrqlMask.getD old 0 = higher
  by_cases hp : s.IRR &&& higher = 0
  · simp only [ne_eq, hp, not_true_eq_false, if_true, if_false]
  · simp only [ne_eq, hp, not_false_eq_true, if_true, if_false]
    by_cases ht : BitScanReverse (s.IRR &&& higher) > DISPATCH_LEVEL
    · simp only [ht, if_true]
      rfl
    · simp only [ht, if_false]

theorem testBit_xor_bit (a i j : Nat) :
    (a ^^^ (1 <<< i)).testBit j = xor (a.testBit j) (decide (i = j)) := by
  rw [Nat.testBit_xor, Nat.one_shiftLeft, Nat.testBit_two_pow]

/-- C7 (lower runs one drain iteration): for KfLowerIrql old on a state that meets the DBG
precondition, with old at most 31 and pending = IRR & FindHigherIrqlMask[old]: when pending
is 0 the result is the old machine with Irql set to old, so no handler runs and no port is
touched; otherwise top = BitScanReverse pending is the highest set bit of pending and the
handler h stored in slot top of SWInterruptHandlerTable is run exactly once, after which the
interrupt flag is restored.  The state in which h starts has Irql = old and interrupts
disabled; when top > DISPATCH_LEVEL the mask IDR & 0xFFFF has been written to the ports 0x21
and 0xA1 (while IRR still had bit top) and then bit top of IRR has been cleared, all other
IRR bits being unchanged; when top <= DISPATCH_LEVEL no port has been written and IRR is
unchanged. -/
theorem lower_one_iteration (run : Invoke) (dbg : Bool) (old : Nat) (s : Machine)
    (hpre : dbg = true → old ≤ s.Irql) (h31 : old ≤ 31) :
    (s.IRR &&& FindHigherIrqlMask.getD old 0 = 0 →
      KfLowerIrql run dbg old s = .ret () { s with Irql := old }) ∧
    (s.IRR &&& FindHigherIrqlMask.getD old 0 ≠ 0 →
      ∀ top, top = BitScanReverse (s.IRR &&& FindHigherIrqlMask.getD old 0) →
        ((s.IRR &&& FindHigherIrqlMask.getD old 0).testBit top = true ∧
          ∀ j, top < j → (s.IRR &&& FindHigherIrqlMask.getD old 0).testBit j = false) ∧
        ∀ h, s.SWInterruptHandlerTable[top]? = some h →
          (top > DISPATCH_LEVEL →
            KfLowerIrql run dbg old s =
              (run top h
                { s with
                    Irql := old, IF := false,
                    pic1Mask := (s.IDR &&& 0xFFFF) % 256,
                    pic2Mask := (s.IDR &&& 0xFFFF) / 256,
                    IRR := s.IRR ^^^ (1 <<< top),
                    trace := s.trace ++
                      [PortEvent.mk .write 0x21 ((s.IDR &&& 0xFFFF) % 256)
                         ⟨old, s.IRR, s.IDR, s.IrrActive⟩,
                       PortEvent.mk .write 0xA1 ((s.IDR &&& 0xFFFF) / 256)
                         ⟨old, s.IRR, s.IDR, s.IrrActive⟩] }).andThen
                (fun _ m => .ret () { m with IF := s.IF }) ∧
            (s.IRR ^^^ (1 <<< top)).testBit top = false ∧
            ∀ j, j ≠ top → (s.IRR ^^^ (1 <<< top)).testBit j = s.IRR.testBit j) ∧
          (top ≤ DISPATCH_LEVEL →
            KfLowerIrql run dbg old s =
              (run top h { s with Irql := old, IF := false }).andThen
                (fun _ m => .ret () { m with IF := s.IF }))) := by
  refine ⟨?_, ?_⟩
  · intro hp
    rw [KfLowerIrql_eq run dbg old s hpre h31, if_pos hp]
  · intro hp top htop
    subst htop
    obtain ⟨h1, _, h3⟩ := BitScanReverse_spec _ hp (pending_lt s.IRR old)
    refine ⟨⟨h1, h3⟩, ?_⟩
    intro h hh
    refine ⟨?_, ?_⟩
    · intro ht
      refine ⟨?_, ?_, ?_⟩
      · rw [KfLowerIrql_eq run dbg old s hpre h31, if_neg hp, if_pos ht]
        simp only [callSW, hh]
      · rw [Nat.testBit_and] at h1
        have hb : s.IRR.testBit
            (BitScanReverse (s.IRR &&& FindHigherIrqlMask.getD old 0)) = true := by
          simp only [Bool.and_eq_true] at h1
          exact h1.1
        rw [testBit_xor_bit, hb]
        simp
      · intro j hj
        have : ¬ (BitScanReverse (s.IRR &&& FindHigherIrqlMask.getD old 0) = j) :=
          fun e => hj e.symm
        rw [testBit_xor_bit, decide_eq_false this, Bool.xor_false]
    · intro ht
      have ht' : ¬ BitScanReverse (s.IRR &&& FindHigherIrqlMask.getD old 0) >
          DISPATCH_LEVEL := by omega
      rw [KfLowerIrql_eq run dbg old s hpre h31, if_neg hp, if_neg ht']
      simp only [callSW, hh]
/-- Scenario S2, second half, as an instance of lower_one_iteration: after IRQ 5 has been
deferred, the lower to IRQL 0 writes the mask IDR, clears bit 9 of IRR and runs the trampoline
of vector BASE + 5 found in slot 9. -/
theorem lower_one_iteration_witness :
    ((true = true → 0 ≤ deferredMachine.Irql) ∧ 0 ≤ 31 ∧
      deferredMachine.IRR &&& FindHigherIrqlMask.getD 0 0 ≠ 0 ∧
      9 = BitScanReverse (deferredMachine.IRR &&& FindHigherIrqlMask.getD 0 0) ∧
      deferredMachine.SWInterruptHandlerTable[9]? = some (.HalpHardwareInterrupt 5) ∧
      9 > DISPATCH_LEVEL) ∧
    KfLowerIrql idleInvoke true 0 deferredMachine =
      .ret ()
        { deferredMachine with
            Irql := 0, IRR := 0, pic1Mask := 0, pic2Mask := 0,
            trace := deferredMachine.trace ++
              [PortEvent.mk .write 0x21 0 ⟨0, 0x200, 0, 0⟩,
               PortEvent.mk .write 0xA1 0 ⟨0, 0x200, 0, 0⟩] } :=
  ⟨by decide,
   ((((lower_one_iteration idleInvoke true 0 deferredMachine (by decide) (by decide)).2
      (by decide) 9 (by decide)).2 (.HalpHardwareInterrupt 5) (by decide)).1 (by decide)).1⟩

theorem Outcome_andThen_eq_ret {α β : Type} (o : Outcome α) (f : α → Machine → Outcome β)
    (b : β) (m2 : Machine) (h : o.andThen f = .ret b m2) :
    ∃ a m1, o = .ret a m1 ∧ f a m1 = .ret b m2 := by
  cases o with
  | ret a m1 => exact ⟨a, m1, rfl, h⟩
  | bugcheck c m => simp [Outcome.andThen] at h
  | undefined => simp [Outcome.andThen] at h
  | unfinished => simp [Outcome.andThen] at h

theorem callSW_ret_Irql (run : Invoke)
    (hrun : ∀ i h m m', run i h m = .ret () m' → m'.Irql = m.Irql)
    (i : Nat) (s : Machine) (a : Unit) (m : Machine) (h : callSW run i s = .ret a m) :
    m.Irql = s.Irql := by
  unfold callSW at h
  split at h
  · cases h
  · exact hrun _ _ _ _ h

theorem callSW_total (run : Invoke) (htot : ∀ i h m, ∃ m', run i h m = .ret () m')
    (i : Nat) (s : Machine) (hi : i < s.SWInterruptHandlerTable.length) :
    ∃ m', callSW run i s = .ret () m' := by
  unfold callSW
  rw [List.getElem?_eq_getElem hi]
  exact htot _ _ _

/-- C6 (raise / lower round trip): from a state with Irql = c, for c <= n <= 31 and replay
handlers that return with the Irql they found, KfRaiseIrql n returns c; whenever the
following KfLowerIrql c returns, Irql is c again; it does return when every handler returns
and every pending IRR bit has a slot in the handler table; and when nothing that may preempt
c is pending (IRR & FindHigherIrqlMask[c] = 0) the lower gives back exactly the machine from
before the raise: no handler has run and the port trace is unchanged. -/
theorem raise_lower_round_trip (run : Invoke) (dbg : Bool) (n : Nat) (s : Machine)
    (hn : s.Irql ≤ n) (hn31 : n ≤ 31)
    (hrun : ∀ i h m m', run i h m = .ret () m' → m'.Irql = m.Irql) :
    KfRaiseIrql dbg n s = .ret s.Irql { s with Irql := n } ∧
    (∀ s2, KfLowerIrql run dbg s.Irql { s with Irql := n } = .ret () s2 → s2.Irql = s.Irql) ∧
    ((∀ i h m, ∃ m', run i h m = .ret () m') → s.IRR < 2 ^ 20 →
      s.SWInterruptHandlerTable.length = 20 →
      ∃ s2, KfLowerIrql run dbg s.Irql { s with Irql := n } = .ret () s2) ∧
    (s.IRR &&& FindHigherIrqlMask.getD s.Irql 0 = 0 →
      KfLowerIrql run dbg s.Irql { s with Irql := n } = .ret () s) := by
  have hc31 : s.Irql ≤ 31 := by omega
  have hE := KfLowerIrql_eq run dbg s.Irql { s with Irql := n } (fun _ => hn) hc31
  dsimp only at hE
  refine ⟨?_, ?_, ?_, ?_⟩
  · have : ¬ (dbg = true ∧ s.Irql > n) := by omega
    simp [KfRaiseIrql, this]
  · intro s2 h2
    rw [hE] at h2
    by_cases hp : s.IRR &&& FindHigherIrqlMask.getD s.Irql 0 = 0
    · rw [if_pos hp] at h2
      cases h2
      rfl
    · rw [if_neg hp] at h2
      obtain ⟨a, m1, hcall, hF⟩ := Outcome_andThen_eq_ret _ _ _ _ h2
      have h1 := callSW_ret_Irql run hrun _ _ _ _ hcall
      cases hF
      rw [h1]
      split <;> rfl
  · intro htot hirr hlen
    rw [hE]
    by_cases hp : s.IRR &&& FindHigherIrqlMask.getD s.Irql 0 = 0
    · rw [if_pos hp]
      exact ⟨_, rfl⟩
    · rw [if_neg hp]
      obtain ⟨h1, _, _⟩ := BitScanReverse_spec _ hp (pending_lt s.IRR s.Irql)
      have hb : s.IRR.testBit (BitScanReverse (s.IRR &&& FindHigherIrqlMask.getD s.Irql 0)) =
          true := by
        rw [Nat.testBit_and, Bool.and_eq_true] at h1
        exact h1.1
      have hlt : BitScanReverse (s.IRR &&& FindHigherIrqlMask.getD s.Irql 0) < 20 := by
        by_contra hge
        have hle : 2 ^ 20 ≤ 2 ^ BitScanReverse (s.IRR &&& FindHigherIrqlMask.getD s.Irql 0) :=
          Nat.pow_le_pow_right (by decide) (by omega)
        have := Nat.testBit_lt_two_pow (Nat.lt_of_lt_of_le hirr hle)
        rw [hb] at this
        exact absurd this (by decide)
      obtain ⟨m', hm'⟩ := callSW_total run htot
        (BitScanReverse (s.IRR &&& FindHigherIrqlMask.getD s.Irql 0))
        (if BitScanReverse (s.IRR &&& FindHigherIrqlMask.getD s.Irql 0) > DISPATCH_LEVEL then
          { s with
              Irql := s.Irql, IF := false,
              pic1Mask := (s.IDR &&& 0xFFFF) % 256,
              pic2Mask := (s.IDR &&& 0xFFFF) / 256,
              IRR := s.IRR ^^^
                (1 <<< BitScanReverse (s.IRR &&& FindHigherIrqlMask.getD s.Irql 0)),
              trace := s.trace ++
                [PortEvent.mk .write 0x21 ((s.IDR &&& 0xFFFF) % 256)
                   ⟨s.Irql, s.IRR, s.IDR, s.IrrActive⟩,
                 PortEvent.mk .write 0xA1 ((s.IDR &&& 0xFFFF) / 256)
                   ⟨s.Irql, s.IRR, s.IDR, s.IrrActive⟩] }
         else { s with Irql := s.Irql, IF := false })
        (by split <;> (simp only [hlen]; exact hlt))
      rw [hm']
      exact ⟨_, rfl⟩
  · intro hp
    rw [hE, if_pos hp]

/-- An instance of raise_lower_round_trip: raise from 0 to 5 and lower again. -/
theorem raise_lower_round_trip_witness :
    (bootMachine.Irql ≤ 5 ∧ 5 ≤ 31) ∧
    KfRaiseIrql true 5 bootMachine = .ret 0 { bootMachine with Irql := 5 } ∧
    KfLowerIrql idleInvoke true 0 { bootMachine with Irql := 5 } = .ret () bootMachine :=
  have h := raise_lower_round_trip idleInvoke true 5 bootMachine (by decide) (by decide)
    (by
      intro i h m m' e
      cases e
      rfl)
  ⟨by decide, h.1, h.2.2.2 (by decide)⟩

/-- C8, the code at the failing input: HalRequestSoftwareInterrupt at DISPATCH_LEVEL from
IRQL APC_LEVEL with nothing pending sets bit 2 of IRR and returns without calling any handler,
whatever the environment is, because the lookup index is IRR & 3 = 0, which gives
PASSIVE_LEVEL; the index IRR & 0b111 = 4 would have given DISPATCH_LEVEL, which is above
APC_LEVEL. -/
theorem request_dispatch_at_apc_level (run : Invoke) :
    HalRequestSoftwareInterrupt run DISPATCH_LEVEL { bootMachine with Irql := APC_LEVEL } =
      .ret () { bootMachine with Irql := APC_LEVEL, IRR := 4 } ∧
    SWInterruptLookUpTable[(4 : Nat) &&& 3]? = some PASSIVE_LEVEL ∧
    SWInterruptLookUpTable[(4 : Nat) &&& 0b111]? = some DISPATCH_LEVEL ∧
    DISPATCH_LEVEL > APC_LEVEL := by
  refine ⟨rfl, by decide, by decide, by decide⟩

theorem FindHigherIrqlMask_some_lt (i higher : Nat) (h : FindHigherIrqlMask[i]? = some higher) :
    higher < 2 ^ 32 := by
  have := FindHigherIrqlMask_lt i
  rw [List.getD_eq_getElem?_getD, h] at this
  simpa using this

theorem top_ne_of_clear (irr higher k : Nat) (hh : higher < 2 ^ 32) (hp : irr &&& higher ≠ 0)
    (hk : irr.testBit k = false) : BitScanReverse (irr &&& higher) ≠ k := by
  obtain ⟨h1, _, _⟩ := BitScanReverse_spec _ hp (Nat.lt_of_le_of_lt Nat.and_le_right hh)
  rw [Nat.testBit_and, Bool.and_eq_true] at h1
  intro e
  rw [e, hk] at h1
  exact absurd h1.1 (by decide)

theorem callSW_congr (run run' : Invoke) (i : Nat) (h : run' i = run i) (s : Machine) :
    callSW run' i s = callSW run i s := by
  unfold callSW
  rw [h]

theorem KfLowerIrql_congr (run run' : Invoke) (dbg : Bool) (old : Nat) (s : Machine) (k : Nat)
    (hk : s.IRR.testBit k = false) (hagree : ∀ i, i ≠ k → run' i = run i) :
    KfLowerIrql run' dbg old s = KfLowerIrql run dbg old s := by
  unfold KfLowerIrql
  by_cases hd : dbg = true ∧ old > s.Irql
  · rw [if_pos hd, if_pos hd]
  · rw [if_neg hd, if_neg hd]
    cases hl : FindHigherIrqlMask[old]? with
    | none => rfl
    | some higher =>
      dsimp only
      by_cases hp : s.IRR &&& higher = 0
      · simp only [hp, ne_eq, not_true_eq_false, if_false]
      · have hne := top_ne_of_clear s.IRR higher k (FindHigherIrqlMask_some_lt old higher hl) hp hk
        simp only [ne_eq, hp, not_false_eq_true, if_true]
        rw [callSW_congr run run' _ (hagree _ hne)]

theorem HalpEndSoftwareInterrupt2_loop_congr (run run' : Invoke) (old : Nat)
    (hagree : ∀ i, i > DISPATCH_LEVEL → run' i = run i) :
    ∀ fuel s, HalpEndSoftwareInterrupt2.loop run' old fuel s =
      HalpEndSoftwareInterrupt2.loop run old fuel s := by
  intro fuel
  induction fuel with
  | zero => intro s; rfl
  | succ fuel ih =>
    intro s
    unfold HalpEndSoftwareInterrupt2.loop
    cases hl : FindHigherIrqlMask[old]? with
    | none => rfl
    | some higher =>
      dsimp only
      by_cases hp : s.IRR &&& higher = 0
      · rw [if_pos hp, if_pos hp]
      · rw [if_neg hp, if_neg hp]
        by_cases ha : s.IrrActive &&& 0xFFFFFFF0 ≠ 0
        · rw [if_pos ha, if_pos ha]
        · rw [if_neg ha, if_neg ha]
          by_cases ht : BitScanReverse (s.IRR &&& higher) > DISPATCH_LEVEL
          · rw [if_pos ht, if_pos ht, callSW_congr run run' _ (hagree _ ht)]
            congr 1
            funext _ s3
            exact ih _
          · rw [if_neg ht, if_neg ht]

theorem HalEndSystemInterrupt_loop_congr (run run' : Invoke)
    (hagree : ∀ i, i > DISPATCH_LEVEL → run' i = run i) :
    ∀ fuel mask s, HalEndSystemInterrupt.loop run' fuel mask s =
      HalEndSystemInterrupt.loop run fuel mask s := by
  intro fuel
  induction fuel with
  | zero => intro mask s; rfl
  | succ fuel ih =>
    intro mask s
    unfold HalEndSystemInterrupt.loop
    by_cases ht : BitScanReverse mask > DISPATCH_LEVEL
    · rw [if_pos ht, if_pos ht]
      dsimp only
      by_cases ha : (writePicMask (s.IDR &&& 0xFFFF) s).IrrActive &&&
          (1 <<< BitScanReverse mask) ≠ 0
      · rw [if_pos ha, if_pos ha]
      · rw [if_neg ha, if_neg ha, callSW_congr run run' _ (hagree _ ht)]
        congr 1
        funext _ s3
        dsimp only
        cases FindHigherIrqlMask[s3.Irql]? with
        | none => rfl
        | some higher =>
          dsimp only
          split
          · rfl
          · exact ih _ _
    · rw [if_neg ht, if_neg ht]
theorem callSW_ret_clear (run : Invoke) (k : Nat)
    (hrun : ∀ i h m m', run i h m = .ret () m' → m.IRR.testBit k = false →
      m'.IRR.testBit k = false)
    (i : Nat) (s : Machine) (a : Unit) (m : Machine) (h : callSW run i s = .ret a m)
    (hs : s.IRR.testBit k = false) : m.IRR.testBit k = false := by
  unfold callSW at h
  split at h
  · cases h
  · exact hrun _ _ _ _ h hs

theorem SWInterruptHandlerTable2_inj (i k : Nat) (h hk2 : SwHandler2)
    (hi : SWInterruptHandlerTable2[i]? = some h) (hk : SWInterruptHandlerTable2[k]? = some hk2)
    (hne : i ≠ k) : h ≠ hk2 := by
  have hi3 : i < 3 := by
    by_contra hge
    rw [List.getElem?_eq_none (by simpa [SWInterruptHandlerTable2] using hge)] at hi
    cases hi
  have hk3 : k < 3 := by
    by_contra hge
    rw [List.getElem?_eq_none (by simpa [SWInterruptHandlerTable2] using hge)] at hk
    cases hk
  interval_cases i <;> interval_cases k <;>
    simp [SWInterruptHandlerTable2] at hi hk hne ⊢ <;> (subst hi; subst hk; decide)

theorem HalpEndSoftwareInterrupt2_loop_never_selects (run : Invoke) (k : Nat)
    (hk : k ≤ DISPATCH_LEVEL) (hk2 : SwHandler2)
    (hsel : SWInterruptHandlerTable2[k]? = some hk2)
    (hrun : ∀ i h m m', run i h m = .ret () m' → m.IRR.testBit k = false →
      m'.IRR.testBit k = false)
    (old : Nat) :
    ∀ fuel s m, s.IRR.testBit k = false →
      HalpEndSoftwareInterrupt2.loop run old fuel s ≠ .ret (some hk2) m := by
  intro fuel
  induction fuel with
  | zero =>
    intro s m _ h
    cases h
  | succ fuel ih =>
    intro s m hs
    unfold HalpEndSoftwareInterrupt2.loop
    cases hl : FindHigherIrqlMask[old]? with
    | none =>
      intro h
      cases h
    | some higher =>
      dsimp only
      by_cases hp : s.IRR &&& higher = 0
      · rw [if_pos hp]
        intro h
        cases h
      · rw [if_neg hp]
        by_cases ha : s.IrrActive &&& 0xFFFFFFF0 ≠ 0
        · rw [if_pos ha]
          intro h
          cases h
        · rw [if_neg ha]
          have hne := top_ne_of_clear s.IRR higher k
            (FindHigherIrqlMask_some_lt old higher hl) hp hs
          by_cases ht : BitScanReverse (s.IRR &&& higher) > DISPATCH_LEVEL
          · rw [if_pos ht]
            intro h
            obtain ⟨a, m1, hcall, hrest⟩ := Outcome_andThen_eq_ret _ _ _ _ h
            have hm1 := callSW_ret_clear run k hrun _ _ _ _ hcall (by
              show ((writePicMask (s.IDR &&& 0xFFFF) s).IRR ^^^
                (1 <<< BitScanReverse (s.IRR &&& higher))).testBit k = false
              rw [writePicMask_eq _ (and_ffff_lt _), testBit_xor_bit, decide_eq_false hne,
                Bool.xor_false]
              exact hs)
            exact ih { m1 with IrrActive := m1.IrrActive ^^^
                (1 <<< BitScanReverse (s.IRR &&& higher)) } m hm1 hrest
          · rw [if_neg ht]
            cases h2 : SWInterruptHandlerTable2[BitScanReverse (s.IRR &&& higher)]? with
            | none =>
              intro h
              cases h
            | some h' =>
              dsimp only
              intro h
              have : h' = hk2 := by
                cases h
                rfl
              exact SWInterruptHandlerTable2_inj _ _ _ _ h2 hsel hne this

theorem HalEndSystemInterrupt_loop_never_selects (run : Invoke) (k : Nat)
    (hk : k ≤ DISPATCH_LEVEL) (hk2 : SwHandler2)
    (hsel : SWInterruptHandlerTable2[k]? = some hk2)
    (hrun : ∀ i h m m', run i h m = .ret () m' → m.IRR.testBit k = false →
      m'.IRR.testBit k = false) :
    ∀ fuel s higher m, s.IRR.testBit k = false → higher < 2 ^ 32 → s.IRR &&& higher ≠ 0 →
      HalEndSystemInterrupt.loop run fuel (s.IRR &&& higher) s ≠ .ret (some hk2) m := by
  intro fuel
  induction fuel with
  | zero =>
    intro s higher m _ _ _ h
    cases h
  | succ fuel ih =>
    intro s higher m hs hh hp
    unfold HalEndSystemInterrupt.loop
    have hne := top_ne_of_clear s.IRR higher k hh hp hs
    by_cases ht : BitScanReverse (s.IRR &&& higher) > DISPATCH_LEVEL
    · rw [if_pos ht]
      dsimp only
      split
      · intro h
        cases h
      · intro h
        obtain ⟨a, m1, hcall, hrest⟩ := Outcome_andThen_eq_ret _ _ _ _ h
        have hm1 := callSW_ret_clear run k hrun _ _ _ _ hcall (by
          show ((writePicMask (s.IDR &&& 0xFFFF) s).IRR ^^^
            (1 <<< BitScanReverse (s.IRR &&& higher))).testBit k = false
          rw [writePicMask_eq _ (and_ffff_lt _), testBit_xor_bit, decide_eq_false hne,
            Bool.xor_false]
          exact hs)
        cases hl : FindHigherIrqlMask[m1.Irql]? with
        | none =>
          simp only [hl] at hrest
          cases hrest
        | some higher' =>
          simp only [hl] at hrest
          split at hrest
          · cases hrest
          · rename_i hp'
            exact ih { m1 with IrrActive := m1.IrrActive ^^^
                (1 <<< BitScanReverse (s.IRR &&& higher)) } higher' m hm1
              (FindHigherIrqlMask_some_lt _ _ hl) hp' hrest
    · rw [if_neg ht]
      cases h2 : SWInterruptHandlerTable2[BitScanReverse (s.IRR &&& higher)]? with
      | none =>
        intro h
        cases h
      | some h' =>
        dsimp only
        intro h
        have : h' = hk2 := by
          cases h
          rfl
        exact SWInterruptHandlerTable2_inj _ _ _ _ h2 hsel hne this
theorem testBit_clear_mask (k j : Nat) (hj : j < 32) :
    ((0xFFFFFFFF : Nat) ^^^ (1 <<< k)).testBit j = !decide (k = j) := by
  have h : (0xFFFFFFFF : Nat) = 2 ^ 32 - 1 := by decide
  rw [testBit_xor_bit, h, Nat.testBit_two_pow_sub_one]
  simp [hj]

/-- C9 (software-slot non-replay): for k equal to APC_LEVEL or DISPATCH_LEVEL,
HalClearSoftwareInterrupt k returns the machine with bit k of IRR cleared and nothing else
changed (every other bit of the 32-bit IRR keeps its value).  From that machine s1, at any
IRQL and for any iteration bound, the outcomes of KfLowerIrql, HalEndSystemInterrupt and
HalpEndSoftwareInterrupt2 are the same in any two environments that differ only in what a
call through slot k of SWInterruptHandlerTable does, so none of them calls through slot k;
and neither HalEndSystemInterrupt nor HalpEndSoftwareInterrupt2 ends by selecting slot k of
SWInterruptHandlerTable2 (KfLowerIrql selects no tail at all).  The replayed handlers are
the environment: they are assumed not to request the software interrupt k anew, that is, not
to turn a clear bit k of IRR into a set one. -/
theorem clear_software_interrupt_no_replay (k : Nat)
    (hk : k = APC_LEVEL ∨ k = DISPATCH_LEVEL) (s : Machine) :
    HalClearSoftwareInterrupt k s =
      .ret () { s with IRR := s.IRR &&& (0xFFFFFFFF ^^^ (1 <<< k)) } ∧
    (s.IRR &&& (0xFFFFFFFF ^^^ (1 <<< k))).testBit k = false ∧
    (∀ j, j ≠ k → j < 32 →
      (s.IRR &&& (0xFFFFFFFF ^^^ (1 <<< k))).testBit j = s.IRR.testBit j) ∧
    ∀ s1, s1 = { s with IRR := s.IRR &&& (0xFFFFFFFF ^^^ (1 <<< k)) } →
      (∀ (run run' : Invoke) (dbg : Bool) (fuel old : Nat), (∀ i, i ≠ k → run' i = run i) →
        KfLowerIrql run' dbg old s1 = KfLowerIrql run dbg old s1 ∧
        HalEndSystemInterrupt run' fuel old s1 = HalEndSystemInterrupt run fuel old s1 ∧
        HalpEndSoftwareInterrupt2 run' fuel old s1 = HalpEndSoftwareInterrupt2 run fuel old s1) ∧
      (∀ (run : Invoke),
        (∀ i h m m', run i h m = .ret () m' → m.IRR.testBit k = false →
          m'.IRR.testBit k = false) →
        ∀ (fuel old : Nat) (hk2 : SwHandler2) (m : Machine),
          SWInterruptHandlerTable2[k]? = some hk2 →
          HalEndSystemInterrupt run fuel old s1 ≠ .ret (some hk2) m ∧
          HalpEndSoftwareInterrupt2 run fuel old s1 ≠ .ret (some hk2) m) := by
  have hk32 : k < 32 := by
    rcases hk with rfl | rfl <;> decide
  have hk2' : k ≤ DISPATCH_LEVEL := by
    rcases hk with rfl | rfl <;> decide
  have hclear : (s.IRR &&& (0xFFFFFFFF ^^^ (1 <<< k))).testBit k = false := by
    rw [Nat.testBit_and, testBit_clear_mask k k hk32]
    simp
  refine ⟨?_, hclear, ?_, ?_⟩
  · have : ¬ k ≥ 32 := by omega
    simp only [HalClearSoftwareInterrupt, if_neg this]
  · intro j hj hj32
    have : ¬ (k = j) := fun e => hj e.symm
    rw [Nat.testBit_and, testBit_clear_mask k j hj32, decide_eq_false this]
    simp
  · intro s1 hs1
    have hs1k : s1.IRR.testBit k = false := by
      rw [hs1]
      exact hclear
    refine ⟨?_, ?_⟩
    · intro run run' dbg fuel old hagree
      have hagree' : ∀ i, i > DISPATCH_LEVEL → run' i = run i :=
        fun i hi => hagree i (by omega)
      refine ⟨KfLowerIrql_congr run run' dbg old s1 k hs1k hagree, ?_, ?_⟩
      · unfold HalEndSystemInterrupt
        dsimp only
        cases FindHigherIrqlMask[old]? with
        | none => rfl
        | some higher =>
          dsimp only
          rw [HalEndSystemInterrupt_loop_congr run run' hagree']
      · unfold HalpEndSoftwareInterrupt2
        rw [HalpEndSoftwareInterrupt2_loop_congr run run' old hagree']
    · intro run hrun fuel old hk2 m hsel
      refine ⟨?_, ?_⟩
      · unfold HalEndSystemInterrupt
        dsimp only
        cases hl : FindHigherIrqlMask[old]? with
        | none =>
          intro h
          cases h
        | some higher =>
          dsimp only
          by_cases hp : s1.IRR &&& higher ≠ 0
          · rw [if_pos hp]
            split
            · intro h
              cases h
            · exact HalEndSystemInterrupt_loop_never_selects run k hk2' hk2 hsel hrun fuel
                { s1 with Irql := old } higher m hs1k (FindHigherIrqlMask_some_lt _ _ hl) hp
          · rw [if_neg hp]
            intro h
            cases h
      · unfold HalpEndSoftwareInterrupt2
        exact HalpEndSoftwareInterrupt2_loop_never_selects run k hk2' hk2 hsel hrun old fuel
          { s1 with Irql := old } m hs1k

/-- An instance of clear_software_interrupt_no_replay: with handlers that return at once, the
drain after clearing the DPC bit replays IRQ 5 and does not select the dispatch entry. -/
theorem clear_software_interrupt_no_replay_witness :
    (DISPATCH_LEVEL = APC_LEVEL ∨ DISPATCH_LEVEL = DISPATCH_LEVEL) ∧
    HalClearSoftwareInterrupt DISPATCH_LEVEL { bootMachine with IRR := 0x204 } =
      .ret () { bootMachine with IRR := 0x200 } ∧
    ∀ m, HalpEndSoftwareInterrupt2 idleInvoke 2 0 { bootMachine with IRR := 0x200 } ≠
      .ret (some .HalpDispatchInterrupt2ndEntry) m :=
  have h := clear_software_interrupt_no_replay DISPATCH_LEVEL (Or.inr rfl)
    { bootMachine with IRR := 0x204 }
  ⟨Or.inr rfl, h.1, fun m =>
    ((h.2.2.2 { bootMachine with IRR := 0x200 } rfl).2 idleInvoke
      (by
        intro i h m m' e hm
        cases e
        exact hm)
      2 0 .HalpDispatchInterrupt2ndEntry m rfl).2⟩

/-- C10 (invalid vector): for every vector and every mode, HalEnableSystemInterrupt returns
FALSE exactly when the IRQ, vector - BASE as a 32-bit subtraction, is at least CLOCK2_LEVEL,
and in that case it returns the machine it was given: the two dispatch tables, IDR, IRR, Irql,
IrrActive, the mask registers, the interrupt flag and the port trace are all unchanged. -/
theorem enable_invalid_vector (Vector Irql : Nat) (InterruptMode : KINTERRUPT_MODE)
    (s : Machine) :
    ((∃ s', HalEnableSystemInterrupt Vector Irql InterruptMode s = .ret false s') ↔
      vectorIrq Vector ≥ CLOCK2_LEVEL) ∧
    (vectorIrq Vector ≥ CLOCK2_LEVEL →
      HalEnableSystemInterrupt Vector Irql InterruptMode s = .ret false s) ∧
    (Vector < 2 ^ 32 → vectorIrq Vector = (Vector + 2 ^ 32 - PRIMARY_VECTOR_BASE) % 2 ^ 32) := by
  refine ⟨⟨?_, ?_⟩, ?_, ?_⟩
  · rintro ⟨s', h⟩
    by_contra hlt
    unfold HalEnableSystemInterrupt at h
    simp only [if_neg hlt] at h
    split at h
    · cases h
    · split at h
      · cases h
      · cases h
  · intro hge
    exact ⟨s, by simp only [HalEnableSystemInterrupt, if_pos hge]⟩
  · intro hge
    simp only [HalEnableSystemInterrupt, if_pos hge]
  · intro hv
    unfold vectorIrq
    rw [Nat.mod_eq_of_lt hv]

/-- An instance of enable_invalid_vector: vector BASE + 28 is refused and nothing changes. -/
theorem enable_invalid_vector_witness :
    vectorIrq (PRIMARY_VECTOR_BASE + 28) ≥ CLOCK2_LEVEL ∧
    HalEnableSystemInterrupt (PRIMARY_VECTOR_BASE + 28) 0 .LevelSensitive bootMachine =
      .ret false bootMachine :=
  ⟨by decide,
   (enable_invalid_vector (PRIMARY_VECTOR_BASE + 28) 0 .LevelSensitive bootMachine).2.1
     (by decide)⟩

theorem HalpSpecialDismissLevelTable_get (k : Nat) (hk : k < 16) :
    HalpSpecialDismissLevelTable[k]? =
      some (HalpSpecialDismissLevelTable.getD k .HalpDismissIrqLevel) := by
  interval_cases k <;> rfl

theorem HalEnableSystemInterrupt_eq (k Irql : Nat) (InterruptMode : KINTERRUPT_MODE)
    (s : Machine) (hk : k < 16) (hI : s.Irql ≤ 31)
    (hd : s.HalpSpecialDismissTable.length = 16) (hh : s.SWInterruptHandlerTable.length = 20) :
    HalEnableSystemInterrupt (PRIMARY_VECTOR_BASE + k) Irql InterruptMode s =
      .ret true
        { s with
            IDR := s.IDR &&& (0xFFFFFFFF ^^^ (1 <<< k)),
            IF := true,
            pic1Mask := ((KiI8259MaskTable.getD s.Irql 0 |||
              (s.IDR &&& (0xFFFFFFFF ^^^ (1 <<< k)))) &&& 0xFFFF) % 256,
            pic2Mask := ((KiI8259MaskTable.getD s.Irql 0 |||
              (s.IDR &&& (0xFFFFFFFF ^^^ (1 <<< k)))) &&& 0xFFFF) / 256,
            SWInterruptHandlerTable :=
              if InterruptMode = .LevelSensitive then
                s.SWInterruptHandlerTable.set (k + 4) .HalpHardwareInterruptLevel
              else s.SWInterruptHandlerTable,
            HalpSpecialDismissTable :=
              if InterruptMode = .LevelSensitive then
                s.HalpSpecialDismissTable.set k
                  (HalpSpecialDismissLevelTable.getD k .HalpDismissIrqLevel)
              else s.HalpSpecialDismissTable,
            trace := s.trace ++
              [PortEvent.mk .write 0x21
                 (((KiI8259MaskTable.getD s.Irql 0 |||
                   (s.IDR &&& (0xFFFFFFFF ^^^ (1 <<< k)))) &&& 0xFFFF) % 256)
                 ⟨s.Irql, s.IRR, s.IDR &&& (0xFFFFFFFF ^^^ (1 <<< k)), s.IrrActive⟩,
               PortEvent.mk .write 0xA1
                 (((KiI8259MaskTable.getD s.Irql 0 |||
                   (s.IDR &&& (0xFFFFFFFF ^^^ (1 <<< k)))) &&& 0xFFFF) / 256)
                 ⟨s.Irql, s.IRR, s.IDR &&& (0xFFFFFFFF ^^^ (1 <<< k)), s.IrrActive⟩] } := by
  have hlt : ¬ k ≥ CLOCK2_LEVEL := by
    unfold CLOCK2_LEVEL
    omega
  have hlen : k + 4 < s.SWInterruptHandlerTable.length ∧ k < s.HalpSpecialDismissTable.length := by
    rw [hd, hh]
    omega
  unfold HalEnableSystemInterrupt
  simp only [vectorIrq_base k hk, if_neg hlt, HalpSpecialDismissLevelTable_get k hk]
  cases InterruptMode with
  | LevelSensitive =>
    simp only [if_true, if_pos hlen, KiI8259MaskTable_get s.Irql hI,
      writePicMask_eq _ (and_ffff_lt _)]
    rfl
  | Latched =>
    have hne : ¬ (KINTERRUPT_MODE.Latched = KINTERRUPT_MODE.LevelSensitive) := by decide
    simp only [if_neg hne, KiI8259MaskTable_get s.Irql hI, writePicMask_eq _ (and_ffff_lt _)]
    rfl
theorem picMask_of_bytes (s : Machine) (M : Nat) (hM : M < 65536)
    (h1 : s.pic1Mask = M % 256) (h2 : s.pic2Mask = M / 256) : s.picMask = M := by
  unfold Machine.picMask
  rw [h1, h2]
  omega

theorem testBit_and_ffff (a j : Nat) (hj : j < 16) : (a &&& 0xFFFF).testBit j = a.testBit j := by
  have h : (0xFFFF : Nat) = 2 ^ 16 - 1 := by decide
  rw [Nat.testBit_and, h, Nat.testBit_two_pow_sub_one]
  simp [hj]

/-- C11 (enable, accepted vector): for an IRQ k in 0..15, a current IRQL of at most 31 and
tables of their declared sizes, HalEnableSystemInterrupt (BASE + k) returns TRUE.  With idr
the old IDR with bit k cleared (all other bits of the 32-bit IDR as before), the new IDR is
idr and the only port accesses are the two writes of M = (KiI8259MaskTable[Irql] | idr) &
0xFFFF, low byte to 0x21 and high byte to 0xA1, so the PIC mask becomes M; Irql, IRR and
IrrActive are unchanged, and bit k of the PIC mask equals bit k of KiI8259MaskTable[Irql]. -/
theorem enable_accepted (k Irql : Nat) (InterruptMode : KINTERRUPT_MODE) (s : Machine)
    (hk : k < 16) (hI : s.Irql ≤ 31)
    (hd : s.HalpSpecialDismissTable.length = 16) (hh : s.SWInterruptHandlerTable.length = 20) :
    ∀ idr M, idr = s.IDR &&& (0xFFFFFFFF ^^^ (1 <<< k)) →
      M = (KiI8259MaskTable.getD s.Irql 0 ||| idr) &&& 0xFFFF →
      ∃ s', HalEnableSystemInterrupt (PRIMARY_VECTOR_BASE + k) Irql InterruptMode s =
          .ret true s' ∧
        s'.IDR = idr ∧ idr.testBit k = false ∧
        (∀ j, j ≠ k → j < 32 → idr.testBit j = s.IDR.testBit j) ∧
        s'.trace = s.trace ++
          [PortEvent.mk .write 0x21 (M % 256) ⟨s.Irql, s.IRR, idr, s.IrrActive⟩,
           PortEvent.mk .write 0xA1 (M / 256) ⟨s.Irql, s.IRR, idr, s.IrrActive⟩] ∧
        s'.picMask = M ∧
        s'.Irql = s.Irql ∧ s'.IRR = s.IRR ∧ s'.IrrActive = s.IrrActive ∧
        s'.picMask.testBit k = (KiI8259MaskTable.getD s.Irql 0).testBit k := by
  intro idr M hidr hM
  have hclear : idr.testBit k = false := by
    rw [hidr, Nat.testBit_and, testBit_clear_mask k k (by omega)]
    simp
  have hMlt : M < 65536 := by
    rw [hM]
    exact and_ffff_lt _
  refine ⟨_, HalEnableSystemInterrupt_eq k Irql InterruptMode s hk hI hd hh, ?_, hclear, ?_,
    ?_, ?_, rfl, rfl, rfl, ?_⟩
  · exact hidr.symm
  · intro j hj hj32
    have : ¬ (k = j) := fun e => hj e.symm
    rw [hidr, Nat.testBit_and, testBit_clear_mask k j hj32, decide_eq_false this]
    simp
  · rw [hM, hidr]
  · exact picMask_of_bytes _ M hMlt (by rw [hM, hidr]) (by rw [hM, hidr])
  · rw [picMask_of_bytes _ M hMlt (by rw [hM, hidr]) (by rw [hM, hidr]), hM,
      testBit_and_ffff _ k hk, Nat.testBit_or, hclear, Bool.or_false]

/-- An instance of enable_accepted: IRQ 5 is enabled at IRQL 24 while IRQ 0 stays disabled. -/
theorem enable_accepted_witness :
    (5 < 16 ∧ deferredMachine.Irql ≤ 31 ∧ deferredMachine.HalpSpecialDismissTable.length = 16 ∧
      deferredMachine.SWInterruptHandlerTable.length = 20) ∧
    ∃ s', HalEnableSystemInterrupt (PRIMARY_VECTOR_BASE + 5) 22 .LevelSensitive
        { deferredMachine with IDR := 0x21 } = .ret true s' ∧
      s'.IDR = 0x01 ∧ s'.picMask = 0xFEF9 ∧ s'.picMask.testBit 5 = true := by
  obtain ⟨s', h1, h2, _, _, _, h6, _, _, _, _⟩ :=
    enable_accepted 5 22 .LevelSensitive { deferredMachine with IDR := 0x21 }
      (by decide) (by decide) (by decide) (by decide) 0x01 0xFEF9 (by rfl) (by rfl)
  refine ⟨by decide, s', h1, h2, h6, ?_⟩
  rw [h6]
  decide
theorem or_bit_lt (m k : Nat) (hm : m < 65536) (hk : k < 16) : m ||| (1 <<< k) < 65536 := by
  have h1 : (1 <<< k) < 2 ^ 16 := by
    rw [Nat.one_shiftLeft]
    exact Nat.pow_lt_pow_right (by decide) hk
  have := Nat.or_lt_two_pow (show m < 2 ^ 16 from hm) h1
  simpa using this

theorem picMask_lt (s : Machine) : s.picMask < 65536 := by
  unfold Machine.picMask
  omega

theorem HalDisableSystemInterrupt_eq (k Irql : Nat) (s : Machine) (hk : k < 16) :
    HalDisableSystemInterrupt (PRIMARY_VECTOR_BASE + k) Irql s =
      .ret ()
        { s with
            IDR := s.IDR ||| (1 <<< k),
            IF := true,
            pic1Mask := (s.picMask ||| (1 <<< k)) % 256,
            pic2Mask := (s.picMask ||| (1 <<< k)) / 256,
            trace := s.trace ++
              [PortEvent.mk .read 0x21 (s.pic1Mask % 256)
                 ⟨s.Irql, s.IRR, s.IDR ||| (1 <<< k), s.IrrActive⟩,
               PortEvent.mk .read 0xA1 (s.pic2Mask % 256)
                 ⟨s.Irql, s.IRR, s.IDR ||| (1 <<< k), s.IrrActive⟩,
               PortEvent.mk .write 0x21 ((s.picMask ||| (1 <<< k)) % 256)
                 ⟨s.Irql, s.IRR, s.IDR ||| (1 <<< k), s.IrrActive⟩,
               PortEvent.mk .write 0xA1 ((s.picMask ||| (1 <<< k)) / 256)
                 ⟨s.Irql, s.IRR, s.IDR ||| (1 <<< k), s.IrrActive⟩] } := by
  have h32 : ¬ k ≥ 32 := by omega
  have hlt := or_bit_lt s.picMask k (picMask_lt s) hk
  have hmod : (s.picMask ||| (1 <<< k)) % 65536 = s.picMask ||| (1 <<< k) :=
    Nat.mod_eq_of_lt hlt
  unfold HalDisableSystemInterrupt
  simp only [vectorIrq_base k hk, if_neg h32]
  have hb : (inbyte PIC1_DATA_PORT
      { s with IF := false, IDR := s.IDR ||| (1 <<< k) }).1 +
      256 * (inbyte PIC2_DATA_PORT (inbyte PIC1_DATA_PORT
        { s with IF := false, IDR := s.IDR ||| (1 <<< k) }).2).1 = s.picMask := by
    simp [inbyte, portByte, Machine.picMask]
  rw [hb, hmod, writePicMask_eq _ hlt]
  simp [inbyte, portByte, Machine.pcr]

/-- C12 as stated fails: HalDisableSystemInterrupt (BASE + 0) sets bit 0 of IDR and leaves
bit 4 clear, and HalEnableSystemInterrupt (BASE + 0) leaves a set bit 4 of IDR set (and ORs
it into the PIC mask as the bit of IRQ 4). -/
theorem disable_sets_bit_of_irq_not_bit_plus_four :
    HalDisableSystemInterrupt (PRIMARY_VECTOR_BASE + 0) 0 bootMachine =
      .ret ()
        { bootMachine with
            IDR := 1, pic1Mask := 1,
            trace := [PortEvent.mk .read 0x21 0 ⟨0, 0, 1, 0⟩,
                      PortEvent.mk .read 0xA1 0 ⟨0, 0, 1, 0⟩,
                      PortEvent.mk .write 0x21 1 ⟨0, 0, 1, 0⟩,
                      PortEvent.mk .write 0xA1 0 ⟨0, 0, 1, 0⟩] } ∧
    (1 : Nat).testBit (0 + 4) = false ∧ (1 : Nat).testBit 0 = true ∧
    bootMachine.IDR.testBit 0 = false ∧
    HalEnableSystemInterrupt (PRIMARY_VECTOR_BASE + 0) 0 .Latched
        { bootMachine with IDR := 0x10 } =
      .ret true
        { bootMachine with
            IDR := 0x10, pic1Mask := 0x10,
            trace := [PortEvent.mk .write 0x21 0x10 ⟨0, 0, 0x10, 0⟩,
                      PortEvent.mk .write 0xA1 0 ⟨0, 0, 0x10, 0⟩] } ∧
    (0x10 : Nat).testBit (0 + 4) = true := by
  refine ⟨by decide, by decide, by decide, by decide, by decide, by decide⟩

/-- C12 (amended): for every IRQ k in 0..15, HalDisableSystemInterrupt (BASE + k) sets bit k
of IDR and HalEnableSystemInterrupt (BASE + k) clears bit k of IDR, each leaving every other
bit of the 32-bit IDR as it was: bit k of IDR set is the state that means IRQ k is
administratively disabled. -/
theorem idr_bit_position (k Irql : Nat) (InterruptMode : KINTERRUPT_MODE) (s : Machine)
    (hk : k < 16) (hI : s.Irql ≤ 31)
    (hd : s.HalpSpecialDismissTable.length = 16) (hh : s.SWInterruptHandlerTable.length = 20) :
    (∃ s', HalDisableSystemInterrupt (PRIMARY_VECTOR_BASE + k) Irql s = .ret () s' ∧
      s'.IDR.testBit k = true ∧ ∀ j, j ≠ k → s'.IDR.testBit j = s.IDR.testBit j) ∧
    (∃ s', HalEnableSystemInterrupt (PRIMARY_VECTOR_BASE + k) Irql InterruptMode s =
        .ret true s' ∧
      s'.IDR.testBit k = false ∧ ∀ j, j ≠ k → j < 32 → s'.IDR.testBit j = s.IDR.testBit j) := by
  refine ⟨⟨_, HalDisableSystemInterrupt_eq k Irql s hk, ?_, ?_⟩,
    ⟨_, HalEnableSystemInterrupt_eq k Irql InterruptMode s hk hI hd hh, ?_, ?_⟩⟩
  · show (s.IDR ||| (1 <<< k)).testBit k = true
    rw [testBit_or_bit]
    simp
  · intro j hj
    have : ¬ (k = j) := fun e => hj e.symm
    show (s.IDR ||| (1 <<< k)).testBit j = s.IDR.testBit j
    rw [testBit_or_bit, decide_eq_false this, Bool.or_false]
  · show (s.IDR &&& (0xFFFFFFFF ^^^ (1 <<< k))).testBit k = false
    rw [Nat.testBit_and, testBit_clear_mask k k (by omega)]
    simp
  · intro j hj hj32
    have : ¬ (k = j) := fun e => hj e.symm
    show (s.IDR &&& (0xFFFFFFFF ^^^ (1 <<< k))).testBit j = s.IDR.testBit j
    rw [Nat.testBit_and, testBit_clear_mask k j hj32, decide_eq_false this]
    simp

/-- An instance of idr_bit_position: disabling IRQ 3 sets bit 3 of IDR. -/
theorem idr_bit_position_witness :
    (3 < 16 ∧ bootMachine.Irql ≤ 31 ∧ bootMachine.HalpSpecialDismissTable.length = 16 ∧
      bootMachine.SWInterruptHandlerTable.length = 20) ∧
    ∃ s', HalDisableSystemInterrupt (PRIMARY_VECTOR_BASE + 3) 24 bootMachine = .ret () s' ∧
      s'.IDR.testBit 3 = true :=
  have h := (idr_bit_position 3 24 .Latched bootMachine (by decide) (by decide) (by decide)
    (by decide)).1
  ⟨by decide, h.choose, h.choose_spec.1, h.choose_spec.2.1⟩

/-- C13 (read-back-OR on disable): for every IRQ k in 0..15 and every state, whatever its PIC
mask m is, HalDisableSystemInterrupt (BASE + k) returns with the PIC mask m | (1 << k): bit k
is set, every set bit of m is still set, every bit other than k is as in m, and Irql, IRR and
IrrActive are unchanged. -/
theorem disable_read_back_or (k Irql : Nat) (s : Machine) (hk : k < 16) :
    ∃ s', HalDisableSystemInterrupt (PRIMARY_VECTOR_BASE + k) Irql s = .ret () s' ∧
      s'.picMask = s.picMask ||| (1 <<< k) ∧
      s'.picMask.testBit k = true ∧
      (∀ j, s.picMask.testBit j = true → s'.picMask.testBit j = true) ∧
      (∀ j, j ≠ k → s'.picMask.testBit j = s.picMask.testBit j) ∧
      s'.Irql = s.Irql ∧ s'.IRR = s.IRR ∧ s'.IrrActive = s.IrrActive := by
  have hlt := or_bit_lt s.picMask k (picMask_lt s) hk
  have hpm : ∀ s' : Machine, s'.pic1Mask = (s.picMask ||| (1 <<< k)) % 256 →
      s'.pic2Mask = (s.picMask ||| (1 <<< k)) / 256 →
      s'.picMask = s.picMask ||| (1 <<< k) :=
    fun s' h1 h2 => picMask_of_bytes s' _ hlt h1 h2
  refine ⟨_, HalDisableSystemInterrupt_eq k Irql s hk, hpm _ rfl rfl, ?_, ?_, ?_, rfl, rfl, rfl⟩
  · rw [hpm _ rfl rfl, testBit_or_bit]
    simp
  · intro j hj
    rw [hpm _ rfl rfl, testBit_or_bit, hj]
    rfl
  · intro j hj
    have : ¬ (k = j) := fun e => hj e.symm
    rw [hpm _ rfl rfl, testBit_or_bit, decide_eq_false this, Bool.or_false]

/-- An instance of disable_read_back_or on the mask 0xFEF8 left by the deferral of S2. -/
theorem disable_read_back_or_witness :
    5 < 16 ∧
    ∃ s', HalDisableSystemInterrupt (PRIMARY_VECTOR_BASE + 5) 22 deferredMachine = .ret () s' ∧
      s'.picMask = 0xFEF8 ||| (1 <<< 5) := by
  obtain ⟨s', h1, h2, _⟩ := disable_read_back_or 5 22 deferredMachine (by decide)
  exact ⟨by decide, s', h1, h2⟩
theorem and_bit_ne_zero_iff (e j : Nat) : e &&& (1 <<< j) ≠ 0 ↔ e.testBit j = true := by
  rw [Nat.one_shiftLeft]
  constructor
  · intro h
    obtain ⟨i, hi⟩ := Nat.ne_zero_implies_bit_true h
    rw [Nat.testBit_and, Bool.and_eq_true, Nat.testBit_two_pow] at hi
    have : j = i := by simpa using hi.2
    rw [this]
    exact hi.1
  · intro h e0
    have : (e &&& 2 ^ j).testBit j = true := by
      rw [Nat.testBit_and, h, Nat.testBit_two_pow_self]
      rfl
    rw [e0, Nat.zero_testBit] at this
    exact absurd this (by decide)

theorem HalpInitializePICs_scan_spec :
    ∀ (n j : Nat) (s : Machine), j + n = 16 →
      s.HalpSpecialDismissTable.length = 16 → s.SWInterruptHandlerTable.length = 20 →
      ∃ s', HalpInitializePICs.scan (n + 1) (1 <<< j) j s = .ret () s' ∧
        s'.HalpEisaELCR = s.HalpEisaELCR ∧
        (∀ k, s'.HalpSpecialDismissTable[k]? =
          if j ≤ k ∧ k < 16 ∧ s.HalpEisaELCR.testBit k = true then
            HalpSpecialDismissLevelTable[k]?
          else s.HalpSpecialDismissTable[k]?) ∧
        (∀ i, s'.SWInterruptHandlerTable[i]? =
          if j + 4 ≤ i ∧ i < 20 ∧ s.HalpEisaELCR.testBit (i - 4) = true then
            some .HalpHardwareInterruptLevel
          else s.SWInterruptHandlerTable[i]?) := by
  intro n
  induction n with
  | zero =>
    intro j s hj hd hh
    have hj16 : ¬ j < 16 := by omega
    refine ⟨s, ?_, rfl, ?_, ?_⟩
    · unfold HalpInitializePICs.scan
      rw [if_neg hj16]
    · intro k
      have : ¬ (j ≤ k ∧ k < 16 ∧ s.HalpEisaELCR.testBit k = true) := by omega
      rw [if_neg this]
    · intro i
      have : ¬ (j + 4 ≤ i ∧ i < 20 ∧ s.HalpEisaELCR.testBit (i - 4) = true) := by omega
      rw [if_neg this]
  | succ n ih =>
    intro j s hj hd hh
    have hj16 : j < 16 := by omega
    have hshift : ((1 <<< j) <<< 1) % 2 ^ 32 = 1 <<< (j + 1) := by
      rw [← Nat.shiftLeft_add]
      apply Nat.mod_eq_of_lt
      rw [Nat.one_shiftLeft]
      exact Nat.pow_lt_pow_right (by decide) (by omega)
    unfold HalpInitializePICs.scan
    rw [if_pos hj16, hshift]
    by_cases hb : s.HalpEisaELCR.testBit j = true
    · have hne : s.HalpEisaELCR &&& (1 <<< j) ≠ 0 := (and_bit_ne_zero_iff _ _).2 hb
      have hlen : j + 4 < s.SWInterruptHandlerTable.length ∧
          j < s.HalpSpecialDismissTable.length := by
        rw [hd, hh]
        omega
      rw [if_pos hne, HalpSpecialDismissLevelTable_get j hj16]
      simp only [if_pos hlen]
      obtain ⟨s', h1, h2, h3, h4⟩ := ih (j + 1)
        { s with
            SWInterruptHandlerTable :=
              s.SWInterruptHandlerTable.set (j + 4) .HalpHardwareInterruptLevel,
            HalpSpecialDismissTable := s.HalpSpecialDismissTable.set j
              (HalpSpecialDismissLevelTable.getD j .HalpDismissIrqLevel) }
        (by omega) (by simp [hd]) (by simp [hh])
      refine ⟨s', h1, h2, ?_, ?_⟩
      · intro k
        rw [h3 k]
        simp only [List.getElem?_set, hd]
        by_cases hjk : j = k
        · subst hjk
          have h1' : ¬ (j + 1 ≤ j ∧ j < 16 ∧ s.HalpEisaELCR.testBit j = true) := by omega
          rw [if_neg h1', if_pos rfl, if_pos hj16, if_pos ⟨Nat.le_refl _, hj16, hb⟩,
            HalpSpecialDismissLevelTable_get j hj16]
        · rw [if_neg hjk]
          by_cases hc : j + 1 ≤ k ∧ k < 16 ∧ s.HalpEisaELCR.testBit k = true
          · rw [if_pos hc, if_pos ⟨by omega, hc.2.1, hc.2.2⟩]
          · have hc' : ¬ (j ≤ k ∧ k < 16 ∧ s.HalpEisaELCR.testBit k = true) := by
              rintro ⟨a, b, c⟩
              exact hc ⟨by omega, b, c⟩
            rw [if_neg hc, if_neg hc']
      · intro i
        rw [h4 i]
        simp only [List.getElem?_set, hh]
        by_cases hji : j + 4 = i
        · subst hji
          have h1' : ¬ (j + 1 + 4 ≤ j + 4 ∧ j + 4 < 20 ∧
              s.HalpEisaELCR.testBit (j + 4 - 4) = true) := by omega
          have h2' : j + 4 ≤ j + 4 ∧ j + 4 < 20 ∧ s.HalpEisaELCR.testBit (j + 4 - 4) = true :=
            ⟨Nat.le_refl _, by omega, by simpa using hb⟩
          rw [if_neg h1', if_pos rfl, if_pos (by omega : j + 4 < 20), if_pos h2']
        · rw [if_neg hji]
          by_cases hc : j + 1 + 4 ≤ i ∧ i < 20 ∧ s.HalpEisaELCR.testBit (i - 4) = true
          · rw [if_pos hc, if_pos ⟨by omega, hc.2.1, hc.2.2⟩]
          · have hc' : ¬ (j + 4 ≤ i ∧ i < 20 ∧ s.HalpEisaELCR.testBit (i - 4) = true) := by
              rintro ⟨a, b, c⟩
              exact hc ⟨by omega, b, c⟩
            rw [if_neg hc, if_neg hc']
    · have hne : ¬ s.HalpEisaELCR &&& (1 <<< j) ≠ 0 := fun h =>
        hb ((and_bit_ne_zero_iff _ _).1 h)
      rw [if_neg hne]
      obtain ⟨s', h1, h2, h3, h4⟩ := ih (j + 1) s (by omega) hd hh
      refine ⟨s', h1, h2, ?_, ?_⟩
      · intro k
        rw [h3 k]
        by_cases hc : j + 1 ≤ k ∧ k < 16 ∧ s.HalpEisaELCR.testBit k = true
        · rw [if_pos hc, if_pos ⟨by omega, hc.2.1, hc.2.2⟩]
        · have hc' : ¬ (j ≤ k ∧ k < 16 ∧ s.HalpEisaELCR.testBit k = true) := by
            rintro ⟨a, b, c⟩
            by_cases hjk : j = k
            · subst hjk
              exact hb c
            · exact hc ⟨by omega, b, c⟩
          rw [if_neg hc, if_neg hc']
      · intro i
        rw [h4 i]
        by_cases hc : j + 1 + 4 ≤ i ∧ i < 20 ∧ s.HalpEisaELCR.testBit (i - 4) = true
        · rw [if_pos hc, if_pos ⟨by omega, hc.2.1, hc.2.2⟩]
        · have hc' : ¬ (j + 4 ≤ i ∧ i < 20 ∧ s.HalpEisaELCR.testBit (i - 4) = true) := by
            rintro ⟨a, b, c⟩
            by_cases hji : j + 4 = i
            · subst hji
              exact hb (by simpa using c)
            · exact hc ⟨by omega, b, c⟩
          rw [if_neg hc, if_neg hc']
/-- C14 (initialize_pics): let e be the ELCR value read after the legacy initialisation,
slave byte << 8 | master byte, and let the two external routines leave the dispatch tables and
the saved ELCR alone.  HalpInitializePICs returns.  When none of bits 0, 1, 2, 8, 13 of e is
set, e is saved, and for every k in 0..15 slot k of the dismiss table and slot k+4 of the
handler table hold their level variants when bit k of e is set and their old contents
otherwise, slots 0..3 of the handler table being unchanged.  When one of those bits is set,
both tables and the saved ELCR are unchanged.  In both cases the entries of IRQs 0, 1, 2, 8
and 13 are as before. -/
theorem initialize_pics_tables (HalpInitializeLegacyPICs : Machine → Machine)
    (HalpRegisterVector : Nat → Nat → Nat → Machine → Machine)
    (EnableInterrupts : Bool) (s : Machine)
    (hL : ∀ m, (HalpInitializeLegacyPICs m).HalpSpecialDismissTable = m.HalpSpecialDismissTable ∧
      (HalpInitializeLegacyPICs m).SWInterruptHandlerTable = m.SWInterruptHandlerTable ∧
      (HalpInitializeLegacyPICs m).HalpEisaELCR = m.HalpEisaELCR)
    (hR : ∀ a b c m,
      (HalpRegisterVector a b c m).HalpSpecialDismissTable = m.HalpSpecialDismissTable ∧
      (HalpRegisterVector a b c m).SWInterruptHandlerTable = m.SWInterruptHandlerTable ∧
      (HalpRegisterVector a b c m).HalpEisaELCR = m.HalpEisaELCR)
    (hd : s.HalpSpecialDismissTable.length = 16) (hh : s.SWInterruptHandlerTable.length = 20) :
    ∀ e, e = (portByte EISA_ELCR_SLAVE (HalpInitializeLegacyPICs { s with IF := false }) <<< 8) |||
        portByte EISA_ELCR_MASTER (HalpInitializeLegacyPICs { s with IF := false }) →
      ∃ s', HalpInitializePICs HalpInitializeLegacyPICs HalpRegisterVector EnableInterrupts s =
          .ret () s' ∧
        ((e.testBit 0 = false ∧ e.testBit 1 = false ∧ e.testBit 2 = false ∧
            e.testBit 8 = false ∧ e.testBit 13 = false) →
          s'.HalpEisaELCR = e ∧
          (∀ k, k < 16 →
            s'.HalpSpecialDismissTable[k]? =
              (if e.testBit k = true then HalpSpecialDismissLevelTable[k]?
               else s.HalpSpecialDismissTable[k]?) ∧
            s'.SWInterruptHandlerTable[k + 4]? =
              (if e.testBit k = true then some .HalpHardwareInterruptLevel
               else s.SWInterruptHandlerTable[k + 4]?)) ∧
          (∀ i, i < 4 → s'.SWInterruptHandlerTable[i]? = s.SWInterruptHandlerTable[i]?) ∧
          s'.HalpSpecialDismissTable.length = 16 ∧ s'.SWInterruptHandlerTable.length = 20) ∧
        (¬ (e.testBit 0 = false ∧ e.testBit 1 = false ∧ e.testBit 2 = false ∧
            e.testBit 8 = false ∧ e.testBit 13 = false) →
          s'.HalpSpecialDismissTable = s.HalpSpecialDismissTable ∧
          s'.SWInterruptHandlerTable = s.SWInterruptHandlerTable ∧
          s'.HalpEisaELCR = s.HalpEisaELCR) ∧
        (∀ k, k = 0 ∨ k = 1 ∨ k = 2 ∨ k = 8 ∨ k = 13 →
          s'.HalpSpecialDismissTable[k]? = s.HalpSpecialDismissTable[k]? ∧
          s'.SWInterruptHandlerTable[k + 4]? = s.SWInterruptHandlerTable[k + 4]?) := by
  intro e he
  obtain ⟨hL1, hL2, hL3⟩ := hL { s with IF := false }
  generalize hs1 : HalpInitializeLegacyPICs { s with IF := false } = s1 at he hL1 hL2 hL3
  have hd1 : s1.HalpSpecialDismissTable.length = 16 := by rw [hL1]; exact hd
  have hh1 : s1.SWInterruptHandlerTable.length = 20 := by rw [hL2]; exact hh
  have hE : (inbyte EISA_ELCR_SLAVE s1).1 <<< 8 |||
      (inbyte EISA_ELCR_MASTER (inbyte EISA_ELCR_SLAVE s1).2).1 = e := by
    rw [he]
    simp [inbyte, portByte]
  by_cases hv : e.testBit 0 = false ∧ e.testBit 1 = false ∧ e.testBit 2 = false ∧
      e.testBit 8 = false ∧ e.testBit 13 = false
  · obtain ⟨s2, h1, h2, h3, h4⟩ := HalpInitializePICs_scan_spec 16 0
      { (inbyte EISA_ELCR_MASTER (inbyte EISA_ELCR_SLAVE s1).2).2 with HalpEisaELCR := e }
      (by omega) hd1 hh1
    have h1' : HalpInitializePICs.scan 17 1 0
        { (inbyte EISA_ELCR_MASTER (inbyte EISA_ELCR_SLAVE s1).2).2 with HalpEisaELCR := e } =
        .ret () s2 := h1
    obtain ⟨hR1, hR2, hR3⟩ := hR (PRIMARY_VECTOR_BASE + 2) (PRIMARY_VECTOR_BASE + 2) HIGH_LEVEL s2
    have hD : ∀ k, k < 16 →
        s2.HalpSpecialDismissTable[k]? =
          (if e.testBit k = true then HalpSpecialDismissLevelTable[k]?
           else s.HalpSpecialDismissTable[k]?) := by
      intro k hk
      rw [h3 k]
      by_cases hb : e.testBit k = true
      · rw [if_pos ⟨Nat.zero_le _, hk, hb⟩, if_pos hb]
      · have : ¬ (0 ≤ k ∧ k < 16 ∧ e.testBit k = true) := fun h => hb h.2.2
        rw [if_neg this, if_neg hb]
        show s1.HalpSpecialDismissTable[k]? = _
        rw [hL1]
    have hS : ∀ i, i < 20 →
        s2.SWInterruptHandlerTable[i]? =
          (if 4 ≤ i ∧ e.testBit (i - 4) = true then some .HalpHardwareInterruptLevel
           else s.SWInterruptHandlerTable[i]?) := by
      intro i hi
      rw [h4 i]
      by_cases hb : 4 ≤ i ∧ e.testBit (i - 4) = true
      · rw [if_pos ⟨by omega, hi, hb.2⟩, if_pos hb]
      · have : ¬ (0 + 4 ≤ i ∧ i < 20 ∧ e.testBit (i - 4) = true) := fun h =>
          hb ⟨by omega, h.2.2⟩
        rw [if_neg this, if_neg hb]
        show s1.SWInterruptHandlerTable[i]? = _
        rw [hL2]
    have hlenD : s2.HalpSpecialDismissTable.length = 16 := by
      have h16 := h3 16
      have h15 := h3 15
      have n16 : ¬ (0 ≤ 16 ∧ 16 < 16 ∧ e.testBit 16 = true) := by omega
      rw [if_neg n16] at h16
      have e16 : s1.HalpSpecialDismissTable[16]? = none :=
        List.getElem?_eq_none (by omega)
      have hx : s2.HalpSpecialDismissTable[16]? = none := by
        rw [h16]
        exact e16
      have hy : s2.HalpSpecialDismissTable[15]? ≠ none := by
        rw [h15]
        split
        · rw [HalpSpecialDismissLevelTable_get 15 (by decide)]
          exact Option.some_ne_none _
        · show s1.HalpSpecialDismissTable[15]? ≠ none
          rw [List.getElem?_eq_getElem (by omega)]
          exact Option.some_ne_none _
      rw [List.getElem?_eq_none_iff] at hx
      rw [ne_eq, List.getElem?_eq_none_iff] at hy
      omega
    have hlenS : s2.SWInterruptHandlerTable.length = 20 := by
      have h20 := h4 20
      have h19 := h4 19
      have n20 : ¬ (0 + 4 ≤ 20 ∧ 20 < 20 ∧ e.testBit (20 - 4) = true) := by omega
      rw [if_neg n20] at h20
      have e20 : s1.SWInterruptHandlerTable[20]? = none :=
        List.getElem?_eq_none (by omega)
      have hx : s2.SWInterruptHandlerTable[20]? = none := by
        rw [h20]
        exact e20
      have hy : s2.SWInterruptHandlerTable[19]? ≠ none := by
        rw [h19]
        split
        · exact Option.some_ne_none _
        · show s1.SWInterruptHandlerTable[19]? ≠ none
          rw [List.getElem?_eq_getElem (by omega)]
          exact Option.some_ne_none _
      rw [List.getElem?_eq_none_iff] at hx
      rw [ne_eq, List.getElem?_eq_none_iff] at hy
      omega
    refine ⟨{ HalpRegisterVector (PRIMARY_VECTOR_BASE + 2) (PRIMARY_VECTOR_BASE + 2)
        HIGH_LEVEL s2 with IF := (EnableInterrupts || s.IF) }, ?_, ?_, ?_, ?_⟩
    · unfold HalpInitializePICs
      simp only [hs1, hE, if_pos hv, h1', Outcome.andThen]
    · intro _
      refine ⟨?_, ?_, ?_, ?_, ?_⟩
      · show (HalpRegisterVector _ _ _ s2).HalpEisaELCR = e
        rw [hR3, h2]
      · intro k hk
        refine ⟨?_, ?_⟩
        · show (HalpRegisterVector _ _ _ s2).HalpSpecialDismissTable[k]? = _
          rw [hR1, hD k hk]
        · show (HalpRegisterVector _ _ _ s2).SWInterruptHandlerTable[k + 4]? = _
          rw [hR2, hS (k + 4) (by omega)]
          by_cases hb : e.testBit k = true
          · rw [if_pos ⟨by omega, by simpa using hb⟩, if_pos hb]
          · have : ¬ (4 ≤ k + 4 ∧ e.testBit (k + 4 - 4) = true) := fun h =>
              hb (by simpa using h.2)
            rw [if_neg this, if_neg hb]
      · intro i hi
        show (HalpRegisterVector _ _ _ s2).SWInterruptHandlerTable[i]? = _
        have : ¬ (4 ≤ i ∧ e.testBit (i - 4) = true) := by omega
        rw [hR2, hS i (by omega), if_neg this]
      · show (HalpRegisterVector _ _ _ s2).HalpSpecialDismissTable.length = 16
        rw [hR1]
        exact hlenD
      · show (HalpRegisterVector _ _ _ s2).SWInterruptHandlerTable.length = 20
        rw [hR2]
        exact hlenS
    · intro hnv
      exact absurd hv hnv
    · intro k hk
      have hk16 : k < 16 := by omega
      have hbk : ¬ e.testBit k = true := by
        rcases hk with rfl | rfl | rfl | rfl | rfl
        · rw [hv.1]; decide
        · rw [hv.2.1]; decide
        · rw [hv.2.2.1]; decide
        · rw [hv.2.2.2.1]; decide
        · rw [hv.2.2.2.2]; decide
      refine ⟨?_, ?_⟩
      · show (HalpRegisterVector _ _ _ s2).HalpSpecialDismissTable[k]? = _
        rw [hR1, hD k hk16, if_neg hbk]
      · show (HalpRegisterVector _ _ _ s2).SWInterruptHandlerTable[k + 4]? = _
        have : ¬ (4 ≤ k + 4 ∧ e.testBit (k + 4 - 4) = true) := fun h =>
          hbk (by simpa using h.2)
        rw [hR2, hS (k + 4) (by omega), if_neg this]
  · obtain ⟨hR1, hR2, hR3⟩ := hR (PRIMARY_VECTOR_BASE + 2) (PRIMARY_VECTOR_BASE + 2) HIGH_LEVEL
      (inbyte EISA_ELCR_MASTER (inbyte EISA_ELCR_SLAVE s1).2).2
    have hD : (HalpRegisterVector (PRIMARY_VECTOR_BASE + 2) (PRIMARY_VECTOR_BASE + 2) HIGH_LEVEL
        (inbyte EISA_ELCR_MASTER (inbyte EISA_ELCR_SLAVE s1).2).2).HalpSpecialDismissTable =
        s.HalpSpecialDismissTable := by
      rw [hR1]
      show s1.HalpSpecialDismissTable = _
      rw [hL1]
    have hS : (HalpRegisterVector (PRIMARY_VECTOR_BASE + 2) (PRIMARY_VECTOR_BASE + 2) HIGH_LEVEL
        (inbyte EISA_ELCR_MASTER (inbyte EISA_ELCR_SLAVE s1).2).2).SWInterruptHandlerTable =
        s.SWInterruptHandlerTable := by
      rw [hR2]
      show s1.SWInterruptHandlerTable = _
      rw [hL2]
    have hEl : (HalpRegisterVector (PRIMARY_VECTOR_BASE + 2) (PRIMARY_VECTOR_BASE + 2) HIGH_LEVEL
        (inbyte EISA_ELCR_MASTER (inbyte EISA_ELCR_SLAVE s1).2).2).HalpEisaELCR =
        s.HalpEisaELCR := by
      rw [hR3]
      show s1.HalpEisaELCR = _
      rw [hL3]
    refine ⟨{ HalpRegisterVector (PRIMARY_VECTOR_BASE + 2) (PRIMARY_VECTOR_BASE + 2)
        HIGH_LEVEL (inbyte EISA_ELCR_MASTER (inbyte EISA_ELCR_SLAVE s1).2).2 with
        IF := (EnableInterrupts || s.IF) }, ?_, ?_, ?_, ?_⟩
    · unfold HalpInitializePICs
      simp only [hs1, hE, if_neg hv, Outcome.andThen]
    · intro h
      exact absurd h hv
    · intro _
      exact ⟨hD, hS, hEl⟩
    · intro k _
      exact ⟨by show (HalpRegisterVector _ _ _ _).HalpSpecialDismissTable[k]? = _; rw [hD],
        by show (HalpRegisterVector _ _ _ _).SWInterruptHandlerTable[k + 4]? = _; rw [hS]⟩
/-- An instance of initialize_pics_tables with ELCR = 0x0E20: IRQ 5 becomes level, IRQ 4 stays
edge. -/
theorem initialize_pics_tables_witness :
    (bootMachine.HalpSpecialDismissTable.length = 16 ∧
      bootMachine.SWInterruptHandlerTable.length = 20) ∧
    ∃ s', HalpInitializePICs id (fun _ _ _ m => m) false
        { bootMachine with elcrMaster := 0x20, elcrSlave := 0x0E } = .ret () s' ∧
      s'.HalpEisaELCR = 0x0E20 ∧
      s'.HalpSpecialDismissTable[5]? = some .HalpDismissIrqLevel ∧
      s'.SWInterruptHandlerTable[9]? = some .HalpHardwareInterruptLevel ∧
      s'.HalpSpecialDismissTable[4]? = some .HalpDismissIrqGeneric := by
  obtain ⟨s', h1, h2, _, _⟩ :=
    initialize_pics_tables id (fun _ _ _ m => m) false
      { bootMachine with elcrMaster := 0x20, elcrSlave := 0x0E }
      (fun _ => ⟨rfl, rfl, rfl⟩) (fun _ _ _ _ => ⟨rfl, rfl, rfl⟩) (by decide) (by decide)
      0x0E20 (by decide)
  obtain ⟨h3, h4, _⟩ := h2 (by decide)
  refine ⟨by decide, s', h1, h3, ?_, ?_, ?_⟩
  · rw [(h4 5 (by decide)).1]
    decide
  · rw [(h4 5 (by decide)).2]
    decide
  · rw [(h4 4 (by decide)).1]
    decide

/-- C20 (vector conversions): for every irq in 0..15, HalpIrqToVector irq = BASE + irq with
BASE = 0x30, HalpVectorToIrq undoes it and HalpVectorToIrql gives PROFILE_LEVEL - irq (IRQ 0
gives PROFILE_LEVEL, IRQ 15 gives PROFILE_LEVEL - 15); and HalpVectorToIrq (HalpIrqToVector x)
= x for every 8-bit x, the arithmetic being modulo 256. -/
theorem vector_conversions :
    (∀ irq, irq < 16 →
      HalpIrqToVector irq = PRIMARY_VECTOR_BASE + irq ∧
      HalpVectorToIrq (HalpIrqToVector irq) = irq ∧
      HalpVectorToIrql (HalpIrqToVector irq) = PROFILE_LEVEL - irq) ∧
    PRIMARY_VECTOR_BASE = 0x30 ∧
    HalpVectorToIrql (HalpIrqToVector 0) = PROFILE_LEVEL ∧
    HalpVectorToIrql (HalpIrqToVector 15) = PROFILE_LEVEL - 15 ∧
    (∀ x, x < 256 → HalpVectorToIrq (HalpIrqToVector x) = x) := by
  refine ⟨?_, rfl, by decide, by decide, ?_⟩
  · intro irq h
    interval_cases irq <;> decide
  · intro x hx
    interval_cases x <;> rfl

theorem testBit_low_byte (a b j : Nat) (hj : j < 8) :
    (a % 256 + 256 * b).testBit j = a.testBit j := by
  have h := Nat.testBit_mul_pow_two_add b (show a % 2 ^ 8 < 2 ^ 8 from Nat.mod_lt _ (by decide)) j
  have e : a % 256 + 256 * b = 2 ^ 8 * b + a % 2 ^ 8 := by
    norm_num
    omega
  rw [e, h, if_pos hj, Nat.testBit_mod_two_pow]
  simp [hj]

theorem testBit_mod_256 (M j : Nat) (hj : j < 8) : (M % 256).testBit j = M.testBit j := by
  have e : (256 : Nat) = 2 ^ 8 := by decide
  rw [e, Nat.testBit_mod_two_pow]
  simp [hj]

theorem picMask_testBit_two (s : Machine) : s.picMask.testBit 2 = s.pic1Mask.testBit 2 := by
  unfold Machine.picMask
  exact testBit_low_byte _ _ 2 (by decide)

theorem CascadeOpen_of_fields (s s' : Machine)
    (h1 : s'.pic1Mask.testBit 2 = s.pic1Mask.testBit 2) (h2 : s'.IDR = s.IDR)
    (h : CascadeOpen s) : CascadeOpen s' := by
  unfold CascadeOpen at *
  rw [picMask_testBit_two] at *
  rw [h1, h2]
  exact h

theorem KiI8259MaskTable_bit_two (i m : Nat) (h : KiI8259MaskTable[i]? = some m) :
    m.testBit 2 = false := by
  rcases Nat.lt_or_ge i 32 with hi | hi
  · interval_cases i <;> (simp [KiI8259MaskTable] at h; subst h; decide)
  · rw [List.getElem?_eq_none (by simpa [KiI8259MaskTable] using hi)] at h
    cases h

theorem outbyte_IDR (p d : Nat) (s : Machine) : (outbyte p d s).IDR = s.IDR := by
  unfold outbyte
  split
  · rfl
  · split <;> rfl

theorem outbyte_pic1Mask_of_ne (p d : Nat) (s : Machine) (hp : p ≠ PIC1_DATA_PORT) :
    (outbyte p d s).pic1Mask = s.pic1Mask := by
  unfold outbyte
  rw [if_neg hp]
  split <;> rfl

theorem sendEoi_IDR (k : Nat) (s : Machine) : (sendEoi k s).IDR = s.IDR := by
  unfold sendEoi
  split <;> simp only [outbyte_IDR]

theorem sendEoi_pic1Mask (k : Nat) (s : Machine) : (sendEoi k s).pic1Mask = s.pic1Mask := by
  unfold sendEoi
  split
  · rw [outbyte_pic1Mask_of_ne _ _ _ (by decide), outbyte_pic1Mask_of_ne _ _ _ (by decide)]
  · rw [outbyte_pic1Mask_of_ne _ _ _ (by decide)]

theorem writePicMask_IDR (M : Nat) (s : Machine) : (writePicMask M s).IDR = s.IDR := by
  unfold writePicMask
  simp only [outbyte_IDR]

theorem writePicMask_pic1Mask (M : Nat) (s : Machine) :
    (writePicMask M s).pic1Mask = M % 256 % 256 := by
  unfold writePicMask
  rw [outbyte_pic1Mask_of_ne _ _ _ (by decide)]
  simp [outbyte]

theorem CascadeOpen_writePicMask (M : Nat) (s : Machine) (hM : M.testBit 2 = false)
    (h : CascadeOpen s) : CascadeOpen (writePicMask M s) := by
  unfold CascadeOpen at *
  rw [picMask_testBit_two, writePicMask_pic1Mask, writePicMask_IDR,
    testBit_mod_256 _ 2 (by decide), testBit_mod_256 _ 2 (by decide)]
  exact ⟨hM, h.2⟩

theorem CascadeOpen_mask_bit (m idr : Nat) (hm : m.testBit 2 = false)
    (hi : idr.testBit 2 = false) : ((m ||| idr) &&& 0xFFFF).testBit 2 = false := by
  rw [testBit_and_ffff _ 2 (by decide), Nat.testBit_or, hm, hi]
  rfl

theorem CascadeOpen_idr_bit (idr : Nat) (hi : idr.testBit 2 = false) :
    (idr &&& 0xFFFF).testBit 2 = false := by
  rw [testBit_and_ffff _ 2 (by decide), hi]

theorem inbyte_IDR (p : Nat) (s : Machine) : (inbyte p s).2.IDR = s.IDR := rfl

theorem inbyte_pic1Mask (p : Nat) (s : Machine) : (inbyte p s).2.pic1Mask = s.pic1Mask := rfl

theorem dismissGeneric_cascade (T Irq : Nat) (s : Machine) (v : Bool × Option Nat)
    (s' : Machine) (h : _HalpDismissIrqGeneric T Irq s = .ret v s') (hc : CascadeOpen s) :
    CascadeOpen s' := by
  unfold _HalpDismissIrqGeneric at h
  dsimp only at h
  split at h
  · cases h
    exact CascadeOpen_of_fields s _ (by simp only [sendEoi_pic1Mask])
      (by simp only [sendEoi_IDR]) hc
  · split at h
    · cases h
    · split at h
      · cases h
      · rename_i mask hm
        cases h
        exact CascadeOpen_writePicMask _ _
          (CascadeOpen_mask_bit _ _ (KiI8259MaskTable_bit_two _ _ hm) hc.2)
          (CascadeOpen_of_fields s _ rfl rfl hc)

theorem dismissLevel_cascade (T Irq : Nat) (s : Machine) (v : Bool × Option Nat)
    (s' : Machine) (h : _HalpDismissIrqLevel T Irq s = .ret v s') (hc : CascadeOpen s) :
    CascadeOpen s' := by
  unfold _HalpDismissIrqLevel at h
  split at h
  · cases h
  · rename_i mask hm
    have hw : CascadeOpen (writePicMask ((mask ||| s.IDR) &&& 0xFFFF) s) :=
      CascadeOpen_writePicMask _ _
        (CascadeOpen_mask_bit _ _ (KiI8259MaskTable_bit_two _ _ hm) hc.2) hc
    dsimp only at h
    split at h
    · cases h
    · split at h
      · cases h
        exact CascadeOpen_of_fields _ _ (by simp only [sendEoi_pic1Mask])
          (by simp only [sendEoi_IDR]) hw
      · cases h
        exact CascadeOpen_of_fields _ _ (by simp only [sendEoi_pic1Mask])
          (by simp only [sendEoi_IDR]) hw

theorem CascadeOpen_outbyte_ctl (p d : Nat) (s : Machine) (hp : p ≠ PIC1_DATA_PORT)
    (hc : CascadeOpen s) : CascadeOpen (outbyte p d s) :=
  CascadeOpen_of_fields s _ (by rw [outbyte_pic1Mask_of_ne _ _ _ hp]) (outbyte_IDR _ _ _) hc

theorem CascadeOpen_inbyte (p : Nat) (s : Machine) (hc : CascadeOpen s) :
    CascadeOpen (inbyte p s).2 :=
  CascadeOpen_of_fields s _ rfl rfl hc

theorem callDismiss_cascade (d : HalDismiss) (T Irq : Nat) (s : Machine)
    (v : Bool × Option Nat) (s' : Machine) (h : callDismiss d T Irq s = .ret v s')
    (hc : CascadeOpen s) : CascadeOpen s' := by
  cases d <;> unfold callDismiss at h <;> dsimp only at h
  · exact dismissGeneric_cascade _ _ _ _ _ h hc
  · unfold HalpDismissIrq07 at h
    dsimp only at h
    split at h
    · cases h
      exact CascadeOpen_inbyte _ _ (CascadeOpen_outbyte_ctl _ _ _ (by decide) hc)
    · exact dismissGeneric_cascade _ _ _ _ _ h
        (CascadeOpen_inbyte _ _ (CascadeOpen_outbyte_ctl _ _ _ (by decide) hc))
  · unfold HalpDismissIrq13 at h
    exact dismissGeneric_cascade _ _ _ _ _ h (CascadeOpen_outbyte_ctl _ _ _ (by decide) hc)
  · unfold HalpDismissIrq15 at h
    dsimp only at h
    split at h
    · cases h
      exact CascadeOpen_outbyte_ctl _ _ _ (by decide)
        (CascadeOpen_inbyte _ _ (CascadeOpen_outbyte_ctl _ _ _ (by decide) hc))
    · exact dismissGeneric_cascade _ _ _ _ _ h
        (CascadeOpen_inbyte _ _ (CascadeOpen_outbyte_ctl _ _ _ (by decide) hc))
  · exact dismissLevel_cascade _ _ _ _ _ h hc
  · unfold HalpDismissIrq07Level at h
    dsimp only at h
    split at h
    · cases h
      exact CascadeOpen_inbyte _ _ (CascadeOpen_outbyte_ctl _ _ _ (by decide) hc)
    · exact dismissLevel_cascade _ _ _ _ _ h
        (CascadeOpen_inbyte _ _ (CascadeOpen_outbyte_ctl _ _ _ (by decide) hc))
  · unfold HalpDismissIrq13Level at h
    exact dismissLevel_cascade _ _ _ _ _ h (CascadeOpen_outbyte_ctl _ _ _ (by decide) hc)
  · unfold HalpDismissIrq15Level at h
    dsimp only at h
    split at h
    · cases h
      exact CascadeOpen_outbyte_ctl _ _ _ (by decide)
        (CascadeOpen_inbyte _ _ (CascadeOpen_outbyte_ctl _ _ _ (by decide) hc))
    · exact dismissLevel_cascade _ _ _ _ _ h
        (CascadeOpen_inbyte _ _ (CascadeOpen_outbyte_ctl _ _ _ (by decide) hc))

theorem HalBeginSystemInterrupt_cascade (T Vector : Nat) (s : Machine)
    (v : Bool × Option Nat) (s' : Machine) (h : HalBeginSystemInterrupt T Vector s = .ret v s')
    (hc : CascadeOpen s) : CascadeOpen s' := by
  unfold HalBeginSystemInterrupt at h
  dsimp only at h
  split at h
  · cases h
  · exact callDismiss_cascade _ _ _ _ _ _ h hc

theorem callSW_cascade (run : Invoke)
    (hrun : ∀ i h m m', run i h m = .ret () m' → CascadeOpen m → CascadeOpen m')
    (i : Nat) (s : Machine) (a : Unit) (m : Machine) (h : callSW run i s = .ret a m)
    (hc : CascadeOpen s) : CascadeOpen m := by
  unfold callSW at h
  split at h
  · cases h
  · exact hrun _ _ _ _ h hc

theorem KfLowerIrql_cascade (run : Invoke)
    (hrun : ∀ i h m m', run i h m = .ret () m' → CascadeOpen m → CascadeOpen m')
    (dbg : Bool) (old : Nat) (s s' : Machine) (h : KfLowerIrql run dbg old s = .ret () s')
    (hc : CascadeOpen s) : CascadeOpen s' := by
  unfold KfLowerIrql at h
  split at h
  · cases h
  · split at h
    · cases h
    · dsimp only at h
      split at h
      · obtain ⟨a, m1, hcall, hrest⟩ := Outcome_andThen_eq_ret _ _ _ _ h
        cases hrest
        refine CascadeOpen_of_fields m1 _ rfl rfl (callSW_cascade run hrun _ _ _ _ hcall ?_)
        split
        · exact CascadeOpen_of_fields (writePicMask (s.IDR &&& 0xFFFF)
            { s with IF := false, Irql := old }) _ rfl rfl
            (CascadeOpen_writePicMask _ _ (CascadeOpen_idr_bit _ hc.2)
              (CascadeOpen_of_fields s _ rfl rfl hc))
        · exact CascadeOpen_of_fields s _ rfl rfl hc
      · cases h
        exact CascadeOpen_of_fields s _ rfl rfl hc

theorem HalRequestSoftwareInterrupt_cascade (run : Invoke)
    (hrun : ∀ i h m m', run i h m = .ret () m' → CascadeOpen m → CascadeOpen m')
    (Irql : Nat) (s s' : Machine) (h : HalRequestSoftwareInterrupt run Irql s = .ret () s')
    (hc : CascadeOpen s) : CascadeOpen s' := by
  unfold HalRequestSoftwareInterrupt at h
  split at h
  · cases h
  · dsimp only at h
    split at h
    · cases h
    · split at h
      · obtain ⟨a, m1, hcall, hrest⟩ := Outcome_andThen_eq_ret _ _ _ _ h
        cases hrest
        exact CascadeOpen_of_fields m1 _ rfl rfl
          (callSW_cascade run hrun _ _ _ _ hcall (CascadeOpen_of_fields s _ rfl rfl hc))
      · cases h
        exact CascadeOpen_of_fields s _ rfl rfl hc

theorem HalClearSoftwareInterrupt_cascade (Irql : Nat) (s s' : Machine)
    (h : HalClearSoftwareInterrupt Irql s = .ret () s') (hc : CascadeOpen s) :
    CascadeOpen s' := by
  unfold HalClearSoftwareInterrupt at h
  split at h
  · cases h
  · cases h
    exact CascadeOpen_of_fields s _ rfl rfl hc

theorem HalEndSystemInterrupt_loop_cascade (run : Invoke)
    (hrun : ∀ i h m m', run i h m = .ret () m' → CascadeOpen m → CascadeOpen m') :
    ∀ fuel mask s r s', HalEndSystemInterrupt.loop run fuel mask s = .ret r s' →
      CascadeOpen s → CascadeOpen s' := by
  intro fuel
  induction fuel with
  | zero =>
    intro mask s r s' h
    cases h
  | succ fuel ih =>
    intro mask s r s' h hc
    unfold HalEndSystemInterrupt.loop at h
    dsimp only at h
    have hw : CascadeOpen (writePicMask (s.IDR &&& 0xFFFF) s) :=
      CascadeOpen_writePicMask _ _ (CascadeOpen_idr_bit _ hc.2) hc
    split at h
    · split at h
      · cases h
        exact hw
      · obtain ⟨a, m1, hcall, hrest⟩ := Outcome_andThen_eq_ret _ _ _ _ h
        have hm1 := callSW_cascade run hrun _ _ _ _ hcall
          (CascadeOpen_of_fields (writePicMask (s.IDR &&& 0xFFFF) s) _ rfl rfl hw)
        split at hrest
        · cases hrest
        · split at hrest
          · cases hrest
            exact CascadeOpen_of_fields m1 _ rfl rfl hm1
          · exact ih _ _ _ _ hrest (CascadeOpen_of_fields m1 _ rfl rfl hm1)
    · split at h
      · cases h
      · cases h
        exact hc

theorem HalEndSystemInterrupt_cascade (run : Invoke)
    (hrun : ∀ i h m m', run i h m = .ret () m' → CascadeOpen m → CascadeOpen m')
    (fuel old : Nat) (s : Machine) (r : Option SwHandler2) (s' : Machine)
    (h : HalEndSystemInterrupt run fuel old s = .ret r s') (hc : CascadeOpen s) :
    CascadeOpen s' := by
  unfold HalEndSystemInterrupt at h
  dsimp only at h
  have hs1 : CascadeOpen { s with Irql := old } := CascadeOpen_of_fields s _ rfl rfl hc
  split at h
  · cases h
  · split at h
    · split at h
      · cases h
        exact hs1
      · exact HalEndSystemInterrupt_loop_cascade run hrun _ _ _ _ _ h hs1
    · cases h
      exact hs1

theorem HalEnableSystemInterrupt_cascade (Vector Irql : Nat) (mode : KINTERRUPT_MODE)
    (s : Machine) (v : Bool) (s' : Machine)
    (h : HalEnableSystemInterrupt Vector Irql mode s = .ret v s') (hc : CascadeOpen s) :
    CascadeOpen s' := by
  unfold HalEnableSystemInterrupt at h
  dsimp only at h
  split at h
  · cases h
    exact hc
  · split at h
    · cases h
    · rename_i s1 hs1
      have hs1c : CascadeOpen s1 := by
        split at hs1
        · split at hs1
          · cases hs1
          · split at hs1
            · cases hs1
              exact CascadeOpen_of_fields s _ rfl rfl hc
            · cases hs1
        · cases hs1
          exact hc
      have hbit : (s1.IDR &&& (0xFFFFFFFF ^^^ (1 <<< vectorIrq Vector))).testBit 2 = false := by
        rw [Nat.testBit_and, hs1c.2]
        rfl
      split at h
      · cases h
      · rename_i mask hm
        cases h
        refine CascadeOpen_of_fields (writePicMask _ _) _ rfl rfl
          (CascadeOpen_writePicMask _ _
            (CascadeOpen_mask_bit _ _ (KiI8259MaskTable_bit_two _ _ hm) hbit) ?_)
        exact ⟨by rw [picMask_testBit_two]; exact (picMask_testBit_two s1 ▸ hs1c.1), hbit⟩

theorem HalDisableSystemInterrupt_cascade (Vector Irql : Nat) (s s' : Machine)
    (hv : vectorIrq Vector ≠ 2)
    (h : HalDisableSystemInterrupt Vector Irql s = .ret () s') (hc : CascadeOpen s) :
    CascadeOpen s' := by
  unfold HalDisableSystemInterrupt at h
  split at h
  · cases h
  · dsimp only at h
    cases h
    have hne : ¬ (vectorIrq Vector = 2) := hv
    have hidr : (s.IDR ||| (1 <<< vectorIrq Vector)).testBit 2 = false := by
      rw [testBit_or_bit, hc.2, decide_eq_false hne]
      rfl
    have hb : (inbyte PIC1_DATA_PORT
        { s with IF := false, IDR := s.IDR ||| (1 <<< vectorIrq Vector) }).1 +
        256 * (inbyte PIC2_DATA_PORT (inbyte PIC1_DATA_PORT
          { s with IF := false, IDR := s.IDR ||| (1 <<< vectorIrq Vector) }).2).1 =
        s.picMask := by
      simp [inbyte, portByte, Machine.picMask]
    rw [hb]
    have hboth : ((s.picMask ||| (1 <<< vectorIrq Vector)) % 65536).testBit 2 = false := by
      have e : (65536 : Nat) = 2 ^ 16 := by decide
      rw [e, Nat.testBit_mod_two_pow, testBit_or_bit, hc.1, decide_eq_false hne]
      rfl
    refine CascadeOpen_of_fields (writePicMask _ _) _ rfl rfl
      (CascadeOpen_writePicMask _ _ hboth ?_)
    exact ⟨by rw [picMask_testBit_two]; exact (picMask_testBit_two s ▸ hc.1), hidr⟩

theorem HalOp_exec_cascade (run : Invoke) (run2 : SwHandler2 → Machine → Outcome Unit)
    (dbg : Bool) (SYNCH_LEVEL fuel : Nat)
    (hrun : ∀ i h m m', run i h m = .ret () m' → CascadeOpen m → CascadeOpen m')
    (hrun2 : ∀ h m m', run2 h m = .ret () m' → CascadeOpen m → CascadeOpen m')
    (op : HalOp) (hop : ∀ V I, op = .disableSystemInterrupt V I → vectorIrq V ≠ 2)
    (s s' : Machine) (h : op.exec run run2 dbg SYNCH_LEVEL fuel s = .ret () s')
    (hc : CascadeOpen s) : CascadeOpen s' := by
  cases op with
  | raise NewIrql =>
    obtain ⟨a, m1, h1, h2⟩ := Outcome_andThen_eq_ret _ _ _ _ h
    cases h2
    unfold KfRaiseIrql at h1
    dsimp only at h1
    split at h1
    · cases h1
    · cases h1
      exact CascadeOpen_of_fields s _ rfl rfl hc
  | raiseToDpc =>
    obtain ⟨a, m1, h1, h2⟩ := Outcome_andThen_eq_ret _ _ _ _ h
    cases h2
    unfold KeRaiseIrqlToDpcLevel at h1
    dsimp only at h1
    split at h1
    · cases h1
    · cases h1
      exact CascadeOpen_of_fields s _ rfl rfl hc
  | raiseToSynch =>
    obtain ⟨a, m1, h1, h2⟩ := Outcome_andThen_eq_ret _ _ _ _ h
    cases h2
    unfold KeRaiseIrqlToSynchLevel at h1
    dsimp only at h1
    split at h1
    · cases h1
    · cases h1
      exact CascadeOpen_of_fields s _ rfl rfl hc
  | lower OldIrql => exact KfLowerIrql_cascade run hrun dbg OldIrql s s' h hc
  | beginSystemInterrupt Irql Vector =>
    have h' : (HalBeginSystemInterrupt Irql Vector s).andThen
        (fun _ m => Outcome.ret () m) = .ret () s' := h
    obtain ⟨a, m1, h1, h2⟩ := Outcome_andThen_eq_ret _ _ _ _ h'
    cases h2
    exact HalBeginSystemInterrupt_cascade _ _ _ _ _ h1 hc
  | endSystemInterrupt OldIrql =>
    obtain ⟨a, m1, h1, h2⟩ := Outcome_andThen_eq_ret _ _ _ _ h
    have hm1 := HalEndSystemInterrupt_cascade run hrun _ _ _ _ _ h1 hc
    cases a with
    | none =>
      cases h2
      exact hm1
    | some h2nd => exact hrun2 _ _ _ h2 hm1
  | enableSystemInterrupt Vector Irql InterruptMode =>
    have h' : (HalEnableSystemInterrupt Vector Irql InterruptMode s).andThen
        (fun _ m => Outcome.ret () m) = .ret () s' := h
    obtain ⟨a, m1, h1, h2⟩ := Outcome_andThen_eq_ret _ _ _ _ h'
    cases h2
    exact HalEnableSystemInterrupt_cascade _ _ _ _ _ _ h1 hc
  | disableSystemInterrupt Vector Irql =>
    exact HalDisableSystemInterrupt_cascade Vector Irql s s' (hop Vector Irql rfl) h hc
  | requestSoftwareInterrupt Irql =>
    exact HalRequestSoftwareInterrupt_cascade run hrun Irql s s' h hc
  | clearSoftwareInterrupt Irql => exact HalClearSoftwareInterrupt_cascade Irql s s' h hc

/-- C15, counterexample: from the boot state, where bit 2 of the combined PIC mask is clear and
IRQ 2 is not disabled (neither bit 2 nor bit 6 of IDR is set), the single operation
HalDisableSystemInterrupt on the cascade vector BASE + 2 returns with bit 2 of the PIC mask
set: the routine validates nothing and ORs 1 << 2 into the mask it reads back. -/
theorem disable_cascade_vector_masks_irq2 :
    (bootMachine.picMask.testBit 2 = false ∧ bootMachine.IDR.testBit 2 = false ∧
      bootMachine.IDR.testBit (2 + 4) = false) ∧
    execOps idleInvoke (fun _ m => .ret () m) true DISPATCH_LEVEL 1
        [.disableSystemInterrupt (PRIMARY_VECTOR_BASE + 2) 0] bootMachine =
      .ret ()
        { bootMachine with
            IDR := 4, pic1Mask := 4,
            trace := [PortEvent.mk .read 0x21 0 ⟨0, 0, 4, 0⟩,
                      PortEvent.mk .read 0xA1 0 ⟨0, 0, 4, 0⟩,
                      PortEvent.mk .write 0x21 4 ⟨0, 0, 4, 0⟩,
                      PortEvent.mk .write 0xA1 0 ⟨0, 0, 4, 0⟩] } ∧
    ({ bootMachine with IDR := 4, pic1Mask := 4 } : Machine).picMask.testBit 2 = true := by
  refine ⟨by decide, by decide, by decide⟩

/-- C15, amended: cascade preservation for every sequence of exposed operations in which
HalDisableSystemInterrupt is never applied to a vector whose IRQ is 2.  From a state in which
bit 2 of the combined PIC mask is clear and bit 2 of IDR is clear, with replayed handlers that
keep those two bits clear, every such sequence that returns leaves bit 2 of the PIC mask (and
of IDR) clear. -/
theorem cascade_preserved (run : Invoke) (run2 : SwHandler2 → Machine → Outcome Unit)
    (dbg : Bool) (SYNCH_LEVEL fuel : Nat)
    (hrun : ∀ i h m m', run i h m = .ret () m' → CascadeOpen m → CascadeOpen m')
    (hrun2 : ∀ h m m', run2 h m = .ret () m' → CascadeOpen m → CascadeOpen m')
    (ops : List HalOp)
    (hops : ∀ V I, HalOp.disableSystemInterrupt V I ∈ ops → vectorIrq V ≠ 2)
    (s s' : Machine) (hs : CascadeOpen s)
    (h : execOps run run2 dbg SYNCH_LEVEL fuel ops s = .ret () s') :
    CascadeOpen s' ∧ s'.picMask.testBit 2 = false := by
  suffices hc : CascadeOpen s' from ⟨hc, hc.1⟩
  induction ops generalizing s with
  | nil =>
    unfold execOps at h
    cases h
    exact hs
  | cons op ops ih =>
    unfold execOps at h
    obtain ⟨a, m1, h1, h2⟩ := Outcome_andThen_eq_ret _ _ _ _ h
    have hm1 := HalOp_exec_cascade run run2 dbg SYNCH_LEVEL fuel hrun hrun2 op
      (fun V I e => hops V I (by rw [e]; exact List.mem_cons_self _ _)) s m1 h1 hs
    exact ih (fun V I hmem => hops V I (List.mem_cons_of_mem _ hmem)) m1 hm1 h2

/-- C15, instance: a sequence of five operations from the boot state, disabling and enabling
IRQ 3, keeps the cascade bit clear. -/
theorem cascade_preserved_witness :
    (∀ V I, HalOp.disableSystemInterrupt V I ∈
        [HalOp.raise 24, .disableSystemInterrupt (PRIMARY_VECTOR_BASE + 3) 24,
         .beginSystemInterrupt 22 (PRIMARY_VECTOR_BASE + 5), .lower 0,
         .enableSystemInterrupt (PRIMARY_VECTOR_BASE + 3) 24 .Latched] →
      vectorIrq V ≠ 2) ∧
    CascadeOpen bootMachine ∧
    ∃ s', execOps idleInvoke (fun _ m => .ret () m) true DISPATCH_LEVEL 1
        [HalOp.raise 24, .disableSystemInterrupt (PRIMARY_VECTOR_BASE + 3) 24,
         .beginSystemInterrupt 22 (PRIMARY_VECTOR_BASE + 5), .lower 0,
         .enableSystemInterrupt (PRIMARY_VECTOR_BASE + 3) 24 .Latched] bootMachine =
        .ret () s' ∧
      s'.picMask.testBit 2 = false := by
  have hops : ∀ V I, HalOp.disableSystemInterrupt V I ∈
      [HalOp.raise 24, .disableSystemInterrupt (PRIMARY_VECTOR_BASE + 3) 24,
       .beginSystemInterrupt 22 (PRIMARY_VECTOR_BASE + 5), .lower 0,
       .enableSystemInterrupt (PRIMARY_VECTOR_BASE + 3) 24 .Latched] →
      vectorIrq V ≠ 2 := by
    intro V I hmem
    simp at hmem
    rw [hmem.1]
    decide
  have hboot : CascadeOpen bootMachine := ⟨by decide, by decide⟩
  have hex : ∃ s', execOps idleInvoke (fun _ m => .ret () m) true DISPATCH_LEVEL 1
      [HalOp.raise 24, .disableSystemInterrupt (PRIMARY_VECTOR_BASE + 3) 24,
       .beginSystemInterrupt 22 (PRIMARY_VECTOR_BASE + 5), .lower 0,
       .enableSystemInterrupt (PRIMARY_VECTOR_BASE + 3) 24 .Latched] bootMachine =
      .ret () s' := ⟨_, rfl⟩
  obtain ⟨s', hs'⟩ := hex
  exact ⟨hops, hboot, s', hs',
    (cascade_preserved idleInvoke (fun _ m => .ret () m) true DISPATCH_LEVEL 1
      (fun _ _ _ _ e hc => by cases e; exact hc) (fun _ _ _ e hc => by cases e; exact hc)
      _ hops bootMachine s' hboot hs').2⟩

theorem testBit_fffffff0 (i : Nat) (h4 : 4 ≤ i) (h32 : i < 32) :
    (0xFFFFFFF0 : Nat).testBit i = true := by
  interval_cases i <;> decide

theorem and_bit_eq_zero_of_guard (a top : Nat) (h : a &&& 0xFFFFFFF0 = 0) (h4 : 4 ≤ top)
    (h32 : top < 32) : ¬ (a &&& (1 <<< top) ≠ 0) := by
  intro hne
  have hb := (and_bit_ne_zero_iff a top).1 hne
  have : (a &&& 0xFFFFFFF0).testBit top = true := by
    rw [Nat.testBit_and, hb, testBit_fffffff0 top h4 h32]
    rfl
  rw [h, Nat.zero_testBit] at this
  exact absurd this (by decide)

/-- C17, counterexample: KfLowerIrql has no recursion guard.  Entered with
IrrActive & 0xFFFFFFF0 != 0 and IRQ 0 pending, it writes the PIC mask, clears the IRR bit and
invokes the replay handler of slot 4 (with an environment that cannot run that slot the call
is undefined). -/
theorem lower_has_no_recursion_guard :
    (0x200 : Nat) &&& 0xFFFFFFF0 ≠ 0 ∧
    KfLowerIrql idleInvoke true 0
        { bootMachine with Irql := 28, IRR := 0x10, IrrActive := 0x200 } =
      .ret ()
        { bootMachine with
            IRR := 0, IrrActive := 0x200,
            trace := [PortEvent.mk .write 0x21 0 ⟨0, 0x10, 0, 0x200⟩,
                      PortEvent.mk .write 0xA1 0 ⟨0, 0x10, 0, 0x200⟩] } ∧
    KfLowerIrql (fun _ _ _ => .undefined) true 0
        { bootMachine with Irql := 28, IRR := 0x10, IrrActive := 0x200 } = .undefined := by
  refine ⟨by decide, by decide, by decide⟩

/-- C17, amended: the recursion guard is present in HalEndSystemInterrupt,
HalpEndSoftwareInterrupt2 and HalpHardwareInterruptLevel but not in KfLowerIrql.  Entered with
IrrActive & 0xFFFFFFF0 != 0, the two end routines return no tail handler and change only Irql,
and the level replay entry returns the state unchanged, for every IRR; KfLowerIrql with a
pending allowed bit runs its drain iteration regardless of IrrActive. -/
theorem recursion_guard (run : Invoke) (dbg : Bool) (fuel old : Nat) (s : Machine)
    (hg : s.IrrActive &&& 0xFFFFFFF0 ≠ 0) :
    (old ≤ 31 →
      HalEndSystemInterrupt run fuel old s = .ret none { s with Irql := old } ∧
      HalpEndSoftwareInterrupt2 run (fuel + 1) old s = .ret none { s with Irql := old }) ∧
    (s.Irql ≤ 31 → HalpHardwareInterruptLevel run s = .ret () s) ∧
    (old ≤ 31 → (dbg = true → old ≤ s.Irql) →
      s.IRR &&& FindHigherIrqlMask.getD old 0 ≠ 0 →
      KfLowerIrql run dbg old s =
        (callSW run (BitScanReverse (s.IRR &&& FindHigherIrqlMask.getD old 0))
          (if BitScanReverse (s.IRR &&& FindHigherIrqlMask.getD old 0) > DISPATCH_LEVEL then
            { s with
                Irql := old, IF := false,
                pic1Mask := (s.IDR &&& 0xFFFF) % 256,
                pic2Mask := (s.IDR &&& 0xFFFF) / 256,
                IRR := s.IRR ^^^
                  (1 <<< BitScanReverse (s.IRR &&& FindHigherIrqlMask.getD old 0)),
                trace := s.trace ++
                  [PortEvent.mk .write 0x21 ((s.IDR &&& 0xFFFF) % 256)
                     ⟨old, s.IRR, s.IDR, s.IrrActive⟩,
                   PortEvent.mk .write 0xA1 ((s.IDR &&& 0xFFFF) / 256)
                     ⟨old, s.IRR, s.IDR, s.IrrActive⟩] }
           else { s with Irql := old, IF := false })).andThen
          fun _ m => .ret () { m with IF := s.IF }) := by
  refine ⟨?_, ?_, ?_⟩
  · intro hold
    refine ⟨?_, ?_⟩
    · unfold HalEndSystemInterrupt
      simp only [FindHigherIrqlMask_get old hold]
      generalize FindHigherIrqlMask.getD old 0 = higher
      by_cases hp : s.IRR &&& higher ≠ 0
      · rw [if_pos hp, if_pos hg]
      · rw [if_neg hp]
    · unfold HalpEndSoftwareInterrupt2
      rw [HalpEndSoftwareInterrupt2.loop]
      simp only [FindHigherIrqlMask_get old hold]
      generalize FindHigherIrqlMask.getD old 0 = higher
      by_cases hp : s.IRR &&& higher = 0
      · rw [if_pos hp]
      · rw [if_neg hp, if_pos hg]
  · intro hI
    unfold HalpHardwareInterruptLevel
    simp only [FindHigherIrqlMask_get s.Irql hI]
    generalize FindHigherIrqlMask.getD s.Irql 0 = higher
    by_cases hp : s.IRR &&& higher ≠ 0
    · rw [if_pos hp, if_pos hg]
    · rw [if_neg hp]
  · intro hold hpre hp
    rw [KfLowerIrql_eq run dbg old s hpre hold, if_neg hp]

/-- C17, instance: HalEndSystemInterrupt entered with IrrActive = 0x200 and IRQ 0 pending
returns no tail and changes only Irql. -/
theorem recursion_guard_witness :
    (0x200 : Nat) &&& 0xFFFFFFF0 ≠ 0 ∧
    HalEndSystemInterrupt dpcQueueingInvoke 5 0
        { bootMachine with Irql := 28, IRR := 0x10, IrrActive := 0x200 } =
      .ret none { bootMachine with Irql := 0, IRR := 0x10, IrrActive := 0x200 } :=
  ⟨by decide,
   ((recursion_guard dpcQueueingInvoke true 5 0
      { bootMachine with Irql := 28, IRR := 0x10, IrrActive := 0x200 } (by decide)).1
        (by decide)).1⟩

/-! ## Frame of the port primitives -/

theorem Same_refl (m : Machine) : Same m m := ⟨rfl, rfl, rfl, rfl⟩

theorem Same_trans (a b c : Machine) (h1 : Same a b) (h2 : Same b c) : Same a c :=
  ⟨h2.1.trans h1.1, h2.2.1.trans h1.2.1, h2.2.2.1.trans h1.2.2.1, h2.2.2.2.trans h1.2.2.2⟩

theorem outbyte_same (p d : Nat) (s : Machine) : Same s (outbyte p d s) := by
  unfold outbyte
  dsimp only
  split
  · exact ⟨rfl, rfl, rfl, rfl⟩
  · split
    · exact ⟨rfl, rfl, rfl, rfl⟩
    · exact ⟨rfl, rfl, rfl, rfl⟩

theorem inbyte_same (p : Nat) (s : Machine) : Same s (inbyte p s).2 := ⟨rfl, rfl, rfl, rfl⟩

theorem writePicMask_same (M : Nat) (s : Machine) : Same s (writePicMask M s) :=
  Same_trans _ _ _ (outbyte_same _ _ s) (outbyte_same _ _ _)

theorem sendEoi_same (k : Nat) (s : Machine) : Same s (sendEoi k s) := by
  unfold sendEoi
  split
  · exact Same_trans _ _ _ (outbyte_same _ _ s) (outbyte_same _ _ _)
  · exact outbyte_same _ _ s

theorem FindHigherIrqlMask_linear (k old : Nat) (hk : k < 16) (h : PROFILE_LEVEL - k > old) :
    (FindHigherIrqlMask.getD old 0).testBit (k + 4) = true := by
  have ho : old < 27 := by
    unfold PROFILE_LEVEL at h
    omega
  interval_cases k <;> interval_cases old <;> decide

/-- C19, counterexample: scenario S4 on a machine with IRQ 10 in level mode, old IRQL 0 and a
DPC pending.  The level dismissal sets IRR bit 14 while accepting, so the matching
HalEndSystemInterrupt(0) writes the PIC mask (ports 0x21 and 0xA1) and invokes replay slot 14
before it returns the dispatch tail; with an environment that cannot run slot 14 the call is
undefined. -/
theorem level_end_replays_own_slot :
    HalBeginSystemInterrupt (PROFILE_LEVEL - 10) (PRIMARY_VECTOR_BASE + 10)
        { levelTenMachine with IRR := 4 } =
      .ret (true, some 0)
        { levelTenMachine with
            Irql := 17, IRR := 0x4004, pic1Mask := 0x00, pic2Mask := 0xFC,
            trace := [PortEvent.mk .write 0x21 0x00 ⟨0, 4, 0, 0⟩,
                      PortEvent.mk .write 0xA1 0xFC ⟨0, 4, 0, 0⟩,
                      PortEvent.mk .write 0xA0 0x62 ⟨0, 0x4004, 0, 0⟩,
                      PortEvent.mk .write 0x20 0x62 ⟨0, 0x4004, 0, 0⟩] } ∧
    HalEndSystemInterrupt levelInvoke 2 0
        { levelTenMachine with
            Irql := 17, IRR := 0x4004, pic1Mask := 0x00, pic2Mask := 0xFC,
            trace := [PortEvent.mk .write 0x21 0x00 ⟨0, 4, 0, 0⟩,
                      PortEvent.mk .write 0xA1 0xFC ⟨0, 4, 0, 0⟩,
                      PortEvent.mk .write 0xA0 0x62 ⟨0, 0x4004, 0, 0⟩,
                      PortEvent.mk .write 0x20 0x62 ⟨0, 0x4004, 0, 0⟩] } =
      .ret (some .HalpDispatchInterrupt2ndEntry)
        { levelTenMachine with
            Irql := 0, IRR := 4, pic1Mask := 0x00, pic2Mask := 0x00,
            trace := [PortEvent.mk .write 0x21 0x00 ⟨0, 4, 0, 0⟩,
                      PortEvent.mk .write 0xA1 0xFC ⟨0, 4, 0, 0⟩,
                      PortEvent.mk .write 0xA0 0x62 ⟨0, 0x4004, 0, 0⟩,
                      PortEvent.mk .write 0x20 0x62 ⟨0, 0x4004, 0, 0⟩,
                      PortEvent.mk .write 0x21 0x00 ⟨0, 0x4004, 0, 0⟩,
                      PortEvent.mk .write 0xA1 0x00 ⟨0, 0x4004, 0, 0⟩] } ∧
    HalEndSystemInterrupt (fun i _ m => if i = 14 then .undefined else .ret () m) 2 0
        { levelTenMachine with
            Irql := 17, IRR := 0x4004, pic1Mask := 0x00, pic2Mask := 0xFC } = .undefined := by
  refine ⟨by decide, by decide, by decide⟩

theorem or_xor_bit (a t : Nat) (h : a.testBit t = false) :
    (a ||| (1 <<< t)) ^^^ (1 <<< t) = a := by
  apply Nat.eq_of_testBit_eq
  intro i
  rw [testBit_xor_bit, testBit_or_bit]
  by_cases e : t = i
  · subst e
    rw [h]
    simp
  · simp [e]

theorem testBit_of_lt_eight (a i : Nat) (ha : a < 8) (hi : 3 ≤ i) : a.testBit i = false := by
  apply Nat.testBit_lt_two_pow
  have : 2 ^ 3 ≤ 2 ^ i := Nat.pow_le_pow_right (by decide) hi
  omega

theorem BitScanReverse_unique (m t : Nat) (h32 : m < 2 ^ 32) (ht : m.testBit t = true)
    (hmax : ∀ j, t < j → m.testBit j = false) : BitScanReverse m = t := by
  have hm : m ≠ 0 := by
    intro e
    rw [e, Nat.zero_testBit] at ht
    exact absurd ht (by decide)
  obtain ⟨h1, _, h3⟩ := BitScanReverse_spec m hm h32
  rcases Nat.lt_trichotomy (BitScanReverse m) t with h | h | h
  · have := h3 t h
    rw [ht] at this
    exact absurd this (by decide)
  · exact h
  · have := hmax _ h
    rw [h1] at this
    exact absurd this (by decide)

theorem BitScanReverse_le_two (m : Nat) (hm : m ≠ 0) (h8 : m < 8) : BitScanReverse m ≤ 2 := by
  obtain ⟨h1, _, _⟩ := BitScanReverse_spec m hm (by omega)
  by_contra hgt
  have := testBit_of_lt_eight m (BitScanReverse m) h8 (by omega)
  rw [h1] at this
  exact absurd this (by decide)

theorem SWInterruptHandlerTable2_get (i : Nat) (hi : i ≤ 2) :
    ∃ h, SWInterruptHandlerTable2[i]? = some h := by
  interval_cases i <;> exact ⟨_, rfl⟩

theorem HalpHardwareInterruptLevel_guarded (run : Invoke) (s : Machine) (hI : s.Irql ≤ 31)
    (hg : s.IrrActive &&& 0xFFFFFFF0 ≠ 0) : HalpHardwareInterruptLevel run s = .ret () s := by
  unfold HalpHardwareInterruptLevel
  simp only [FindHigherIrqlMask_get s.Irql hI]
  generalize FindHigherIrqlMask.getD s.Irql 0 = higher
  by_cases hp : s.IRR &&& higher ≠ 0
  · rw [if_pos hp, if_pos hg]
  · rw [if_neg hp]

theorem or_bit_guard_ne_zero (a t : Nat) (h4 : 4 ≤ t) (h32 : t < 32) :
    (a ||| (1 <<< t)) &&& 0xFFFFFFF0 ≠ 0 := by
  intro e
  have : ((a ||| (1 <<< t)) &&& 0xFFFFFFF0).testBit t = true := by
    rw [Nat.testBit_and, testBit_or_bit, testBit_fffffff0 t h4 h32]
    simp
  rw [e, Nat.zero_testBit] at this
  exact absurd this (by decide)

theorem HalBeginSystemInterrupt_level_accept (k T : Nat) (s : Machine) (hk : k < 16)
    (hT : T ≤ 31) (hacc : T > s.Irql)
    (hd : s.HalpSpecialDismissTable[k]? = some .HalpDismissIrqLevel) :
    HalBeginSystemInterrupt T (PRIMARY_VECTOR_BASE + k) s =
      .ret (true, some s.Irql)
        { s with
            Irql := T, IF := true,
            IRR := s.IRR ||| (1 <<< (k + 4)),
            pic1Mask := ((KiI8259MaskTable.getD T 0 ||| s.IDR) &&& 0xFFFF) % 256,
            pic2Mask := ((KiI8259MaskTable.getD T 0 ||| s.IDR) &&& 0xFFFF) / 256,
            trace := s.trace ++
              [PortEvent.mk .write 0x21
                 (((KiI8259MaskTable.getD T 0 ||| s.IDR) &&& 0xFFFF) % 256)
                 ⟨s.Irql, s.IRR, s.IDR, s.IrrActive⟩,
               PortEvent.mk .write 0xA1
                 (((KiI8259MaskTable.getD T 0 ||| s.IDR) &&& 0xFFFF) / 256)
                 ⟨s.Irql, s.IRR, s.IDR, s.IrrActive⟩] ++
              (if k < 8 then
                [PortEvent.mk .write 0x20 (0x60 ||| k)
                   ⟨s.Irql, s.IRR ||| (1 <<< (k + 4)), s.IDR, s.IrrActive⟩]
               else
                [PortEvent.mk .write 0xA0 (0x60 ||| (k - 8))
                   ⟨s.Irql, s.IRR ||| (1 <<< (k + 4)), s.IDR, s.IrrActive⟩,
                 PortEvent.mk .write 0x20 0x62
                   ⟨s.Irql, s.IRR ||| (1 <<< (k + 4)), s.IDR, s.IrrActive⟩]) } := by
  have hk' : ¬ k + 4 ≥ 32 := by omega
  unfold HalBeginSystemInterrupt
  simp only [vectorIrq_base k hk, hd, callDismiss, HalpDismissIrqLevel, _HalpDismissIrqLevel,
    KiI8259MaskTable_get T hT, writePicMask_eq _ (and_ffff_lt _), if_neg hk', sendEoi_eq k hk]
  simp [hacc, Machine.pcr]

theorem HalEndSystemInterrupt_after_level (run : Invoke) (fuel k old : Nat) (s1 : Machine)
    (irr : Nat) (hk : k < 16) (hold : PROFILE_LEVEL - k > old)
    (hh : s1.SWInterruptHandlerTable[k + 4]? = some .HalpHardwareInterruptLevel)
    (hirr : irr < 8) (hs1 : s1.IRR = irr ||| (1 <<< (k + 4)))
    (hact : s1.IrrActive &&& 0xFFFFFFF0 = 0)
    (hrun : ∀ i m, m.IrrActive &&& 0xFFFFFFF0 ≠ 0 →
      run i .HalpHardwareInterruptLevel m = HalpHardwareInterruptLevel run m) :
    HalEndSystemInterrupt run (fuel + 2) old s1 =
      .ret (if irr &&& FindHigherIrqlMask.getD old 0 = 0 then none
            else SWInterruptHandlerTable2[BitScanReverse
              (irr &&& FindHigherIrqlMask.getD old 0)]?)
        { s1 with
            Irql := old, IRR := irr,
            pic1Mask := (s1.IDR &&& 0xFFFF) % 256,
            pic2Mask := (s1.IDR &&& 0xFFFF) / 256,
            trace := s1.trace ++
              [PortEvent.mk .write 0x21 ((s1.IDR &&& 0xFFFF) % 256)
                 ⟨old, s1.IRR, s1.IDR, s1.IrrActive⟩,
               PortEvent.mk .write 0xA1 ((s1.IDR &&& 0xFFFF) / 256)
                 ⟨old, s1.IRR, s1.IDR, s1.IrrActive⟩] } := by
  have hold31 : old ≤ 31 := by
    unfold PROFILE_LEVEL at hold
    omega
  have hbitk : irr.testBit (k + 4) = false := testBit_of_lt_eight irr _ hirr (by omega)
  have hhigh := FindHigherIrqlMask_linear k old hk hold
  have hguard : ¬ (s1.IrrActive &&& 0xFFFFFFF0 ≠ 0) := fun h => h hact
  have hactk : s1.IrrActive.testBit (k + 4) = false := by
    by_contra hb
    have hb' : s1.IrrActive.testBit (k + 4) = true := by simpa using hb
    exact and_bit_eq_zero_of_guard _ _ hact (by omega) (by omega)
      ((and_bit_ne_zero_iff _ _).2 hb')
  -- the first pending mask and its top bit
  have hp1bit : (s1.IRR &&& FindHigherIrqlMask.getD old 0).testBit (k + 4) = true := by
    rw [Nat.testBit_and, hs1, testBit_or_bit, hhigh]
    simp
  have hp1 : s1.IRR &&& FindHigherIrqlMask.getD old 0 ≠ 0 := by
    intro e
    rw [e, Nat.zero_testBit] at hp1bit
    exact absurd hp1bit (by decide)
  have htop1 : BitScanReverse (s1.IRR &&& FindHigherIrqlMask.getD old 0) = k + 4 := by
    apply BitScanReverse_unique _ _ (pending_lt _ _) hp1bit
    intro j hj
    have hne : ¬ (k + 4 = j) := by omega
    rw [Nat.testBit_and, hs1, testBit_or_bit, testBit_of_lt_eight irr j hirr (by omega),
      decide_eq_false hne]
    rfl
  have hgt1 : k + 4 > DISPATCH_LEVEL := by
    unfold DISPATCH_LEVEL
    omega
  have hirr2 : s1.IRR ^^^ (1 <<< (k + 4)) = irr := by
    rw [hs1]
    exact or_xor_bit irr _ hbitk
  have hact2 : (s1.IrrActive ||| (1 <<< (k + 4))) ^^^ (1 <<< (k + 4)) = s1.IrrActive :=
    or_xor_bit _ _ hactk
  unfold HalEndSystemInterrupt
  simp only [FindHigherIrqlMask_get old hold31]
  rw [if_pos hp1, if_neg hguard, HalEndSystemInterrupt.loop]
  simp only [htop1, if_pos hgt1, writePicMask_eq _ (and_ffff_lt _)]
  rw [if_neg (and_bit_eq_zero_of_guard _ _ hact (by omega) (by omega))]
  -- the call of the level replay entry returns at once
  have hcall : ∀ m : Machine, m.SWInterruptHandlerTable = s1.SWInterruptHandlerTable →
      m.Irql ≤ 31 → m.IrrActive &&& 0xFFFFFFF0 ≠ 0 → callSW run (k + 4) m = .ret () m := by
    intro m hm hI hg
    unfold callSW
    rw [hm, hh]
    simp only [hrun _ m hg]
    exact HalpHardwareInterruptLevel_guarded run m hI hg
  rw [hcall]
  · simp only [Outcome.andThen, FindHigherIrqlMask_get old hold31, hirr2, hact2]
    by_cases hp2 : irr &&& FindHigherIrqlMask.getD old 0 = 0
    · rw [if_pos hp2, if_pos hp2]
      rfl
    · rw [if_neg hp2, if_neg hp2, HalEndSystemInterrupt.loop]
      have hlt8 : irr &&& FindHigherIrqlMask.getD old 0 < 8 :=
        Nat.lt_of_le_of_lt Nat.and_le_left hirr
      have hle := BitScanReverse_le_two _ hp2 hlt8
      have hngt : ¬ BitScanReverse (irr &&& FindHigherIrqlMask.getD old 0) >
          DISPATCH_LEVEL := by
        unfold DISPATCH_LEVEL
        omega
      obtain ⟨h2nd, hsome⟩ := SWInterruptHandlerTable2_get _ hle
      simp only [if_neg hngt, hsome]
      rfl
  · rfl
  · exact hold31
  · exact or_bit_guard_ne_zero _ _ (by omega) (by omega)

theorem HalEndSystemInterrupt_after_level_calls (run : Invoke) (fuel k old : Nat)
    (s1 : Machine) (irr : Nat) (hk : k < 16) (hold : PROFILE_LEVEL - k > old)
    (hh : s1.SWInterruptHandlerTable[k + 4]? = some .HalpHardwareInterruptLevel)
    (hirr : irr < 8) (hs1 : s1.IRR = irr ||| (1 <<< (k + 4)))
    (hact : s1.IrrActive &&& 0xFFFFFFF0 = 0)
    (hrun : ∀ h m, run (k + 4) h m = .undefined) :
    HalEndSystemInterrupt run (fuel + 1) old s1 = .undefined := by
  have hold31 : old ≤ 31 := by
    unfold PROFILE_LEVEL at hold
    omega
  have hhigh := FindHigherIrqlMask_linear k old hk hold
  have hguard : ¬ (s1.IrrActive &&& 0xFFFFFFF0 ≠ 0) := fun h => h hact
  have hp1bit : (s1.IRR &&& FindHigherIrqlMask.getD old 0).testBit (k + 4) = true := by
    rw [Nat.testBit_and, hs1, testBit_or_bit, hhigh]
    simp
  have hp1 : s1.IRR &&& FindHigherIrqlMask.getD old 0 ≠ 0 := by
    intro e
    rw [e, Nat.zero_testBit] at hp1bit
    exact absurd hp1bit (by decide)
  have htop1 : BitScanReverse (s1.IRR &&& FindHigherIrqlMask.getD old 0) = k + 4 := by
    apply BitScanReverse_unique _ _ (pending_lt _ _) hp1bit
    intro j hj
    have hne : ¬ (k + 4 = j) := by omega
    rw [Nat.testBit_and, hs1, testBit_or_bit, testBit_of_lt_eight irr j hirr (by omega),
      decide_eq_false hne]
    rfl
  have hgt1 : k + 4 > DISPATCH_LEVEL := by
    unfold DISPATCH_LEVEL
    omega
  unfold HalEndSystemInterrupt
  simp only [FindHigherIrqlMask_get old hold31]
  rw [if_pos hp1, if_neg hguard, HalEndSystemInterrupt.loop]
  simp only [htop1, if_pos hgt1, writePicMask_eq _ (and_ffff_lt _)]
  rw [if_neg (and_bit_eq_zero_of_guard _ _ hact (by omega) (by omega))]
  unfold callSW
  simp only [hh, hrun, Outcome.andThen]

/-! ## Drain completeness -/

theorem TablesWellFormed_of_fixed (m m' : Machine) (h : m'.fixed = m.fixed)
    (hw : TablesWellFormed m) : TablesWellFormed m' := by
  unfold Machine.fixed at h
  simp only [Prod.mk.injEq] at h
  unfold TablesWellFormed
  rw [h.1, h.2.1]
  exact hw

theorem SlotInService_of_fixed (d : HalDismiss) (m m' : Machine) (h : m'.fixed = m.fixed)
    (hw : SlotInService d m) : SlotInService d m' := by
  unfold Machine.fixed at h
  simp only [Prod.mk.injEq] at h
  unfold SlotInService
  rw [h.2.2.1, h.2.2.2]
  exact hw

theorem InServiceDeferred_mono (s m : Machine) (hf : m.fixed = s.fixed)
    (hsub : ∀ j, m.IRR.testBit j = true → s.IRR.testBit j = true)
    (h7 : InServiceDeferred s) : InServiceDeferred m := by
  intro k d hk hb hd
  have ht : m.HalpSpecialDismissTable = s.HalpSpecialDismissTable := by
    unfold Machine.fixed at hf
    simp only [Prod.mk.injEq] at hf
    exact hf.2.1
  rw [ht] at hd
  exact SlotInService_of_fixed d s m hf (h7 k d hk (hsub _ hb) hd)

theorem testBit_sub_xor (a t j : Nat) (ht : a.testBit t = true)
    (h : (a ^^^ (1 <<< t)).testBit j = true) : a.testBit j = true := by
  rw [testBit_xor_bit] at h
  by_cases e : t = j
  · rw [← e]
    exact ht
  · simpa [e] using h

theorem testBit_sub_or (a t j : Nat) (ht : a.testBit t = true)
    (h : (a ||| (1 <<< t)).testBit j = true) : a.testBit j = true := by
  rw [testBit_or_bit] at h
  by_cases e : t = j
  · rw [← e]
    exact ht
  · simpa [e] using h

theorem testBit_sub_xor_or (a t j : Nat) (ht : a.testBit t = true)
    (h : ((a ^^^ (1 <<< t)) ||| (1 <<< t)).testBit j = true) : a.testBit j = true := by
  rw [testBit_or_bit, testBit_xor_bit] at h
  by_cases e : t = j
  · rw [← e]
    exact ht
  · simpa [e] using h

theorem testBit_sub_and (a m j : Nat) (h : (a &&& m).testBit j = true) :
    a.testBit j = true := by
  rw [Nat.testBit_and, Bool.and_eq_true] at h
  exact h.1

theorem top_pending (irr : Nat) (hp : irr &&& 0xFFFFFFFE ≠ 0) :
    irr.testBit (BitScanReverse (irr &&& 0xFFFFFFFE)) = true := by
  have hlt : irr &&& 0xFFFFFFFE < 2 ^ 32 := Nat.lt_of_le_of_lt Nat.and_le_right (by decide)
  obtain ⟨hb, _, _⟩ := BitScanReverse_spec _ hp hlt
  exact testBit_sub_and _ _ _ hb

theorem InServiceDeferred_same (s m : Machine) (hf : m.fixed = s.fixed) (hR : m.IRR = s.IRR)
    (h7 : InServiceDeferred s) : InServiceDeferred m :=
  InServiceDeferred_mono s m hf (fun j hb => by rw [hR] at hb; exact hb) h7

theorem InServiceDeferred_and (s m : Machine) (mask : Nat) (hf : m.fixed = s.fixed)
    (hR : m.IRR = s.IRR &&& mask) (h7 : InServiceDeferred s) : InServiceDeferred m :=
  InServiceDeferred_mono s m hf
    (fun j hb => by rw [hR] at hb; exact testBit_sub_and _ _ _ hb) h7

theorem InServiceDeferred_cleared (s m : Machine) (top : Nat) (hb : s.IRR.testBit top = true)
    (hf : m.fixed = s.fixed) (hR : m.IRR = s.IRR ^^^ (1 <<< top))
    (h7 : InServiceDeferred s) : InServiceDeferred m :=
  InServiceDeferred_mono s m hf
    (fun j h => by rw [hR] at h; exact testBit_sub_xor _ _ _ hb h) h7

theorem InServiceDeferred_replay (s m : Machine) (top : Nat) (hb : s.IRR.testBit top = true)
    (hf : m.fixed = s.fixed) (hR : m.IRR = s.IRR ^^^ (1 <<< top))
    (h7 : InServiceDeferred s) :
    InServiceDeferred { m with IRR := m.IRR ||| (1 <<< top) } :=
  InServiceDeferred_mono s _ hf
    (fun j h => by
      have h' : ((s.IRR ^^^ (1 <<< top)) ||| (1 <<< top)).testBit j = true := by
        rw [← hR]
        exact h
      exact testBit_sub_xor_or _ _ _ hb h') h7

theorem InServiceDeferred_pending (s m : Machine) (top : Nat) (hb : s.IRR.testBit top = true)
    (hf : m.fixed = s.fixed) (hR : m.IRR = s.IRR) (h7 : InServiceDeferred s) :
    InServiceDeferred { m with IRR := m.IRR ||| (1 <<< top) } :=
  InServiceDeferred_mono s _ hf
    (fun j h => by
      have h' : (s.IRR ||| (1 <<< top)).testBit j = true := by
        rw [← hR]
        exact h
      exact testBit_sub_or _ _ _ hb h') h7

theorem InServiceDeferred_top (s : Machine) (top : Nat) (h4 : 4 ≤ top) (h20 : top < 20)
    (h7 : InServiceDeferred { s with IRR := s.IRR ||| (1 <<< top) }) (d : HalDismiss)
    (hd : s.HalpSpecialDismissTable[top - 4]? = some d) : SlotInService d s := by
  have e4 : top - 4 + 4 = top := by omega
  have hb : (s.IRR ||| (1 <<< top)).testBit (top - 4 + 4) = true := by
    rw [e4, testBit_or_bit]
    simp
  exact h7 (top - 4) d (by omega) hb hd

theorem InServiceDeferred_rest (s : Machine) (top : Nat)
    (h7 : InServiceDeferred { s with IRR := s.IRR ||| (1 <<< top) }) : InServiceDeferred s :=
  InServiceDeferred_mono { s with IRR := s.IRR ||| (1 <<< top) } s rfl
    (fun j hb => by
      show (s.IRR ||| (1 <<< top)).testBit j = true
      rw [testBit_or_bit, hb]
      rfl) h7

theorem InServiceDeferred_of_drained (m : Machine) (h : m.IRR &&& 0xFFFFFFFE = 0) :
    InServiceDeferred m := by
  intro k d hk hb _
  have hbit : (m.IRR &&& 0xFFFFFFFE).testBit (k + 4) = true := by
    have hm : (0xFFFFFFFE : Nat).testBit (k + 4) = true := by
      interval_cases k <;> decide
    rw [Nat.testBit_and, hb, hm]
    rfl
  rw [h, Nat.zero_testBit] at hbit
  cases hbit

theorem inbyte_ctl1 (s : Machine) (h : s.pic1CtlIn.testBit 7 = true) :
    ¬ ((inbyte PIC1_CONTROL_PORT s).1.testBit 7 = false) := by
  have : (inbyte PIC1_CONTROL_PORT s).1 = s.pic1CtlIn % 256 := rfl
  rw [this, testBit_mod_256 _ _ (by decide), h]
  decide

theorem inbyte_ctl2 (s : Machine) (h : s.pic2CtlIn.testBit 7 = true) :
    ¬ ((inbyte PIC2_CONTROL_PORT s).1.testBit 7 = false) := by
  have : (inbyte PIC2_CONTROL_PORT s).1 = s.pic2CtlIn % 256 := rfl
  rw [this, testBit_mod_256 _ _ (by decide), h]
  decide

theorem dismissGeneric_accept (T k : Nat) (s : Machine) (h : T > s.Irql) :
    ∃ m1, _HalpDismissIrqGeneric T k s = .ret (true, some s.Irql) m1 ∧ m1.Irql = T ∧
      m1.IRR = s.IRR ∧ m1.IrrActive = s.IrrActive ∧ m1.fixed = s.fixed := by
  unfold _HalpDismissIrqGeneric
  dsimp only
  rw [if_pos h]
  have hs := sendEoi_same k { s with Irql := T }
  exact ⟨_, rfl, hs.1, hs.2.1, hs.2.2.1, hs.2.2.2⟩

theorem callDismiss_edge_accept (d : HalDismiss) (hd : d.edge = true) (T k : Nat) (s : Machine)
    (h : T > s.Irql) (h7 : SlotInService d s) :
    ∃ m1, callDismiss d T k s = .ret (true, some s.Irql) m1 ∧ m1.Irql = T ∧
      m1.IRR = s.IRR ∧ m1.IrrActive = s.IrrActive ∧ m1.fixed = s.fixed := by
  cases d with
  | HalpDismissIrqGeneric => exact dismissGeneric_accept T k s h
  | HalpDismissIrq07 =>
    have ho := outbyte_same PIC1_CONTROL_PORT Ocw3ReadIsr s
    have hi := inbyte_same PIC1_CONTROL_PORT (outbyte PIC1_CONTROL_PORT Ocw3ReadIsr s)
    have hb := Same_trans _ _ _ ho hi
    have h7' := SlotInService_of_fixed _ _ _ ho.2.2.2 h7
    obtain ⟨m1, e, q1, q2, q3, q4⟩ := dismissGeneric_accept T k
      (inbyte PIC1_CONTROL_PORT (outbyte PIC1_CONTROL_PORT Ocw3ReadIsr s)).2
      (by rw [hb.1]; exact h)
    refine ⟨m1, ?_, q1, q2.trans hb.2.1, q3.trans hb.2.2.1, q4.trans hb.2.2.2⟩
    unfold callDismiss HalpDismissIrq07
    dsimp only
    rw [if_neg (inbyte_ctl1 _ (h7'.1 rfl)), e, hb.1]
  | HalpDismissIrq13 =>
    have ho := outbyte_same 0xF0 0 s
    obtain ⟨m1, e, q1, q2, q3, q4⟩ := dismissGeneric_accept T k (outbyte 0xF0 0 s)
      (by rw [ho.1]; exact h)
    refine ⟨m1, ?_, q1, q2.trans ho.2.1, q3.trans ho.2.2.1, q4.trans ho.2.2.2⟩
    unfold callDismiss HalpDismissIrq13
    rw [e, ho.1]
  | HalpDismissIrq15 =>
    have ho := outbyte_same PIC2_CONTROL_PORT Ocw3ReadIsr s
    have hi := inbyte_same PIC2_CONTROL_PORT (outbyte PIC2_CONTROL_PORT Ocw3ReadIsr s)
    have hb := Same_trans _ _ _ ho hi
    have h7' := SlotInService_of_fixed _ _ _ ho.2.2.2 h7
    obtain ⟨m1, e, q1, q2, q3, q4⟩ := dismissGeneric_accept T k
      (inbyte PIC2_CONTROL_PORT (outbyte PIC2_CONTROL_PORT Ocw3ReadIsr s)).2
      (by rw [hb.1]; exact h)
    refine ⟨m1, ?_, q1, q2.trans hb.2.1, q3.trans hb.2.2.1, q4.trans hb.2.2.2⟩
    unfold callDismiss HalpDismissIrq15
    dsimp only
    rw [if_neg (inbyte_ctl2 _ (h7'.2 rfl)), e, hb.1]
  | HalpDismissIrqLevel => exact absurd hd (by decide)
  | HalpDismissIrq07Level => exact absurd hd (by decide)
  | HalpDismissIrq13Level => exact absurd hd (by decide)
  | HalpDismissIrq15Level => exact absurd hd (by decide)

theorem HalBeginSystemInterrupt_replay (k : Nat) (hk : k < 16) (s : Machine) (hI : s.Irql = 0)
    (d : HalDismiss) (hd1 : s.HalpSpecialDismissTable[k]? = some d) (hd : d.edge = true)
    (h7 : SlotInService d s) :
    ∃ m1, HalBeginSystemInterrupt (PROFILE_LEVEL - k) (PRIMARY_VECTOR_BASE + k) s =
        .ret (true, some 0) m1 ∧
      m1.IRR = s.IRR ∧ m1.IrrActive = s.IrrActive ∧ m1.fixed = s.fixed := by
  have hT : PROFILE_LEVEL - k > s.Irql := by
    unfold PROFILE_LEVEL
    omega
  obtain ⟨m1, e, _, q2, q3, q4⟩ := callDismiss_edge_accept d hd (PROFILE_LEVEL - k) k s hT h7
  refine ⟨m1, ?_, q2, q3, q4⟩
  unfold HalBeginSystemInterrupt
  simp only [vectorIrq_base k hk, hd1]
  rw [e, hI]

theorem HalEndSystemInterrupt_guarded (run : Invoke) (fuel old : Nat) (s : Machine)
    (hold : old ≤ 31) (hg : s.IrrActive &&& 0xFFFFFFF0 ≠ 0) :
    HalEndSystemInterrupt run fuel old s = .ret none { s with Irql := old } := by
  unfold HalEndSystemInterrupt
  simp only [FindHigherIrqlMask_get old hold]
  generalize FindHigherIrqlMask.getD old 0 = higher
  by_cases hp : s.IRR &&& higher ≠ 0
  · rw [if_pos hp, if_pos hg]
  · rw [if_neg hp]

theorem vectorStub_accept (K : Kernel) (hK : K.Quiescent) (run : Invoke) (run2 : Invoke2)
    (fuel k : Nat) (hk : k < 16) (s : Machine) (hI : s.Irql = 0)
    (d : HalDismiss) (hd1 : s.HalpSpecialDismissTable[k]? = some d) (hd : d.edge = true)
    (h7 : SlotInService d s) :
    ∃ m1, m1.IRR = s.IRR ∧ m1.IrrActive = s.IrrActive ∧ m1.fixed = s.fixed ∧
      vectorStub K run run2 fuel k s =
        ((HalEndSystemInterrupt run fuel 0 m1).andThen fun t m2 =>
          match t with
          | none => .ret () m2
          | some h => run2 h m2).andThen fun _ m => .ret () { m with IF := s.IF } := by
  obtain ⟨m1, e, q2, q3, q4⟩ := HalBeginSystemInterrupt_replay k hk { s with IF := false } hI
    d hd1 hd h7
  have hq := hK.2.2.1 (PRIMARY_VECTOR_BASE + k) m1
  refine ⟨{ K.ServiceRoutine (PRIMARY_VECTOR_BASE + k) m1 with IF := false },
    hq.2.1.trans q2, hq.2.2.1.trans q3, hq.2.2.2.trans q4, ?_⟩
  unfold vectorStub
  rw [e]
  rfl

theorem vectorStub_guarded (K : Kernel) (hK : K.Quiescent) (run : Invoke) (run2 : Invoke2)
    (fuel k : Nat) (hk : k < 16) (s : Machine) (hI : s.Irql = 0)
    (hg : s.IrrActive &&& 0xFFFFFFF0 ≠ 0)
    (d : HalDismiss) (hd1 : s.HalpSpecialDismissTable[k]? = some d) (hd : d.edge = true)
    (h7 : SlotInService d s) :
    ∃ m', vectorStub K run run2 fuel k s = .ret () m' ∧ Same s m' := by
  obtain ⟨m1, q2, q3, q4, e⟩ := vectorStub_accept K hK run run2 fuel k hk s hI d hd1 hd h7
  rw [e, HalEndSystemInterrupt_guarded run fuel 0 m1 (by decide) (by rw [q3]; exact hg)]
  exact ⟨_, rfl, hI.symm, q2, q3, q4⟩

theorem TablesWellFormed_slot (s : Machine) (hw : TablesWellFormed s) (k : Nat) (hk : k < 16) :
    s.SWInterruptHandlerTable[k + 4]? = some .HalpHardwareInterruptLevel ∨
    (s.SWInterruptHandlerTable[k + 4]? = some (.HalpHardwareInterrupt k) ∧
      ∃ d, s.HalpSpecialDismissTable[k]? = some d ∧ d.edge = true) := by
  rcases hw.2.2 k hk with hl | ⟨ht, hd⟩
  · exact Or.inl hl
  · refine Or.inr ⟨ht, ?_⟩
    cases hq : s.HalpSpecialDismissTable[k]? with
    | none =>
      rw [hq] at hd
      cases hd
    | some d =>
      rw [hq] at hd
      exact ⟨d, rfl, Option.some.inj hd⟩

theorem TablesWellFormed_low (s : Machine) (hw : TablesWellFormed s) (i : Nat) (hi : i < 4) :
    s.SWInterruptHandlerTable[i]? = SWInterruptHandlerTable[i]? := by
  have h := congrArg (fun l => l[i]?) hw.2.1
  simp only [List.getElem?_take, if_pos hi] at h
  exact h

theorem TablesWellFormed_high (s : Machine) (hw : TablesWellFormed s) (i : Nat) (hi : 20 ≤ i) :
    s.SWInterruptHandlerTable[i]? = none := by
  rw [List.getElem?_eq_none_iff, hw.1]
  exact hi

theorem callSW_guarded (K : Kernel) (hK : K.Quiescent) (n top : Nat) (h4 : 4 ≤ top)
    (s : Machine) (hw : TablesWellFormed s)
    (h7 : InServiceDeferred { s with IRR := s.IRR ||| (1 <<< top) }) (hI : s.Irql = 0)
    (hg : s.IrrActive &&& 0xFFFFFFF0 ≠ 0) (m' : Machine)
    (h : callSW (kernelInvoke K n) top s = .ret () m') : Same s m' := by
  unfold callSW at h
  by_cases h20 : 20 ≤ top
  · rw [TablesWellFormed_high s hw top h20] at h
    cases h
  · have hk : top - 4 < 16 := by omega
    have e4 : top - 4 + 4 = top := by omega
    have hslot := TablesWellFormed_slot s hw (top - 4) hk
    rw [e4] at hslot
    cases n with
    | zero =>
      rcases hslot with hl | ⟨ht, _⟩
      · rw [hl] at h
        cases h
      · rw [ht] at h
        cases h
    | succ n =>
      rcases hslot with hl | ⟨ht, d, hd1, hd⟩
      · rw [hl] at h
        have h' : HalpHardwareInterruptLevel (kernelInvoke K n) s = .ret () m' := h
        rw [HalpHardwareInterruptLevel_guarded _ s (by omega) hg] at h'
        cases h'
        exact Same_refl s
      · rw [ht] at h
        have h' : vectorStub K (kernelInvoke K n) (kernelInvoke2 K (kernelInvoke K n) n) n
            (top - 4) s = .ret () m' := h
        obtain ⟨m2, e, hs⟩ := vectorStub_guarded K hK _ _ n (top - 4) hk s hI hg d hd1 hd
          (InServiceDeferred_top s top h4 (by omega) h7 d hd1)
        rw [e] at h'
        cases h'
        exact hs

theorem FindHigherIrqlMask_zero : FindHigherIrqlMask[0]? = some 0xFFFFFFFE := rfl

theorem callSW_unexpected (K : Kernel) (hK : K.Quiescent) (n i : Nat) (s m' : Machine)
    (hs : s.SWInterruptHandlerTable[i]? = some .KiUnexpectedInterrupt) :
    callSW (kernelInvoke K n) i s ≠ .ret () m' := by
  unfold callSW
  rw [hs]
  cases n with
  | zero =>
    intro h
    cases h
  | succ n => exact hK.2.2.2 s m'

theorem callSW_top_ge_four (K : Kernel) (hK : K.Quiescent) (n top : Nat) (s m1 : Machine)
    (hw : TablesWellFormed s) (hgt : top > DISPATCH_LEVEL)
    (h : callSW (kernelInvoke K n) top s = .ret () m1) : 4 ≤ top ∧ top < 20 := by
  refine ⟨?_, ?_⟩
  · by_contra h4
    have e3 : top = 3 := by
      unfold DISPATCH_LEVEL at hgt
      omega
    subst e3
    exact callSW_unexpected K hK n 3 s m1 (TablesWellFormed_low s hw 3 (by decide)) h
  · by_contra h20
    unfold callSW at h
    rw [TablesWellFormed_high s hw top (by omega)] at h
    cases h

theorem zero_or_xor_bit (t : Nat) : ((0 : Nat) ||| (1 <<< t)) ^^^ (1 <<< t) = 0 := by
  rw [Nat.zero_or, Nat.xor_self]

theorem HalpEndSoftwareInterrupt2_loop_drains (K : Kernel) (hK : K.Quiescent) (n : Nat) :
    ∀ (fuel : Nat) (s : Machine) (t : Option SwHandler2) (m' : Machine),
      TablesWellFormed s → InServiceDeferred s → s.Irql = 0 → s.IrrActive = 0 →
      HalpEndSoftwareInterrupt2.loop (kernelInvoke K n) 0 fuel s = .ret t m' →
      m'.Irql = 0 ∧ m'.IrrActive = 0 ∧ m'.fixed = s.fixed ∧
        (t = none → m'.IRR &&& 0xFFFFFFFE = 0) ∧ InServiceDeferred m' := by
  intro fuel
  induction fuel with
  | zero =>
    intro s t m' _ _ _ _ h
    cases h
  | succ fuel ih =>
    intro s t m' hw h7 hI hact h
    rw [HalpEndSoftwareInterrupt2.loop] at h
    simp only [FindHigherIrqlMask_zero] at h
    by_cases hp : s.IRR &&& 0xFFFFFFFE = 0
    · rw [if_pos hp] at h
      cases h
      exact ⟨hI, hact, rfl, fun _ => hp, h7⟩
    · rw [if_neg hp, hact, if_neg (by decide)] at h
      have hbt := top_pending s.IRR hp
      by_cases hgt : BitScanReverse (s.IRR &&& 0xFFFFFFFE) > DISPATCH_LEVEL
      · rw [if_pos hgt] at h
        obtain ⟨a, m1, h1, h2⟩ := Outcome_andThen_eq_ret _ _ _ _ h
        have hsame := writePicMask_same (s.IDR &&& 0xFFFF) s
        have hw2 : TablesWellFormed
            { writePicMask (s.IDR &&& 0xFFFF) s with
                IrrActive := (writePicMask (s.IDR &&& 0xFFFF) s).IrrActive |||
                  (1 <<< BitScanReverse (s.IRR &&& 0xFFFFFFFE)),
                IRR := (writePicMask (s.IDR &&& 0xFFFF) s).IRR ^^^
                  (1 <<< BitScanReverse (s.IRR &&& 0xFFFFFFFE)) } :=
          TablesWellFormed_of_fixed s _ hsame.2.2.2 hw
        have htop := callSW_top_ge_four K hK n _ _ m1 hw2 hgt h1
        have hs := callSW_guarded K hK n _ htop.1 _ hw2
          (InServiceDeferred_replay s _ _ hbt hsame.2.2.2
            (congrArg (fun x => x ^^^ (1 <<< BitScanReverse (s.IRR &&& 0xFFFFFFFE)))
              hsame.2.1) h7)
          (hsame.1.trans hI)
          (or_bit_guard_ne_zero _ _ htop.1 (by omega)) m1 h1
        have hA : m1.IrrActive ^^^ (1 <<< BitScanReverse (s.IRR &&& 0xFFFFFFFE)) = 0 := by
          rw [hs.2.2.1]
          show ((writePicMask (s.IDR &&& 0xFFFF) s).IrrActive ||| _) ^^^ _ = 0
          rw [hsame.2.2.1, hact]
          exact zero_or_xor_bit _
        have hf : m1.fixed = s.fixed := hs.2.2.2.trans hsame.2.2.2
        have hR : m1.IRR = s.IRR ^^^ (1 <<< BitScanReverse (s.IRR &&& 0xFFFFFFFE)) :=
          hs.2.1.trans
            (congrArg (fun x => x ^^^ (1 <<< BitScanReverse (s.IRR &&& 0xFFFFFFFE)))
              hsame.2.1)
        have hr := ih { m1 with
            IrrActive := m1.IrrActive ^^^ (1 <<< BitScanReverse (s.IRR &&& 0xFFFFFFFE)) }
          t m' (TablesWellFormed_of_fixed s _ hf hw)
          (InServiceDeferred_cleared s _ _ hbt hf hR h7)
          (hs.1.trans (hsame.1.trans hI)) hA h2
        exact ⟨hr.1, hr.2.1, hr.2.2.1.trans hf, hr.2.2.2⟩
      · rw [if_neg hgt] at h
        split at h
        · cases h
        · cases h
          exact ⟨hI, hact, rfl, (fun e => by cases e), h7⟩

theorem HalEndSystemInterrupt_loop_drains (K : Kernel) (hK : K.Quiescent) (n : Nat) :
    ∀ (fuel : Nat) (s : Machine) (t : Option SwHandler2) (m' : Machine),
      TablesWellFormed s → InServiceDeferred s → s.Irql = 0 → s.IrrActive = 0 →
      HalEndSystemInterrupt.loop (kernelInvoke K n) fuel (s.IRR &&& 0xFFFFFFFE) s = .ret t m' →
      m'.Irql = 0 ∧ m'.IrrActive = 0 ∧ m'.fixed = s.fixed ∧
        (t = none → m'.IRR &&& 0xFFFFFFFE = 0) ∧ InServiceDeferred m' := by
  intro fuel
  induction fuel with
  | zero =>
    intro s t m' _ _ _ _ h
    cases h
  | succ fuel ih =>
    intro s t m' hw h7 hI hact h
    rw [HalEndSystemInterrupt.loop] at h
    by_cases hgt : BitScanReverse (s.IRR &&& 0xFFFFFFFE) > DISPATCH_LEVEL
    · have hp0 : s.IRR &&& 0xFFFFFFFE ≠ 0 := by
        intro e
        rw [e] at hgt
        exact absurd hgt (by decide)
      have hbt := top_pending s.IRR hp0
      simp only [if_pos hgt] at h
      have hsame := writePicMask_same (s.IDR &&& 0xFFFF) s
      generalize writePicMask (s.IDR &&& 0xFFFF) s = s1 at h hsame
      rw [hsame.2.2.1, hact, Nat.zero_and, if_neg (by decide)] at h
      obtain ⟨a, m1, h1, h2⟩ := Outcome_andThen_eq_ret _ _ _ _ h
      have hw2 : TablesWellFormed
          { s1 with
              IrrActive := 0 ||| (1 <<< BitScanReverse (s.IRR &&& 0xFFFFFFFE)),
              IRR := s1.IRR ^^^ (1 <<< BitScanReverse (s.IRR &&& 0xFFFFFFFE)) } :=
        TablesWellFormed_of_fixed s _ hsame.2.2.2 hw
      have htop := callSW_top_ge_four K hK n _ _ m1 hw2 hgt h1
      have hs := callSW_guarded K hK n _ htop.1 _ hw2
        (InServiceDeferred_replay s _ _ hbt hsame.2.2.2
          (congrArg (fun x => x ^^^ (1 <<< BitScanReverse (s.IRR &&& 0xFFFFFFFE)))
            hsame.2.1) h7)
        (hsame.1.trans hI)
        (or_bit_guard_ne_zero _ _ htop.1 (by omega)) m1 h1
      have hA : m1.IrrActive ^^^ (1 <<< BitScanReverse (s.IRR &&& 0xFFFFFFFE)) = 0 := by
        rw [hs.2.2.1]
        exact zero_or_xor_bit _
      have hf : m1.fixed = s.fixed := hs.2.2.2.trans hsame.2.2.2
      have hI1 : m1.Irql = 0 := hs.1.trans (hsame.1.trans hI)
      have hR : m1.IRR = s.IRR ^^^ (1 <<< BitScanReverse (s.IRR &&& 0xFFFFFFFE)) :=
        hs.2.1.trans
          (congrArg (fun x => x ^^^ (1 <<< BitScanReverse (s.IRR &&& 0xFFFFFFFE)))
            hsame.2.1)
      have h7m : InServiceDeferred { m1 with
          Irql := 0,
          IrrActive := m1.IrrActive ^^^ (1 <<< BitScanReverse (s.IRR &&& 0xFFFFFFFE)) } :=
        InServiceDeferred_cleared s _ _ hbt hf hR h7
      rw [hI1] at h2
      simp only [FindHigherIrqlMask_zero] at h2
      by_cases hp : m1.IRR &&& 0xFFFFFFFE = 0
      · rw [if_pos hp] at h2
        cases h2
        exact ⟨rfl, hA, hf, fun _ => hp, h7m⟩
      · rw [if_neg hp] at h2
        have hr := ih { m1 with
            Irql := 0,
            IrrActive := m1.IrrActive ^^^ (1 <<< BitScanReverse (s.IRR &&& 0xFFFFFFFE)) }
          t m' (TablesWellFormed_of_fixed s _ hf hw) h7m
          rfl hA h2
        exact ⟨hr.1, hr.2.1, hr.2.2.1.trans hf, hr.2.2.2⟩
    · simp only [if_neg hgt] at h
      split at h
      · cases h
      · cases h
        exact ⟨hI, hact, rfl, (fun e => by cases e), h7⟩

theorem HalEndSystemInterrupt_drains (K : Kernel) (hK : K.Quiescent) (n fuel : Nat)
    (s : Machine) (t : Option SwHandler2) (m' : Machine) (hw : TablesWellFormed s)
    (h7 : InServiceDeferred s) (hact : s.IrrActive = 0)
    (h : HalEndSystemInterrupt (kernelInvoke K n) fuel 0 s = .ret t m') :
    m'.Irql = 0 ∧ m'.IrrActive = 0 ∧ m'.fixed = s.fixed ∧
      (t = none → m'.IRR &&& 0xFFFFFFFE = 0) ∧ InServiceDeferred m' := by
  unfold HalEndSystemInterrupt at h
  simp only [FindHigherIrqlMask_zero] at h
  by_cases hp : s.IRR &&& 0xFFFFFFFE ≠ 0
  · have hng : ¬ (s.IrrActive &&& 0xFFFFFFF0 ≠ 0) := by
      rw [hact]
      decide
    rw [if_pos hp, if_neg hng] at h
    exact HalEndSystemInterrupt_loop_drains K hK n fuel { s with Irql := 0 } t m'
      (TablesWellFormed_of_fixed s _ rfl hw) (InServiceDeferred_same s _ rfl rfl h7) rfl hact h
  · rw [if_neg hp] at h
    cases h
    exact ⟨rfl, hact, rfl, fun _ => not_not.mp hp, InServiceDeferred_same s _ rfl rfl h7⟩

theorem HalpEndSoftwareInterrupt_drains (K : Kernel) (hK : K.Quiescent) (n : Nat)
    (run2 : Invoke2)
    (h2 : ∀ h s m', TablesWellFormed s → InServiceDeferred s → s.Irql = 0 →
      s.IrrActive = 0 → run2 h s = .ret () m' → Drained s m')
    (fuel : Nat) (s m' : Machine) (hw : TablesWellFormed s) (h7 : InServiceDeferred s)
    (hact : s.IrrActive = 0)
    (h : HalpEndSoftwareInterrupt (kernelInvoke K n) run2 fuel 0 s = .ret () m') :
    Drained s m' := by
  unfold HalpEndSoftwareInterrupt HalpEndSoftwareInterrupt2 at h
  obtain ⟨t, m1, h1, h3⟩ := Outcome_andThen_eq_ret _ _ _ _ h
  have hl := HalpEndSoftwareInterrupt2_loop_drains K hK n fuel { s with Irql := 0 } t m1
    (TablesWellFormed_of_fixed s _ rfl hw) (InServiceDeferred_same s _ rfl rfl h7) rfl hact h1
  have hf : m1.fixed = s.fixed := hl.2.2.1
  cases t with
  | none =>
    cases h3
    exact ⟨hl.1, hl.2.2.2.1 rfl, hl.2.1.trans hact.symm, hf⟩
  | some hd =>
    have hd' := h2 hd m1 m' (TablesWellFormed_of_fixed s _ hf hw)
      hl.2.2.2.2 hl.1 hl.2.1 h3
    exact ⟨hd'.1, hd'.2.1, hd'.2.2.1.trans (hl.2.1.trans hact.symm), hd'.2.2.2.trans hf⟩

theorem kernelInvoke2_drains (K : Kernel) (hK : K.Quiescent) (n : Nat) :
    ∀ (j : Nat) (h : SwHandler2) (s m' : Machine),
      TablesWellFormed s → InServiceDeferred s → s.Irql = 0 → s.IrrActive = 0 →
      kernelInvoke2 K (kernelInvoke K n) j h s = .ret () m' → Drained s m' := by
  intro j
  induction j with
  | zero =>
    intro h s m' _ _ _ _ e
    cases e
  | succ j ih =>
    intro h s m' hw h7 hI hact e
    cases h with
    | KiUnexpectedInterrupt => exact absurd e (hK.2.2.2 s m')
    | HalpApcInterrupt2ndEntry =>
      have e' : HalpEndSoftwareInterrupt (kernelInvoke K n)
          (kernelInvoke2 K (kernelInvoke K n) j) j s.Irql
          { K.KiDeliverApc
              { s with Irql := APC_LEVEL,
                       IRR := s.IRR &&& (0xFFFFFFFF ^^^ (1 <<< APC_LEVEL)), IF := true } with
            IF := false } = .ret () m' := e
      rw [hI] at e'
      have hq := hK.1
        { s with Irql := APC_LEVEL,
                 IRR := s.IRR &&& (0xFFFFFFFF ^^^ (1 <<< APC_LEVEL)), IF := true }
      have hf : ({ K.KiDeliverApc
              { s with Irql := APC_LEVEL,
                       IRR := s.IRR &&& (0xFFFFFFFF ^^^ (1 <<< APC_LEVEL)),
                       IF := true } with
            IF := false } : Machine).fixed = s.fixed := hq.2.2.2
      have ha : ({ K.KiDeliverApc
              { s with Irql := APC_LEVEL,
                       IRR := s.IRR &&& (0xFFFFFFFF ^^^ (1 <<< APC_LEVEL)),
                       IF := true } with
            IF := false } : Machine).IrrActive = 0 := hq.2.2.1.trans hact
      have hd := HalpEndSoftwareInterrupt_drains K hK n _ ih j _ m'
        (TablesWellFormed_of_fixed s _ hf hw) (InServiceDeferred_and s _ _ hf hq.2.1 h7) ha e'
      exact ⟨hd.1, hd.2.1, hd.2.2.1.trans (ha.trans hact.symm), hd.2.2.2.trans hf⟩
    | HalpDispatchInterrupt2ndEntry =>
      have e' : HalpEndSoftwareInterrupt (kernelInvoke K n)
          (kernelInvoke2 K (kernelInvoke K n) j) j s.Irql
          { K.KiDispatchInterrupt
              { s with Irql := DISPATCH_LEVEL,
                       IRR := s.IRR &&& (0xFFFFFFFF ^^^ (1 <<< DISPATCH_LEVEL)),
                       IF := true } with
            IF := false } = .ret () m' := e
      rw [hI] at e'
      have hq := hK.2.1
        { s with Irql := DISPATCH_LEVEL,
                 IRR := s.IRR &&& (0xFFFFFFFF ^^^ (1 <<< DISPATCH_LEVEL)), IF := true }
      have hf : ({ K.KiDispatchInterrupt
              { s with Irql := DISPATCH_LEVEL,
                       IRR := s.IRR &&& (0xFFFFFFFF ^^^ (1 <<< DISPATCH_LEVEL)),
                       IF := true } with
            IF := false } : Machine).fixed = s.fixed := hq.2.2.2
      have ha : ({ K.KiDispatchInterrupt
              { s with Irql := DISPATCH_LEVEL,
                       IRR := s.IRR &&& (0xFFFFFFFF ^^^ (1 <<< DISPATCH_LEVEL)),
                       IF := true } with
            IF := false } : Machine).IrrActive = 0 := hq.2.2.1.trans hact
      have hd := HalpEndSoftwareInterrupt_drains K hK n _ ih j _ m'
        (TablesWellFormed_of_fixed s _ hf hw) (InServiceDeferred_and s _ _ hf hq.2.1 h7) ha e'
      exact ⟨hd.1, hd.2.1, hd.2.2.1.trans (ha.trans hact.symm), hd.2.2.2.trans hf⟩

theorem vectorStub_drains (K : Kernel) (hK : K.Quiescent) (n fuel j k : Nat) (hk : k < 16)
    (s m' : Machine) (hw : TablesWellFormed s) (h7 : InServiceDeferred s) (hI : s.Irql = 0)
    (hact : s.IrrActive = 0)
    (d : HalDismiss) (hd1 : s.HalpSpecialDismissTable[k]? = some d) (hd : d.edge = true)
    (h7d : SlotInService d s)
    (h : vectorStub K (kernelInvoke K n) (kernelInvoke2 K (kernelInvoke K n) j) fuel k s =
      .ret () m') : Drained s m' := by
  obtain ⟨m1, q2, q3, q4, e⟩ := vectorStub_accept K hK (kernelInvoke K n)
    (kernelInvoke2 K (kernelInvoke K n) j) fuel k hk s hI d hd1 hd h7d
  rw [e] at h
  obtain ⟨_, m3, h3, h4⟩ := Outcome_andThen_eq_ret _ _ _ _ h
  cases h4
  obtain ⟨t, m2, h1, h2⟩ := Outcome_andThen_eq_ret _ _ _ _ h3
  have hl := HalEndSystemInterrupt_drains K hK n fuel m1 t m2
    (TablesWellFormed_of_fixed s _ q4 hw) (InServiceDeferred_same s _ q4 q2 h7)
    (q3.trans hact) h1
  have hf : m2.fixed = s.fixed := hl.2.2.1.trans q4
  cases t with
  | none =>
    cases h2
    exact ⟨hl.1, hl.2.2.2.1 rfl, hl.2.1.trans hact.symm, hf⟩
  | some hd2 =>
    have hd' := kernelInvoke2_drains K hK n j hd2 m2 m3 (TablesWellFormed_of_fixed s _ hf hw)
      hl.2.2.2.2 hl.1 hl.2.1 h2
    exact ⟨hd'.1, hd'.2.1, hd'.2.2.1.trans (hl.2.1.trans hact.symm), hd'.2.2.2.trans hf⟩

theorem callSW_drains (K : Kernel) (hK : K.Quiescent) :
    ∀ (n top : Nat) (s m' : Machine),
      TablesWellFormed s → InServiceDeferred { s with IRR := s.IRR ||| (1 <<< top) } →
      s.Irql = 0 → s.IrrActive = 0 →
      callSW (kernelInvoke K n) top s = .ret () m' → Drained s m' := by
  intro n
  induction n with
  | zero =>
    intro top s m' _ _ _ _ h
    unfold callSW at h
    split at h
    · cases h
    · cases h
  | succ n ih =>
    intro top s m' hw h7 hI hact h
    have hng : ¬ (s.IrrActive &&& 0xFFFFFFF0 ≠ 0) := by
      rw [hact]
      decide
    unfold callSW at h
    by_cases h20 : 20 ≤ top
    · rw [TablesWellFormed_high s hw top h20] at h
      cases h
    · by_cases h4 : 4 ≤ top
      · have hk : top - 4 < 16 := by omega
        have e4 : top - 4 + 4 = top := by omega
        have hslot := TablesWellFormed_slot s hw (top - 4) hk
        rw [e4] at hslot
        rcases hslot with hl | ⟨ht, d, hd1, hd⟩
        · rw [hl] at h
          have h' : HalpHardwareInterruptLevel (kernelInvoke K n) s = .ret () m' := h
          unfold HalpHardwareInterruptLevel at h'
          rw [hI] at h'
          simp only [FindHigherIrqlMask_zero] at h'
          by_cases hp : s.IRR &&& 0xFFFFFFFE ≠ 0
          · rw [if_pos hp, if_neg hng] at h'
            have hd := (fun a b c d => ih _ _ m' a b c d h')
              (TablesWellFormed_of_fixed s _ rfl hw)
              (InServiceDeferred_replay s _ _ (top_pending s.IRR hp) rfl rfl
                (InServiceDeferred_rest s top h7))
              rfl hact
            exact ⟨hd.1, hd.2.1, hd.2.2.1, hd.2.2.2⟩
          · rw [if_neg hp] at h'
            cases h'
            exact ⟨hI, not_not.mp hp, rfl, rfl⟩
        · rw [ht] at h
          exact vectorStub_drains K hK n n n (top - 4) hk s m' hw
            (InServiceDeferred_rest s top h7) hI hact d hd1 hd
            (InServiceDeferred_top s top h4 (by omega) h7 d hd1) h
      · have hlow := TablesWellFormed_low s hw top (by omega)
        rw [hlow] at h
        have htop : top = 0 ∨ top = 1 ∨ top = 2 ∨ top = 3 := by omega
        rcases htop with e | e | e | e
        · subst e
          exact absurd h (hK.2.2.2 s m')
        · subst e
          have h' : (_HalpApcInterruptHandler K (kernelInvoke K n)
              (kernelInvoke2 K (kernelInvoke K n) n) n s).andThen
                (fun _ m => Outcome.ret () { m with IF := s.IF }) = .ret () m' := h
          obtain ⟨_, m1, h1, h2⟩ := Outcome_andThen_eq_ret _ _ _ _ h'
          cases h2
          have hd := kernelInvoke2_drains K hK n (n + 1) .HalpApcInterrupt2ndEntry s m1 hw
            (InServiceDeferred_rest s 1 h7) hI hact h1
          exact ⟨hd.1, hd.2.1, hd.2.2.1, hd.2.2.2⟩
        · subst e
          have h' : HalpDispatchInterrupt2 K (kernelInvoke K n) s = .ret () m' := h
          have hq := hK.2.1
            { s with Irql := DISPATCH_LEVEL,
                     IRR := s.IRR &&& (0xFFFFFFFF ^^^ (1 <<< DISPATCH_LEVEL)), IF := true }
          unfold HalpDispatchInterrupt2 _HalpDispatchInterruptHandler at h'
          dsimp only at h'
          generalize K.KiDispatchInterrupt
            { s with Irql := DISPATCH_LEVEL,
                     IRR := s.IRR &&& (0xFFFFFFFF ^^^ (1 <<< DISPATCH_LEVEL)), IF := true } = r
            at h' hq
          have hf : r.fixed = s.fixed := hq.2.2.2
          have ha : r.IrrActive = 0 := hq.2.2.1.trans hact
          have h7r : InServiceDeferred r :=
            InServiceDeferred_and s r _ hf hq.2.1 (InServiceDeferred_rest s 2 h7)
          rw [hI] at h'
          simp only [FindHigherIrqlMask_zero] at h'
          by_cases hp : r.IRR &&& 0xFFFFFFFE ≠ 0
          · rw [if_pos hp] at h'
            have hbt := top_pending r.IRR hp
            by_cases hgt : BitScanReverse (r.IRR &&& 0xFFFFFFFE) > DISPATCH_LEVEL
            · rw [if_pos hgt] at h'
              have hsame := writePicMask_same (r.IDR &&& 0xFFFF)
                { r with IF := false, Irql := 0 }
              have hf2 := hsame.2.2.2.trans hf
              have hd := (fun a b c d => ih _ _ m' a b c d h')
                (TablesWellFormed_of_fixed s _ hf2 hw)
                (InServiceDeferred_replay r _ _ hbt hsame.2.2.2
                  (congrArg (fun x => x ^^^ (1 <<< BitScanReverse (r.IRR &&& 0xFFFFFFFE)))
                    hsame.2.1) h7r)
                hsame.1 (hsame.2.2.1.trans ha)
              exact ⟨hd.1, hd.2.1, hd.2.2.1.trans ((hsame.2.2.1.trans ha).trans hact.symm),
                hd.2.2.2.trans hf2⟩
            · rw [if_neg hgt] at h'
              have hd := (fun a b c d => ih _ _ m' a b c d h')
                (TablesWellFormed_of_fixed s _ hf hw)
                (InServiceDeferred_pending r _ _ hbt rfl rfl h7r)
                rfl ha
              exact ⟨hd.1, hd.2.1, hd.2.2.1.trans (ha.trans hact.symm), hd.2.2.2.trans hf⟩
          · rw [if_neg hp] at h'
            cases h'
            exact ⟨rfl, not_not.mp hp, ha.trans hact.symm, hf⟩
        · subst e
          exact absurd h (hK.2.2.2 s m')

theorem quietKernel_Quiescent : quietKernel.Quiescent :=
  ⟨fun m => Same_refl m, fun m => Same_refl m, fun _ m => Same_refl m,
   fun _ _ h => by cases h⟩

theorem KfLowerIrql_drains (K : Kernel) (hK : K.Quiescent) (n : Nat) (dbg : Bool)
    (s s' : Machine) (hw : TablesWellFormed s) (h7 : InServiceDeferred s)
    (hact : s.IrrActive = 0)
    (h : KfLowerIrql (kernelInvoke K n) dbg 0 s = .ret () s') :
    s'.IRR &&& FindHigherIrqlMask.getD 0 0 = 0 := by
  have e0 : FindHigherIrqlMask.getD 0 0 = 0xFFFFFFFE := rfl
  rw [KfLowerIrql_eq _ dbg 0 s (fun _ => Nat.zero_le _) (by decide), e0] at h
  rw [e0]
  by_cases hp : s.IRR &&& 0xFFFFFFFE = 0
  · rw [if_pos hp] at h
    cases h
    exact hp
  · rw [if_neg hp] at h
    obtain ⟨_, m1, h1, h2⟩ := Outcome_andThen_eq_ret _ _ _ _ h
    cases h2
    have hbt := top_pending s.IRR hp
    by_cases hgt : BitScanReverse (s.IRR &&& 0xFFFFFFFE) > DISPATCH_LEVEL
    · rw [if_pos hgt] at h1
      have hd := (fun a b c d => callSW_drains K hK n _ _ m1 a b c d h1)
        (TablesWellFormed_of_fixed s _ rfl hw)
        (InServiceDeferred_replay s _ _ hbt rfl rfl h7) rfl hact
      exact hd.2.1
    · rw [if_neg hgt] at h1
      have hd := (fun a b c d => callSW_drains K hK n _ _ m1 a b c d h1)
        (TablesWellFormed_of_fixed s _ rfl hw)
        (InServiceDeferred_pending s _ _ hbt rfl rfl h7) rfl hact
      exact hd.2.1

/-! ## Drain completeness: the call returns -/

theorem xor_bit_lt (a t : Nat) (h : a.testBit t = true) : a ^^^ (1 <<< t) < a := by
  apply Nat.lt_of_testBit t
  · rw [testBit_xor_bit, h]
    simp
  · exact h
  · intro j hj
    rw [testBit_xor_bit]
    have : decide (t = j) = false := by
      simp
      omega
    rw [this]
    simp

theorem and_clear_lt (a t : Nat) (ht : t < 32) (h : a.testBit t = true) :
    a &&& (0xFFFFFFFF ^^^ (1 <<< t)) < a := by
  apply Nat.lt_of_le_of_ne Nat.and_le_left
  intro e
  have h1 := congrArg (fun x => x.testBit t) e
  simp only [Nat.testBit_and, testBit_clear_mask t t ht, h] at h1
  simp at h1

theorem valid_xor (a t : Nat) (hv : a < 2 ^ 20) (h3 : a.testBit 3 = false)
    (ht : a.testBit t = true) (t3 : t ≠ 3) :
    a ^^^ (1 <<< t) < 2 ^ 20 ∧ (a ^^^ (1 <<< t)).testBit 3 = false := by
  refine ⟨Nat.lt_trans (xor_bit_lt a t ht) hv, ?_⟩
  rw [testBit_xor_bit, h3]
  simp [t3]

theorem valid_and (a m : Nat) (hv : a < 2 ^ 20) (h3 : a.testBit 3 = false) :
    a &&& m < 2 ^ 20 ∧ (a &&& m).testBit 3 = false := by
  refine ⟨Nat.lt_of_le_of_lt Nat.and_le_left hv, ?_⟩
  rw [Nat.testBit_and, h3]
  rfl

theorem top_valid (irr : Nat) (hv : irr < 2 ^ 20) (h3 : irr.testBit 3 = false)
    (hp : irr &&& 0xFFFFFFFE ≠ 0) :
    irr.testBit (BitScanReverse (irr &&& 0xFFFFFFFE)) = true ∧
    1 ≤ BitScanReverse (irr &&& 0xFFFFFFFE) ∧ BitScanReverse (irr &&& 0xFFFFFFFE) < 20 ∧
    BitScanReverse (irr &&& 0xFFFFFFFE) ≠ 3 := by
  have hlt : irr &&& 0xFFFFFFFE < 2 ^ 32 := Nat.lt_of_le_of_lt Nat.and_le_right (by decide)
  obtain ⟨hb, _, _⟩ := BitScanReverse_spec _ hp hlt
  generalize BitScanReverse (irr &&& 0xFFFFFFFE) = top at hb
  rw [Nat.testBit_and, Bool.and_eq_true] at hb
  refine ⟨hb.1, ?_, ?_, ?_⟩
  · by_contra h0
    have e : top = 0 := by omega
    rw [e] at hb
    exact absurd hb.2 (by decide)
  · by_contra h20
    have h2 : 2 ^ 20 ≤ 2 ^ top := Nat.pow_le_pow_right (by decide) (by omega)
    have := Nat.testBit_lt_two_pow (Nat.lt_of_lt_of_le hv h2)
    rw [this] at hb
    exact absurd hb.1 (by decide)
  · intro e
    rw [e, h3] at hb
    exact absurd hb.1 (by decide)

theorem callSW_guarded_ret (K : Kernel) (hK : K.Quiescent) (n top : Nat) (h4 : 4 ≤ top)
    (h20 : top < 20) (s : Machine) (hw : TablesWellFormed s)
    (h7 : InServiceDeferred { s with IRR := s.IRR ||| (1 <<< top) })
    (hI : s.Irql = 0) (hg : s.IrrActive &&& 0xFFFFFFF0 ≠ 0) :
    ∃ m', callSW (kernelInvoke K (n + 1)) top s = .ret () m' ∧ Same s m' := by
  have hk : top - 4 < 16 := by omega
  have e4 : top - 4 + 4 = top := by omega
  have hslot := TablesWellFormed_slot s hw (top - 4) hk
  rw [e4] at hslot
  unfold callSW
  rcases hslot with hl | ⟨ht, d, hd1, hd⟩
  · rw [hl]
    exact ⟨s, HalpHardwareInterruptLevel_guarded _ s (by omega) hg, Same_refl s⟩
  · rw [ht]
    exact vectorStub_guarded K hK _ _ n (top - 4) hk s hI hg d hd1 hd
      (InServiceDeferred_top s top h4 h20 h7 d hd1)

theorem SWInterruptHandlerTable2_tail (irr top : Nat) (hb : irr.testBit top = true)
    (h1 : 1 ≤ top) (h2 : ¬ top > DISPATCH_LEVEL) (m : Machine) (hm : m.IRR = irr) :
    ∃ h, SWInterruptHandlerTable2[top]? = some h ∧ TailPending (some h) m := by
  have e : top = 1 ∨ top = 2 := by
    unfold DISPATCH_LEVEL at h2
    omega
  rcases e with e | e
  · subst e
    exact ⟨.HalpApcInterrupt2ndEntry, rfl, Or.inl ⟨rfl, by rw [hm]; exact hb⟩⟩
  · subst e
    exact ⟨.HalpDispatchInterrupt2ndEntry, rfl, Or.inr ⟨rfl, by rw [hm]; exact hb⟩⟩

theorem HalpEndSoftwareInterrupt2_loop_ret (K : Kernel) (hK : K.Quiescent) (n : Nat) :
    ∀ (fuel : Nat) (s : Machine),
      TablesWellFormed s → InServiceDeferred s → s.Irql = 0 → s.IrrActive = 0 →
      PendingValid s → s.IRR < fuel →
      ∃ t m', HalpEndSoftwareInterrupt2.loop (kernelInvoke K (n + 1)) 0 fuel s = .ret t m' ∧
        m'.IRR ≤ s.IRR ∧ PendingValid m' ∧ TailPending t m' := by
  intro fuel
  induction fuel with
  | zero =>
    intro s _ _ _ _ _ hf
    omega
  | succ fuel ih =>
    intro s hw h7 hI hact hv hf
    rw [HalpEndSoftwareInterrupt2.loop]
    simp only [FindHigherIrqlMask_zero]
    by_cases hp : s.IRR &&& 0xFFFFFFFE = 0
    · rw [if_pos hp]
      exact ⟨none, s, rfl, Nat.le_refl _, hv, trivial⟩
    · have hng : ¬ (s.IrrActive &&& 0xFFFFFFF0 ≠ 0) := by
        rw [hact]
        decide
      rw [if_neg hp, if_neg hng]
      obtain ⟨hb, h1, h20, h3⟩ := top_valid s.IRR hv.1 hv.2 hp
      by_cases hgt : BitScanReverse (s.IRR &&& 0xFFFFFFFE) > DISPATCH_LEVEL
      · rw [if_pos hgt]
        have h4 : 4 ≤ BitScanReverse (s.IRR &&& 0xFFFFFFFE) := by
          unfold DISPATCH_LEVEL at hgt
          omega
        have hsame := writePicMask_same (s.IDR &&& 0xFFFF) s
        generalize writePicMask (s.IDR &&& 0xFFFF) s = s1 at hsame
        obtain ⟨m1, e1, hs⟩ := callSW_guarded_ret K hK n _ h4 h20
          { s1 with
              IrrActive := s1.IrrActive ||| (1 <<< BitScanReverse (s.IRR &&& 0xFFFFFFFE)),
              IRR := s1.IRR ^^^ (1 <<< BitScanReverse (s.IRR &&& 0xFFFFFFFE)) }
          (TablesWellFormed_of_fixed s _ hsame.2.2.2 hw)
          (InServiceDeferred_replay s _ _ hb hsame.2.2.2
            (congrArg (fun x => x ^^^ (1 <<< BitScanReverse (s.IRR &&& 0xFFFFFFFE)))
              hsame.2.1) h7)
          (hsame.1.trans hI)
          (or_bit_guard_ne_zero _ _ h4 (by omega))
        rw [e1]
        have hA : m1.IrrActive ^^^ (1 <<< BitScanReverse (s.IRR &&& 0xFFFFFFFE)) = 0 := by
          rw [hs.2.2.1]
          show (s1.IrrActive ||| _) ^^^ _ = 0
          rw [hsame.2.2.1, hact]
          exact zero_or_xor_bit _
        have hf1 : m1.fixed = s.fixed := hs.2.2.2.trans hsame.2.2.2
        have hR : m1.IRR = s.IRR ^^^ (1 <<< BitScanReverse (s.IRR &&& 0xFFFFFFFE)) := by
          rw [hs.2.1]
          show s1.IRR ^^^ _ = _
          rw [hsame.2.1]
        have hlt := xor_bit_lt s.IRR _ hb
        have hv1 := valid_xor s.IRR _ hv.1 hv.2 hb h3
        rw [← hR] at hlt hv1
        obtain ⟨t, m', e2, q1, q2, q3⟩ := ih
          { m1 with
            IrrActive := m1.IrrActive ^^^ (1 <<< BitScanReverse (s.IRR &&& 0xFFFFFFFE)) }
          (TablesWellFormed_of_fixed s _ hf1 hw)
          (InServiceDeferred_cleared s _ _ hb hf1 hR h7)
          (hs.1.trans (hsame.1.trans hI)) hA hv1 (by show m1.IRR < fuel; omega)
        exact ⟨t, m', e2, Nat.le_trans q1 (Nat.le_of_lt hlt), q2, q3⟩
      · rw [if_neg hgt]
        obtain ⟨h, eh, ht⟩ := SWInterruptHandlerTable2_tail s.IRR _ hb h1 hgt s rfl
        rw [eh]
        exact ⟨some h, s, rfl, Nat.le_refl _, hv, ht⟩

theorem HalEndSystemInterrupt_loop_ret (K : Kernel) (hK : K.Quiescent) (n : Nat) :
    ∀ (fuel : Nat) (s : Machine),
      TablesWellFormed s → InServiceDeferred s → s.Irql = 0 → s.IrrActive = 0 →
      PendingValid s → s.IRR < fuel → s.IRR &&& 0xFFFFFFFE ≠ 0 →
      ∃ t m', HalEndSystemInterrupt.loop (kernelInvoke K (n + 1)) fuel (s.IRR &&& 0xFFFFFFFE) s =
          .ret t m' ∧
        m'.IRR ≤ s.IRR ∧ PendingValid m' ∧ TailPending t m' := by
  intro fuel
  induction fuel with
  | zero =>
    intro s _ _ _ _ _ hf
    omega
  | succ fuel ih =>
    intro s hw h7 hI hact hv hf hp
    rw [HalEndSystemInterrupt.loop]
    obtain ⟨hb, h1, h20, h3⟩ := top_valid s.IRR hv.1 hv.2 hp
    by_cases hgt : BitScanReverse (s.IRR &&& 0xFFFFFFFE) > DISPATCH_LEVEL
    · simp only [if_pos hgt]
      have h4 : 4 ≤ BitScanReverse (s.IRR &&& 0xFFFFFFFE) := by
        unfold DISPATCH_LEVEL at hgt
        omega
      have hsame := writePicMask_same (s.IDR &&& 0xFFFF) s
      generalize writePicMask (s.IDR &&& 0xFFFF) s = s1 at hsame
      have hng : ¬ (s1.IrrActive &&& (1 <<< BitScanReverse (s.IRR &&& 0xFFFFFFFE)) ≠ 0) := by
        rw [hsame.2.2.1, hact, Nat.zero_and]
        decide
      rw [if_neg hng]
      obtain ⟨m1, e1, hs⟩ := callSW_guarded_ret K hK n _ h4 h20
        { s1 with
            IrrActive := s1.IrrActive ||| (1 <<< BitScanReverse (s.IRR &&& 0xFFFFFFFE)),
            IRR := s1.IRR ^^^ (1 <<< BitScanReverse (s.IRR &&& 0xFFFFFFFE)) }
        (TablesWellFormed_of_fixed s _ hsame.2.2.2 hw)
        (InServiceDeferred_replay s _ _ hb hsame.2.2.2
          (congrArg (fun x => x ^^^ (1 <<< BitScanReverse (s.IRR &&& 0xFFFFFFFE)))
            hsame.2.1) h7)
        (hsame.1.trans hI)
        (or_bit_guard_ne_zero _ _ h4 (by omega))
      rw [e1]
      have hA : m1.IrrActive ^^^ (1 <<< BitScanReverse (s.IRR &&& 0xFFFFFFFE)) = 0 := by
        rw [hs.2.2.1]
        show (s1.IrrActive ||| _) ^^^ _ = 0
        rw [hsame.2.2.1, hact]
        exact zero_or_xor_bit _
      have hf1 : m1.fixed = s.fixed := hs.2.2.2.trans hsame.2.2.2
      have hI1 : m1.Irql = 0 := hs.1.trans (hsame.1.trans hI)
      have hR : m1.IRR = s.IRR ^^^ (1 <<< BitScanReverse (s.IRR &&& 0xFFFFFFFE)) := by
        rw [hs.2.1]
        show s1.IRR ^^^ _ = _
        rw [hsame.2.1]
      have hlt := xor_bit_lt s.IRR _ hb
      have hv1 := valid_xor s.IRR _ hv.1 hv.2 hb h3
      rw [← hR] at hlt hv1
      simp only [Outcome.andThen, hI1, FindHigherIrqlMask_zero]
      by_cases hp1 : m1.IRR &&& 0xFFFFFFFE = 0
      · rw [if_pos hp1]
        exact ⟨none, _, rfl, Nat.le_of_lt hlt, hv1, trivial⟩
      · rw [if_neg hp1]
        obtain ⟨t, m', e2, q1, q2, q3⟩ := ih
          { m1 with
            Irql := 0,
            IrrActive := m1.IrrActive ^^^ (1 <<< BitScanReverse (s.IRR &&& 0xFFFFFFFE)) }
          (TablesWellFormed_of_fixed s _ hf1 hw)
          (InServiceDeferred_cleared s _ _ hb hf1 hR h7)
          rfl hA hv1 (by show m1.IRR < fuel; omega) hp1
        exact ⟨t, m', e2, Nat.le_trans q1 (Nat.le_of_lt hlt), q2, q3⟩
    · simp only [if_neg hgt]
      obtain ⟨h, eh, ht⟩ := SWInterruptHandlerTable2_tail s.IRR _ hb h1 hgt s rfl
      rw [eh]
      exact ⟨some h, s, rfl, Nat.le_refl _, hv, ht⟩

theorem HalEndSystemInterrupt_ret (K : Kernel) (hK : K.Quiescent) (n fuel : Nat) (s : Machine)
    (hw : TablesWellFormed s) (h7 : InServiceDeferred s) (hact : s.IrrActive = 0)
    (hv : PendingValid s) (hf : s.IRR < fuel) :
    ∃ t m', HalEndSystemInterrupt (kernelInvoke K (n + 1)) fuel 0 s = .ret t m' ∧
      m'.IRR ≤ s.IRR ∧ PendingValid m' ∧ TailPending t m' := by
  unfold HalEndSystemInterrupt
  simp only [FindHigherIrqlMask_zero]
  by_cases hp : s.IRR &&& 0xFFFFFFFE ≠ 0
  · have hng : ¬ (s.IrrActive &&& 0xFFFFFFF0 ≠ 0) := by
      rw [hact]
      decide
    rw [if_pos hp, if_neg hng]
    exact HalEndSystemInterrupt_loop_ret K hK n fuel { s with Irql := 0 }
      (TablesWellFormed_of_fixed s _ rfl hw) (InServiceDeferred_same s _ rfl rfl h7) rfl hact
      hv hf hp
  · rw [if_neg hp]
    exact ⟨none, _, rfl, Nat.le_refl _, hv, trivial⟩

theorem HalpEndSoftwareInterrupt_ret (K : Kernel) (hK : K.Quiescent) (n : Nat)
    (run2 : Invoke2) (fuel : Nat) (s : Machine) (hw : TablesWellFormed s)
    (h7 : InServiceDeferred s) (hact : s.IrrActive = 0) (hv : PendingValid s)
    (hf : s.IRR < fuel)
    (h2 : ∀ h m, TablesWellFormed m → InServiceDeferred m → m.Irql = 0 → m.IrrActive = 0 →
      PendingValid m → TailPending (some h) m → m.IRR ≤ s.IRR → ∃ m', run2 h m = .ret () m') :
    ∃ m', HalpEndSoftwareInterrupt (kernelInvoke K (n + 1)) run2 fuel 0 s = .ret () m' := by
  obtain ⟨t, m1, e, q1, q2, q3⟩ := HalpEndSoftwareInterrupt2_loop_ret K hK n fuel
    { s with Irql := 0 } (TablesWellFormed_of_fixed s _ rfl hw)
    (InServiceDeferred_same s _ rfl rfl h7) rfl hact hv hf
  have hl := HalpEndSoftwareInterrupt2_loop_drains K hK (n + 1) fuel { s with Irql := 0 } t m1
    (TablesWellFormed_of_fixed s _ rfl hw) (InServiceDeferred_same s _ rfl rfl h7) rfl hact e
  unfold HalpEndSoftwareInterrupt HalpEndSoftwareInterrupt2
  rw [e]
  cases t with
  | none => exact ⟨m1, rfl⟩
  | some h =>
    exact h2 h m1 (TablesWellFormed_of_fixed s _ hl.2.2.1 hw)
      hl.2.2.2.2 hl.1 hl.2.1 q2 q3 q1

theorem kernelInvoke2_ret (K : Kernel) (hK : K.Quiescent) (n : Nat) :
    ∀ (j : Nat) (h : SwHandler2) (s : Machine),
      TablesWellFormed s → InServiceDeferred s → s.Irql = 0 → s.IrrActive = 0 →
      PendingValid s → TailPending (some h) s → s.IRR < j →
      ∃ m', kernelInvoke2 K (kernelInvoke K (n + 1)) j h s = .ret () m' := by
  intro j
  induction j with
  | zero =>
    intro h s _ _ _ _ _ _ hj
    omega
  | succ j ih =>
    intro h s hw h7 hI hact hv ht hj
    rcases ht with ⟨e, hb⟩ | ⟨e, hb⟩
    · subst e
      show ∃ m', HalpEndSoftwareInterrupt (kernelInvoke K (n + 1))
          (kernelInvoke2 K (kernelInvoke K (n + 1)) j) j s.Irql
          { K.KiDeliverApc
              { s with Irql := APC_LEVEL,
                       IRR := s.IRR &&& (0xFFFFFFFF ^^^ (1 <<< APC_LEVEL)), IF := true } with
            IF := false } = .ret () m'
      rw [hI]
      have hq := hK.1
        { s with Irql := APC_LEVEL,
                 IRR := s.IRR &&& (0xFFFFFFFF ^^^ (1 <<< APC_LEVEL)), IF := true }
      have hf : ({ K.KiDeliverApc
              { s with Irql := APC_LEVEL,
                       IRR := s.IRR &&& (0xFFFFFFFF ^^^ (1 <<< APC_LEVEL)),
                       IF := true } with
            IF := false } : Machine).fixed = s.fixed := hq.2.2.2
      have ha : ({ K.KiDeliverApc
              { s with Irql := APC_LEVEL,
                       IRR := s.IRR &&& (0xFFFFFFFF ^^^ (1 <<< APC_LEVEL)),
                       IF := true } with
            IF := false } : Machine).IrrActive = 0 := hq.2.2.1.trans hact
      have hr : ({ K.KiDeliverApc
              { s with Irql := APC_LEVEL,
                       IRR := s.IRR &&& (0xFFFFFFFF ^^^ (1 <<< APC_LEVEL)),
                       IF := true } with
            IF := false } : Machine).IRR = s.IRR &&& (0xFFFFFFFF ^^^ (1 <<< APC_LEVEL)) :=
        hq.2.1
      have hlt := and_clear_lt s.IRR APC_LEVEL (by decide) hb
      have hv1 := valid_and s.IRR (0xFFFFFFFF ^^^ (1 <<< APC_LEVEL)) hv.1 hv.2
      rw [← hr] at hlt hv1
      exact HalpEndSoftwareInterrupt_ret K hK n _ j _ (TablesWellFormed_of_fixed s _ hf hw)
        (InServiceDeferred_and s _ _ hf hr h7) ha hv1 (by omega)
        (fun h' m a b c d e f g => ih h' m a b c d e f (by omega))
    · subst e
      show ∃ m', HalpEndSoftwareInterrupt (kernelInvoke K (n + 1))
          (kernelInvoke2 K (kernelInvoke K (n + 1)) j) j s.Irql
          { K.KiDispatchInterrupt
              { s with Irql := DISPATCH_LEVEL,
                       IRR := s.IRR &&& (0xFFFFFFFF ^^^ (1 <<< DISPATCH_LEVEL)),
                       IF := true } with
            IF := false } = .ret () m'
      rw [hI]
      have hq := hK.2.1
        { s with Irql := DISPATCH_LEVEL,
                 IRR := s.IRR &&& (0xFFFFFFFF ^^^ (1 <<< DISPATCH_LEVEL)), IF := true }
      have hf : ({ K.KiDispatchInterrupt
              { s with Irql := DISPATCH_LEVEL,
                       IRR := s.IRR &&& (0xFFFFFFFF ^^^ (1 <<< DISPATCH_LEVEL)),
                       IF := true } with
            IF := false } : Machine).fixed = s.fixed := hq.2.2.2
      have ha : ({ K.KiDispatchInterrupt
              { s with Irql := DISPATCH_LEVEL,
                       IRR := s.IRR &&& (0xFFFFFFFF ^^^ (1 <<< DISPATCH_LEVEL)),
                       IF := true } with
            IF := false } : Machine).IrrActive = 0 := hq.2.2.1.trans hact
      have hr : ({ K.KiDispatchInterrupt
              { s with Irql := DISPATCH_LEVEL,
                       IRR := s.IRR &&& (0xFFFFFFFF ^^^ (1 <<< DISPATCH_LEVEL)),
                       IF := true } with
            IF := false } : Machine).IRR =
          s.IRR &&& (0xFFFFFFFF ^^^ (1 <<< DISPATCH_LEVEL)) := hq.2.1
      have hlt := and_clear_lt s.IRR DISPATCH_LEVEL (by decide) hb
      have hv1 := valid_and s.IRR (0xFFFFFFFF ^^^ (1 <<< DISPATCH_LEVEL)) hv.1 hv.2
      rw [← hr] at hlt hv1
      exact HalpEndSoftwareInterrupt_ret K hK n _ j _ (TablesWellFormed_of_fixed s _ hf hw)
        (InServiceDeferred_and s _ _ hf hr h7) ha hv1 (by omega)
        (fun h' m a b c d e f g => ih h' m a b c d e f (by omega))

theorem vectorStub_ret (K : Kernel) (hK : K.Quiescent) (n fuel j k : Nat) (hk : k < 16)
    (s : Machine) (hw : TablesWellFormed s) (h7 : InServiceDeferred s) (hI : s.Irql = 0)
    (hact : s.IrrActive = 0) (hv : PendingValid s)
    (d : HalDismiss) (hd1 : s.HalpSpecialDismissTable[k]? = some d) (hd : d.edge = true)
    (h7d : SlotInService d s) (hf : s.IRR < fuel) (hj : s.IRR < j) :
    ∃ m', vectorStub K (kernelInvoke K (n + 1)) (kernelInvoke2 K (kernelInvoke K (n + 1)) j)
      fuel k s = .ret () m' := by
  obtain ⟨m1, q2, q3, q4, e⟩ := vectorStub_accept K hK (kernelInvoke K (n + 1))
    (kernelInvoke2 K (kernelInvoke K (n + 1)) j) fuel k hk s hI d hd1 hd h7d
  have hv1 : PendingValid m1 := by
    unfold PendingValid
    rw [q2]
    exact hv
  obtain ⟨t, m2, e2, p1, p2, p3⟩ := HalEndSystemInterrupt_ret K hK n fuel m1
    (TablesWellFormed_of_fixed s _ q4 hw) (InServiceDeferred_same s _ q4 q2 h7)
    (q3.trans hact) hv1 (by omega)
  have hl := HalEndSystemInterrupt_drains K hK (n + 1) fuel m1 t m2
    (TablesWellFormed_of_fixed s _ q4 hw) (InServiceDeferred_same s _ q4 q2 h7)
    (q3.trans hact) e2
  have hf2 : m2.fixed = s.fixed := hl.2.2.1.trans q4
  rw [e, e2]
  cases t with
  | none => exact ⟨_, rfl⟩
  | some h =>
    obtain ⟨m3, e3⟩ := kernelInvoke2_ret K hK n j h m2 (TablesWellFormed_of_fixed s _ hf2 hw)
      hl.2.2.2.2 hl.1 hl.2.1 p2 p3 (by omega)
    simp only [Outcome.andThen]
    rw [e3]
    exact ⟨_, rfl⟩

theorem HalpApcInterruptHandler_ret (K : Kernel) (hK : K.Quiescent) (n : Nat) (s : Machine)
    (hw : TablesWellFormed s) (h7 : InServiceDeferred s) (hI : s.Irql = 0)
    (hact : s.IrrActive = 0) (hv : PendingValid s) (hf : s.IRR < n + 1) :
    ∃ m', HalpApcInterruptHandler K (kernelInvoke K (n + 1))
      (kernelInvoke2 K (kernelInvoke K (n + 1)) (n + 1)) (n + 1) s = .ret () m' := by
  have hq := hK.1
    { s with Irql := APC_LEVEL,
             IRR := s.IRR &&& (0xFFFFFFFF ^^^ (1 <<< APC_LEVEL)), IF := true }
  have hfx : ({ K.KiDeliverApc
          { s with Irql := APC_LEVEL,
                   IRR := s.IRR &&& (0xFFFFFFFF ^^^ (1 <<< APC_LEVEL)),
                   IF := true } with
        IF := false } : Machine).fixed = s.fixed := hq.2.2.2
  have ha : ({ K.KiDeliverApc
          { s with Irql := APC_LEVEL,
                   IRR := s.IRR &&& (0xFFFFFFFF ^^^ (1 <<< APC_LEVEL)),
                   IF := true } with
        IF := false } : Machine).IrrActive = 0 := hq.2.2.1.trans hact
  have hr : ({ K.KiDeliverApc
          { s with Irql := APC_LEVEL,
                   IRR := s.IRR &&& (0xFFFFFFFF ^^^ (1 <<< APC_LEVEL)),
                   IF := true } with
        IF := false } : Machine).IRR = s.IRR &&& (0xFFFFFFFF ^^^ (1 <<< APC_LEVEL)) :=
    hq.2.1
  have hle : s.IRR &&& (0xFFFFFFFF ^^^ (1 <<< APC_LEVEL)) ≤ s.IRR := Nat.and_le_left
  have hv1 := valid_and s.IRR (0xFFFFFFFF ^^^ (1 <<< APC_LEVEL)) hv.1 hv.2
  rw [← hr] at hle hv1
  obtain ⟨m1, e1⟩ := HalpEndSoftwareInterrupt_ret K hK n
    (kernelInvoke2 K (kernelInvoke K (n + 1)) (n + 1)) (n + 1) _
    (TablesWellFormed_of_fixed s _ hfx hw) (InServiceDeferred_and s _ _ hfx hr h7) ha hv1
    (by omega)
    (fun h' m a b c d e f g => kernelInvoke2_ret K hK n (n + 1) h' m a b c d e f (by omega))
  have e1' : _HalpApcInterruptHandler K (kernelInvoke K (n + 1))
      (kernelInvoke2 K (kernelInvoke K (n + 1)) (n + 1)) (n + 1) s = .ret () m1 := by
    unfold _HalpApcInterruptHandler
    rw [hI]
    exact e1
  unfold HalpApcInterruptHandler
  rw [e1']
  exact ⟨_, rfl⟩

theorem callSW_apc_ret (K : Kernel) (hK : K.Quiescent) (n : Nat) (s : Machine)
    (hw : TablesWellFormed s) (h7 : InServiceDeferred s) (hI : s.Irql = 0)
    (hact : s.IrrActive = 0) (hv : PendingValid s) (hf : s.IRR < n + 1) :
    ∃ m', callSW (kernelInvoke K (n + 2)) 1 s = .ret () m' := by
  unfold callSW
  rw [TablesWellFormed_low s hw 1 (by decide)]
  exact HalpApcInterruptHandler_ret K hK n s hw h7 hI hact hv hf

theorem callSW_ret (K : Kernel) (hK : K.Quiescent) :
    ∀ (n top : Nat) (s : Machine),
      TablesWellFormed s → InServiceDeferred { s with IRR := s.IRR ||| (1 <<< top) } →
      s.Irql = 0 → s.IrrActive = 0 →
      PendingValid s → 1 ≤ top → top < 20 → top ≠ 3 → 2 * s.IRR + 3 ≤ n →
      ∃ m', callSW (kernelInvoke K n) top s = .ret () m' := by
  intro n
  induction n with
  | zero =>
    intro top s _ _ _ _ _ _ _ _ hn
    omega
  | succ n ih =>
    intro top s hw h7 hI hact hv h1 h20 h3 hn
    obtain ⟨n2, rfl⟩ : ∃ n2, n = n2 + 1 := ⟨n - 1, by omega⟩
    have hng : ¬ (s.IrrActive &&& 0xFFFFFFF0 ≠ 0) := by
      rw [hact]
      decide
    by_cases h4 : 4 ≤ top
    · have hk : top - 4 < 16 := by omega
      have e4 : top - 4 + 4 = top := by omega
      have hslot := TablesWellFormed_slot s hw (top - 4) hk
      rw [e4] at hslot
      unfold callSW
      rcases hslot with hl | ⟨ht, d, hd1, hd⟩
      · rw [hl]
        show ∃ m', HalpHardwareInterruptLevel (kernelInvoke K (n2 + 1)) s = .ret () m'
        unfold HalpHardwareInterruptLevel
        rw [hI]
        simp only [FindHigherIrqlMask_zero]
        by_cases hp : s.IRR &&& 0xFFFFFFFE ≠ 0
        · rw [if_pos hp, if_neg hng]
          obtain ⟨hb, t1, t20, t3⟩ := top_valid s.IRR hv.1 hv.2 hp
          have hlt := xor_bit_lt s.IRR _ hb
          exact ih _
            { s with Irql := 0,
                     IRR := s.IRR ^^^ (1 <<< BitScanReverse (s.IRR &&& 0xFFFFFFFE)) }
            (TablesWellFormed_of_fixed s _ rfl hw)
            (InServiceDeferred_replay s _ _ hb rfl rfl (InServiceDeferred_rest s top h7)) rfl
            hact (valid_xor s.IRR _ hv.1 hv.2 hb t3) t1 t20 t3
            (by show 2 * (s.IRR ^^^ _) + 3 ≤ _; omega)
        · rw [if_neg hp]
          exact ⟨s, rfl⟩
      · rw [ht]
        exact vectorStub_ret K hK n2 (n2 + 1) (n2 + 1) (top - 4) hk s hw
          (InServiceDeferred_rest s top h7) hI hact hv d hd1 hd
          (InServiceDeferred_top s top h4 h20 h7 d hd1) (by omega) (by omega)
    · have htop : top = 1 ∨ top = 2 := by omega
      rcases htop with e | e
      · subst e
        exact callSW_apc_ret K hK n2 s hw (InServiceDeferred_rest s 1 h7) hI hact hv (by omega)
      · subst e
        unfold callSW
        rw [TablesWellFormed_low s hw 2 (by decide)]
        show ∃ m', HalpDispatchInterrupt2 K (kernelInvoke K (n2 + 1)) s = .ret () m'
        have hq := hK.2.1
          { s with Irql := DISPATCH_LEVEL,
                   IRR := s.IRR &&& (0xFFFFFFFF ^^^ (1 <<< DISPATCH_LEVEL)), IF := true }
        unfold HalpDispatchInterrupt2 _HalpDispatchInterruptHandler
        dsimp only
        generalize K.KiDispatchInterrupt
          { s with Irql := DISPATCH_LEVEL,
                   IRR := s.IRR &&& (0xFFFFFFFF ^^^ (1 <<< DISPATCH_LEVEL)), IF := true } = r
          at hq
        have hf : r.fixed = s.fixed := hq.2.2.2
        have ha : r.IrrActive = 0 := hq.2.2.1.trans hact
        have hr : r.IRR = s.IRR &&& (0xFFFFFFFF ^^^ (1 <<< DISPATCH_LEVEL)) := hq.2.1
        have h7r : InServiceDeferred r :=
          InServiceDeferred_and s r _ hf hr (InServiceDeferred_rest s 2 h7)
        have hle : s.IRR &&& (0xFFFFFFFF ^^^ (1 <<< DISPATCH_LEVEL)) ≤ s.IRR := Nat.and_le_left
        have hvr := valid_and s.IRR (0xFFFFFFFF ^^^ (1 <<< DISPATCH_LEVEL)) hv.1 hv.2
        have hb2 : (s.IRR &&& (0xFFFFFFFF ^^^ (1 <<< DISPATCH_LEVEL))).testBit 2 = false := by
          rw [Nat.testBit_and, testBit_clear_mask DISPATCH_LEVEL 2 (by decide)]
          simp
        rw [← hr] at hle hvr hb2
        rw [hI]
        simp only [FindHigherIrqlMask_zero]
        by_cases hp : r.IRR &&& 0xFFFFFFFE ≠ 0
        · rw [if_pos hp]
          obtain ⟨hb, t1, t20, t3⟩ := top_valid r.IRR hvr.1 hvr.2 hp
          by_cases hgt : BitScanReverse (r.IRR &&& 0xFFFFFFFE) > DISPATCH_LEVEL
          · rw [if_pos hgt]
            have hsame := writePicMask_same (r.IDR &&& 0xFFFF)
              { r with IF := false, Irql := 0 }
            have hf2 := hsame.2.2.2.trans hf
            have hR : (writePicMask (r.IDR &&& 0xFFFF)
                { r with IF := false, Irql := 0 }).IRR = r.IRR := hsame.2.1
            have hlt : (writePicMask (r.IDR &&& 0xFFFF) { r with IF := false, Irql := 0 }).IRR ^^^
                (1 <<< BitScanReverse (r.IRR &&& 0xFFFFFFFE)) < r.IRR := by
              rw [hR]
              exact xor_bit_lt r.IRR _ hb
            have hv2 : (writePicMask (r.IDR &&& 0xFFFF) { r with IF := false, Irql := 0 }).IRR ^^^
                  (1 <<< BitScanReverse (r.IRR &&& 0xFFFFFFFE)) < 2 ^ 20 ∧
                ((writePicMask (r.IDR &&& 0xFFFF) { r with IF := false, Irql := 0 }).IRR ^^^
                  (1 <<< BitScanReverse (r.IRR &&& 0xFFFFFFFE))).testBit 3 = false := by
              rw [hR]
              exact valid_xor r.IRR _ hvr.1 hvr.2 hb t3
            exact ih _ _ (TablesWellFormed_of_fixed s _ hf2 hw)
              (InServiceDeferred_replay r _ _ hb hsame.2.2.2
                (congrArg (fun x => x ^^^ (1 <<< BitScanReverse (r.IRR &&& 0xFFFFFFFE)))
                  hsame.2.1) h7r)
              hsame.1 (hsame.2.2.1.trans ha) hv2
              t1 t20 t3 (by
                show 2 * ((writePicMask (r.IDR &&& 0xFFFF)
                  { r with IF := false, Irql := 0 }).IRR ^^^
                    (1 <<< BitScanReverse (r.IRR &&& 0xFFFFFFFE))) + 3 ≤ _
                omega)
          · rw [if_neg hgt]
            have e1 : BitScanReverse (r.IRR &&& 0xFFFFFFFE) = 1 := by
              have h12 : BitScanReverse (r.IRR &&& 0xFFFFFFFE) = 1 ∨
                  BitScanReverse (r.IRR &&& 0xFFFFFFFE) = 2 := by
                unfold DISPATCH_LEVEL at hgt
                omega
              rcases h12 with e | e
              · exact e
              · rw [e, hb2] at hb
                cases hb
            rw [e1]
            obtain ⟨n3, rfl⟩ : ∃ n3, n2 = n3 + 1 := ⟨n2 - 1, by omega⟩
            exact callSW_apc_ret K hK n3 { r with IF := false, Irql := 0 }
              (TablesWellFormed_of_fixed s _ hf hw) (InServiceDeferred_same r _ rfl rfl h7r)
              rfl ha hvr (by show r.IRR < _; omega)
        · rw [if_neg hp]
          exact ⟨_, rfl⟩

theorem KfLowerIrql_ret (K : Kernel) (hK : K.Quiescent) (dbg : Bool) (s : Machine)
    (hw : TablesWellFormed s) (h7 : InServiceDeferred s) (hact : s.IrrActive = 0)
    (hv : PendingValid s) (n : Nat) (hn : 2 * s.IRR + 3 ≤ n) :
    ∃ s', KfLowerIrql (kernelInvoke K n) dbg 0 s = .ret () s' := by
  have e0 : FindHigherIrqlMask.getD 0 0 = 0xFFFFFFFE := rfl
  rw [KfLowerIrql_eq _ dbg 0 s (fun _ => Nat.zero_le _) (by decide), e0]
  by_cases hp : s.IRR &&& 0xFFFFFFFE = 0
  · rw [if_pos hp]
    exact ⟨_, rfl⟩
  · rw [if_neg hp]
    obtain ⟨hb, t1, t20, t3⟩ := top_valid s.IRR hv.1 hv.2 hp
    by_cases hgt : BitScanReverse (s.IRR &&& 0xFFFFFFFE) > DISPATCH_LEVEL
    · rw [if_pos hgt]
      have hlt := xor_bit_lt s.IRR _ hb
      obtain ⟨m1, e1⟩ := callSW_ret K hK n (BitScanReverse (s.IRR &&& 0xFFFFFFFE))
        { s with
            Irql := 0, IF := false,
            pic1Mask := (s.IDR &&& 0xFFFF) % 256,
            pic2Mask := (s.IDR &&& 0xFFFF) / 256,
            IRR := s.IRR ^^^ (1 <<< BitScanReverse (s.IRR &&& 0xFFFFFFFE)),
            trace := s.trace ++
              [PortEvent.mk .write 0x21 ((s.IDR &&& 0xFFFF) % 256)
                 ⟨0, s.IRR, s.IDR, s.IrrActive⟩,
               PortEvent.mk .write 0xA1 ((s.IDR &&& 0xFFFF) / 256)
                 ⟨0, s.IRR, s.IDR, s.IrrActive⟩] }
        (TablesWellFormed_of_fixed s _ rfl hw)
        (InServiceDeferred_replay s _ _ hb rfl rfl h7) rfl hact
        (valid_xor s.IRR _ hv.1 hv.2 hb t3) t1 t20 t3
        (by show 2 * (s.IRR ^^^ _) + 3 ≤ _; omega)
      rw [e1]
      exact ⟨_, rfl⟩
    · rw [if_neg hgt]
      obtain ⟨m1, e1⟩ := callSW_ret K hK n (BitScanReverse (s.IRR &&& 0xFFFFFFFE))
        { s with Irql := 0, IF := false }
        (TablesWellFormed_of_fixed s _ rfl hw)
        (InServiceDeferred_pending s _ _ hb rfl rfl h7) rfl hact
        hv t1 t20 t3 hn
      rw [e1]
      exact ⟨_, rfl⟩

/-- C18 (drain completeness): KfLowerIrql(0) leaves nothing pending.  On tables in a shape
the code can produce, with IrrActive = 0, a kernel whose upcalls latch nothing, and every
deferred IRQ still in service (the defer path sends no EOI, so the in-service register read by
the IR7 or IR15 routine of a pending slot answers with bit 7 set), every return of
KfLowerIrql(0) leaves IRR & FindHigherIrqlMask[0] = 0, at whatever bound on the nesting; and
when IRR holds no bit without a returning handler (no bit 3, none beyond 19) the call does
return once the bound is at least 2 * IRR + 3. -/
theorem drain_completeness (K : Kernel) (hK : K.Quiescent) (dbg : Bool) (s : Machine)
    (hw : TablesWellFormed s) (h7 : InServiceDeferred s) (hact : s.IrrActive = 0) :
    (∀ n s', KfLowerIrql (kernelInvoke K n) dbg 0 s = .ret () s' →
      s'.IRR &&& FindHigherIrqlMask.getD 0 0 = 0) ∧
    (PendingValid s → ∀ n, 2 * s.IRR + 3 ≤ n →
      ∃ s', KfLowerIrql (kernelInvoke K n) dbg 0 s = .ret () s' ∧
        s'.IRR &&& FindHigherIrqlMask.getD 0 0 = 0) := by
  refine ⟨fun n s' h => KfLowerIrql_drains K hK n dbg s s' hw h7 hact h, ?_⟩
  intro hv n hn
  obtain ⟨s', e⟩ := KfLowerIrql_ret K hK dbg s hw h7 hact hv n hn
  exact ⟨s', e, KfLowerIrql_drains K hK n dbg s s' hw h7 hact e⟩

/-- C18, instance: scenario S2 with a DPC pending.  IRQ 5 is deferred and is the only IRQ in
service (the master in-service register answers 0x20, the slave one 0).  With nesting bound 3
the call returns with IRR = 0, and it returns with nothing pending at the bound
2 * 0x204 + 3 as well. -/
theorem drain_completeness_witness :
    (quietKernel.Quiescent ∧
      TablesWellFormed
        { deferredMachine with IRR := 0x204, pic1CtlIn := 0x20, pic2CtlIn := 0 } ∧
      InServiceDeferred
        { deferredMachine with IRR := 0x204, pic1CtlIn := 0x20, pic2CtlIn := 0 } ∧
      ({ deferredMachine with IRR := 0x204, pic1CtlIn := 0x20, pic2CtlIn := 0 } :
        Machine).IrrActive = 0 ∧
      PendingValid { deferredMachine with IRR := 0x204, pic1CtlIn := 0x20, pic2CtlIn := 0 }) ∧
    (KfLowerIrql (kernelInvoke quietKernel 3) true 0
        { deferredMachine with IRR := 0x204, pic1CtlIn := 0x20, pic2CtlIn := 0 } =
        .ret ()
          { bootMachine with
              pic1CtlIn := 0x20, pic2CtlIn := 0,
              trace := [PortEvent.mk .write 0x21 0xF8 ⟨24, 0x200, 0, 0⟩,
                        PortEvent.mk .write 0xA1 0xFE ⟨24, 0x200, 0, 0⟩,
                        PortEvent.mk .write 0x21 0 ⟨0, 0x204, 0, 0⟩,
                        PortEvent.mk .write 0xA1 0 ⟨0, 0x204, 0, 0⟩,
                        PortEvent.mk .write 0x20 0x65 ⟨22, 0x4, 0, 0⟩] } ∧
      (0 : Nat) &&& FindHigherIrqlMask.getD 0 0 = 0) ∧
    ∃ s', KfLowerIrql (kernelInvoke quietKernel 1035) true 0
        { deferredMachine with IRR := 0x204, pic1CtlIn := 0x20, pic2CtlIn := 0 } =
          .ret () s' ∧
      s'.IRR &&& FindHigherIrqlMask.getD 0 0 = 0 := by
  have hw : TablesWellFormed
      { deferredMachine with IRR := 0x204, pic1CtlIn := 0x20, pic2CtlIn := 0 } := by
    unfold TablesWellFormed
    decide
  have h7 : InServiceDeferred
      { deferredMachine with IRR := 0x204, pic1CtlIn := 0x20, pic2CtlIn := 0 } := by
    intro k d hk hb hd
    have hk5 : k = 5 := by
      by_contra hne
      have hall : ∀ j, j < 16 → j ≠ 5 → (0x204 : Nat).testBit (j + 4) = false := by decide
      have hb' : (0x204 : Nat).testBit (k + 4) = true := hb
      rw [hall k hk hne] at hb'
      cases hb'
    subst hk5
    have hd' : some HalDismiss.HalpDismissIrqGeneric = some d := hd
    cases hd'
    exact ⟨(fun e => by cases e), (fun e => by cases e)⟩
  have hv : PendingValid
      { deferredMachine with IRR := 0x204, pic1CtlIn := 0x20, pic2CtlIn := 0 } := by
    unfold PendingValid
    decide
  have h : KfLowerIrql (kernelInvoke quietKernel 3) true 0
      { deferredMachine with IRR := 0x204, pic1CtlIn := 0x20, pic2CtlIn := 0 } =
    .ret ()
      { bootMachine with
          pic1CtlIn := 0x20, pic2CtlIn := 0,
          trace := [PortEvent.mk .write 0x21 0xF8 ⟨24, 0x200, 0, 0⟩,
                    PortEvent.mk .write 0xA1 0xFE ⟨24, 0x200, 0, 0⟩,
                    PortEvent.mk .write 0x21 0 ⟨0, 0x204, 0, 0⟩,
                    PortEvent.mk .write 0xA1 0 ⟨0, 0x204, 0, 0⟩,
                    PortEvent.mk .write 0x20 0x65 ⟨22, 0x4, 0, 0⟩] } := by
    decide
  have hd := drain_completeness quietKernel quietKernel_Quiescent true
    { deferredMachine with IRR := 0x204, pic1CtlIn := 0x20, pic2CtlIn := 0 } hw h7 rfl
  exact ⟨⟨quietKernel_Quiescent, hw, h7, rfl, hv⟩, ⟨h, hd.1 3 _ h⟩, hd.2 hv 1035 (by decide)⟩

/-! ## Level-mode replay of the own slot -/

theorem dismissLevel_accepted (T k : Nat) (s : Machine) (o : Option Nat) (s1 : Machine)
    (h : _HalpDismissIrqLevel T k s = .ret (true, o) s1) :
    o = some s.Irql ∧ T > s.Irql ∧ s1.IRR = s.IRR ||| (1 <<< (k + 4)) ∧ s1.IDR = s.IDR ∧
      s1.IrrActive = s.IrrActive ∧ s1.fixed = s.fixed := by
  unfold _HalpDismissIrqLevel at h
  split at h
  · cases h
  · rename_i mask hm
    dsimp only at h
    have hw := writePicMask_same ((mask ||| s.IDR) &&& 0xFFFF) s
    have he := sendEoi_same k
      { writePicMask ((mask ||| s.IDR) &&& 0xFFFF) s with
          IRR := (writePicMask ((mask ||| s.IDR) &&& 0xFFFF) s).IRR ||| (1 <<< (k + 4)) }
    split at h
    · cases h
    · split at h
      · rename_i hacc
        cases h
        refine ⟨congrArg some hw.1, ?_, ?_, ?_, ?_, ?_⟩
        · rw [← hw.1]
          exact hacc
        · exact he.2.1.trans (congrArg (fun x => x ||| (1 <<< (k + 4))) hw.2.1)
        · exact (sendEoi_IDR k
            { writePicMask ((mask ||| s.IDR) &&& 0xFFFF) s with
                IRR := (writePicMask ((mask ||| s.IDR) &&& 0xFFFF) s).IRR ||| (1 <<< (k + 4)) }).trans
            (writePicMask_IDR ((mask ||| s.IDR) &&& 0xFFFF) s)
        · exact he.2.2.1.trans hw.2.2.1
        · exact he.2.2.2.trans hw.2.2.2
      · cases h

theorem callDismiss_level_accepted (d : HalDismiss) (hd : d.edge = false) (T k : Nat)
    (s : Machine) (o : Option Nat) (s1 : Machine)
    (h : callDismiss d T k s = .ret (true, o) s1) :
    o = some s.Irql ∧ T > s.Irql ∧ s1.IRR = s.IRR ||| (1 <<< (k + 4)) ∧ s1.IDR = s.IDR ∧
      s1.IrrActive = s.IrrActive ∧ s1.fixed = s.fixed := by
  cases d with
  | HalpDismissIrqGeneric => exact absurd hd (by decide)
  | HalpDismissIrq07 => exact absurd hd (by decide)
  | HalpDismissIrq13 => exact absurd hd (by decide)
  | HalpDismissIrq15 => exact absurd hd (by decide)
  | HalpDismissIrqLevel => exact dismissLevel_accepted T k s o s1 h
  | HalpDismissIrq07Level =>
    unfold callDismiss HalpDismissIrq07Level at h
    dsimp only at h
    have ho := outbyte_same PIC1_CONTROL_PORT Ocw3ReadIsr s
    have hi := inbyte_same PIC1_CONTROL_PORT (outbyte PIC1_CONTROL_PORT Ocw3ReadIsr s)
    have hb := Same_trans _ _ _ ho hi
    split at h
    · cases h
    · obtain ⟨q1, q2, q3, q4, q5, q6⟩ := dismissLevel_accepted T k _ o s1 h
      exact ⟨q1.trans (congrArg some hb.1), by rw [← hb.1]; exact q2,
        q3.trans (congrArg (fun x => x ||| (1 <<< (k + 4))) hb.2.1),
        q4.trans (outbyte_IDR _ _ _), q5.trans hb.2.2.1, q6.trans hb.2.2.2⟩
  | HalpDismissIrq13Level =>
    unfold callDismiss HalpDismissIrq13Level at h
    have ho := outbyte_same 0xF0 0 s
    obtain ⟨q1, q2, q3, q4, q5, q6⟩ := dismissLevel_accepted T k _ o s1 h
    exact ⟨q1.trans (congrArg some ho.1), by rw [← ho.1]; exact q2,
      q3.trans (congrArg (fun x => x ||| (1 <<< (k + 4))) ho.2.1),
      q4.trans (outbyte_IDR _ _ _), q5.trans ho.2.2.1, q6.trans ho.2.2.2⟩
  | HalpDismissIrq15Level =>
    unfold callDismiss HalpDismissIrq15Level at h
    dsimp only at h
    have ho := outbyte_same PIC2_CONTROL_PORT Ocw3ReadIsr s
    have hi := inbyte_same PIC2_CONTROL_PORT (outbyte PIC2_CONTROL_PORT Ocw3ReadIsr s)
    have hb := Same_trans _ _ _ ho hi
    split at h
    · cases h
    · obtain ⟨q1, q2, q3, q4, q5, q6⟩ := dismissLevel_accepted T k _ o s1 h
      exact ⟨q1.trans (congrArg some hb.1), by rw [← hb.1]; exact q2,
        q3.trans (congrArg (fun x => x ||| (1 <<< (k + 4))) hb.2.1),
        q4.trans (outbyte_IDR _ _ _), q5.trans hb.2.2.1, q6.trans hb.2.2.2⟩

theorem dismissLevel_accept (T k : Nat) (s : Machine) (hT : T ≤ 31) (hk : k < 16)
    (hacc : T > s.Irql) :
    ∃ o s1, _HalpDismissIrqLevel T k s = .ret (true, o) s1 := by
  have hk' : ¬ k + 4 ≥ 32 := by omega
  have hw := writePicMask_same ((KiI8259MaskTable.getD T 0 ||| s.IDR) &&& 0xFFFF) s
  have hacc' : T > (writePicMask ((KiI8259MaskTable.getD T 0 ||| s.IDR) &&& 0xFFFF) s).Irql := by
    rw [hw.1]
    exact hacc
  unfold _HalpDismissIrqLevel
  rw [KiI8259MaskTable_get T hT]
  dsimp only
  rw [if_neg hk', if_pos hacc']
  exact ⟨_, _, rfl⟩

theorem callDismiss_level_accept (d : HalDismiss) (hd : d.edge = false) (T k : Nat)
    (s : Machine) (hT : T ≤ 31) (hk : k < 16) (hacc : T > s.Irql)
    (h7 : d = .HalpDismissIrq07Level → s.pic1CtlIn.testBit 7 = true)
    (h15 : d = .HalpDismissIrq15Level → s.pic2CtlIn.testBit 7 = true) :
    ∃ o s1, callDismiss d T k s = .ret (true, o) s1 := by
  cases d with
  | HalpDismissIrqGeneric => exact absurd hd (by decide)
  | HalpDismissIrq07 => exact absurd hd (by decide)
  | HalpDismissIrq13 => exact absurd hd (by decide)
  | HalpDismissIrq15 => exact absurd hd (by decide)
  | HalpDismissIrqLevel => exact dismissLevel_accept T k s hT hk hacc
  | HalpDismissIrq07Level =>
    have hb := Same_trans _ _ _ (outbyte_same PIC1_CONTROL_PORT Ocw3ReadIsr s)
      (inbyte_same PIC1_CONTROL_PORT (outbyte PIC1_CONTROL_PORT Ocw3ReadIsr s))
    have hc : (outbyte PIC1_CONTROL_PORT Ocw3ReadIsr s).pic1CtlIn.testBit 7 = true := by
      have e : (outbyte PIC1_CONTROL_PORT Ocw3ReadIsr s).pic1CtlIn = s.pic1CtlIn :=
        congrArg (fun f => f.2.2.1) (outbyte_same PIC1_CONTROL_PORT Ocw3ReadIsr s).2.2.2
      rw [e]
      exact h7 rfl
    unfold callDismiss HalpDismissIrq07Level
    dsimp only
    rw [if_neg (inbyte_ctl1 _ hc)]
    exact dismissLevel_accept T k _ hT hk (by rw [hb.1]; exact hacc)
  | HalpDismissIrq13Level =>
    unfold callDismiss HalpDismissIrq13Level
    exact dismissLevel_accept T k _ hT hk (by rw [(outbyte_same 0xF0 0 s).1]; exact hacc)
  | HalpDismissIrq15Level =>
    have hb := Same_trans _ _ _ (outbyte_same PIC2_CONTROL_PORT Ocw3ReadIsr s)
      (inbyte_same PIC2_CONTROL_PORT (outbyte PIC2_CONTROL_PORT Ocw3ReadIsr s))
    have hc : (outbyte PIC2_CONTROL_PORT Ocw3ReadIsr s).pic2CtlIn.testBit 7 = true := by
      have e : (outbyte PIC2_CONTROL_PORT Ocw3ReadIsr s).pic2CtlIn = s.pic2CtlIn :=
        congrArg (fun f => f.2.2.2) (outbyte_same PIC2_CONTROL_PORT Ocw3ReadIsr s).2.2.2
      rw [e]
      exact h15 rfl
    unfold callDismiss HalpDismissIrq15Level
    dsimp only
    rw [if_neg (inbyte_ctl2 _ hc)]
    exact dismissLevel_accept T k _ hT hk (by rw [hb.1]; exact hacc)

theorem level_tail_dispatch (irr : Nat) (hirr : irr < 8)
    (hb : irr.testBit DISPATCH_LEVEL = true) :
    (if irr &&& FindHigherIrqlMask.getD 0 0 = 0 then none
     else SWInterruptHandlerTable2[BitScanReverse (irr &&& FindHigherIrqlMask.getD 0 0)]?) =
      some .HalpDispatchInterrupt2ndEntry := by
  interval_cases irr <;> first | exact absurd hb (by decide) | decide

/-- C19, amended: let IRQ k be level-triggered, with any of the level dismissal routines
(HalpDismissIrqLevel, HalpDismissIrq07Level, HalpDismissIrq13Level, HalpDismissIrq15Level) in
its dismissal slot and the level replay entry in slot k + 4, and let
HalBeginSystemInterrupt(PROFILE_LEVEL - k, vector of k) accept it in a state with no hardware
IRQ deferred (IRR < 8) and no replay in progress (IrrActive & 0xFFFFFFF0 = 0).  Then the old
IRQL returned is the entry IRQL, it is below PROFILE_LEVEL - k, and IRR bit k + 4 is set; the
matching HalEndSystemInterrupt(old) replays exactly its own slot k + 4 once: it writes the PIC
mask IDR & 0xFFFF, clears IRR bit k + 4 and invokes the level replay entry (with an
environment that cannot run slot k + 4 the call is undefined), which returns at once because
IrrActive is set; then it returns the software tail handler selected by the software bits of
IRR, or none; with IRR bit DISPATCH_LEVEL set and old = 0 that is the dispatch tail.  The
interrupt is accepted whenever PROFILE_LEVEL - k is above the entry IRQL and, for the
routines of IRQ 7 and IRQ 15, the in-service register read has bit 7 set. -/
theorem level_end_replays_own_slot_only (run : Invoke) (fuel k : Nat) (s0 : Machine)
    (d : HalDismiss) (hk : k < 16)
    (hd1 : s0.HalpSpecialDismissTable[k]? = some d) (hd : d.edge = false)
    (hh : s0.SWInterruptHandlerTable[k + 4]? = some .HalpHardwareInterruptLevel)
    (hirr : s0.IRR < 8) (hact : s0.IrrActive &&& 0xFFFFFFF0 = 0)
    (hrun : ∀ i m, m.IrrActive &&& 0xFFFFFFF0 ≠ 0 →
      run i .HalpHardwareInterruptLevel m = HalpHardwareInterruptLevel run m) :
    (PROFILE_LEVEL - k > s0.Irql →
      (d = .HalpDismissIrq07Level → s0.pic1CtlIn.testBit 7 = true) →
      (d = .HalpDismissIrq15Level → s0.pic2CtlIn.testBit 7 = true) →
      ∃ o s1, HalBeginSystemInterrupt (PROFILE_LEVEL - k) (PRIMARY_VECTOR_BASE + k) s0 =
        .ret (true, o) s1) ∧
    ∀ o s1, HalBeginSystemInterrupt (PROFILE_LEVEL - k) (PRIMARY_VECTOR_BASE + k) s0 =
        .ret (true, o) s1 →
      o = some s0.Irql ∧ PROFILE_LEVEL - k > s0.Irql ∧
      s1.IRR = s0.IRR ||| (1 <<< (k + 4)) ∧ s1.IDR = s0.IDR ∧ s1.IrrActive = s0.IrrActive ∧
      (∃ tail, HalEndSystemInterrupt run (fuel + 2) s0.Irql s1 =
          .ret tail
            { s1 with
                Irql := s0.Irql, IRR := s0.IRR,
                pic1Mask := (s1.IDR &&& 0xFFFF) % 256,
                pic2Mask := (s1.IDR &&& 0xFFFF) / 256,
                trace := s1.trace ++
                  [PortEvent.mk .write 0x21 ((s1.IDR &&& 0xFFFF) % 256)
                     ⟨s0.Irql, s1.IRR, s1.IDR, s1.IrrActive⟩,
                   PortEvent.mk .write 0xA1 ((s1.IDR &&& 0xFFFF) / 256)
                     ⟨s0.Irql, s1.IRR, s1.IDR, s1.IrrActive⟩] } ∧
        tail = (if s0.IRR &&& FindHigherIrqlMask.getD s0.Irql 0 = 0 then none
                else SWInterruptHandlerTable2[BitScanReverse
                  (s0.IRR &&& FindHigherIrqlMask.getD s0.Irql 0)]?) ∧
        (s0.IRR.testBit DISPATCH_LEVEL = true → s0.Irql = 0 →
          tail = some .HalpDispatchInterrupt2ndEntry)) ∧
      ∀ run' : Invoke, (∀ h m, run' (k + 4) h m = .undefined) →
        HalEndSystemInterrupt run' (fuel + 1) s0.Irql s1 = .undefined := by
  have hT : PROFILE_LEVEL - k ≤ 31 := by
    unfold PROFILE_LEVEL
    omega
  have hB : HalBeginSystemInterrupt (PROFILE_LEVEL - k) (PRIMARY_VECTOR_BASE + k) s0 =
      callDismiss d (PROFILE_LEVEL - k) k s0 := by
    unfold HalBeginSystemInterrupt
    simp only [vectorIrq_base k hk, hd1]
  rw [hB]
  refine ⟨fun hacc h7 h15 => callDismiss_level_accept d hd _ k s0 hT hk hacc h7 h15, ?_⟩
  intro o s1 hb
  obtain ⟨q1, q2, q3, q4, q5, q6⟩ := callDismiss_level_accepted d hd _ k s0 o s1 hb
  have hh1 : s1.SWInterruptHandlerTable[k + 4]? = some .HalpHardwareInterruptLevel := by
    have e : s1.SWInterruptHandlerTable = s0.SWInterruptHandlerTable :=
      congrArg (fun f => f.1) q6
    rw [e]
    exact hh
  have hact1 : s1.IrrActive &&& 0xFFFFFFF0 = 0 := by
    rw [q5]
    exact hact
  refine ⟨q1, q2, q3, q4, q5, ⟨_, ?_, rfl, ?_⟩, ?_⟩
  · exact HalEndSystemInterrupt_after_level run fuel k s0.Irql s1 s0.IRR hk q2 hh1 hirr q3
      hact1 hrun
  · intro hbit hz
    rw [hz]
    exact level_tail_dispatch s0.IRR hirr hbit
  · intro run' hrun'
    exact HalEndSystemInterrupt_after_level_calls run' fuel k s0.Irql s1 s0.IRR hk q2 hh1 hirr
      q3 hact1 hrun'

/-- C19, instances.  IRQ 10 in level mode (HalpDismissIrqLevel), accepted from IRQL 0 with a
DPC pending: IRR becomes 0x4004, the end routine returns the dispatch tail with IRR back
to 4, and it is undefined when slot 14 cannot be run.  IRQ 7 in level mode
(HalpDismissIrq07Level, in-service register reading 0x80), accepted from IRQL 0 with a DPC
pending: IRR becomes 0x804, and the end routine returns the dispatch tail with IRR back
to 4. -/
theorem level_end_replays_own_slot_only_witness :
    ((10 < 16 ∧
      ({ levelTenMachine with IRR := 4 } : Machine).HalpSpecialDismissTable[10]? =
        some .HalpDismissIrqLevel ∧
      HalDismiss.edge .HalpDismissIrqLevel = false ∧
      ({ levelTenMachine with IRR := 4 } : Machine).SWInterruptHandlerTable[10 + 4]? =
        some .HalpHardwareInterruptLevel ∧
      ({ levelTenMachine with IRR := 4 } : Machine).IRR < 8 ∧
      ({ levelTenMachine with IRR := 4 } : Machine).IrrActive &&& 0xFFFFFFF0 = 0) ∧
     ∃ s1, HalBeginSystemInterrupt (PROFILE_LEVEL - 10) (PRIMARY_VECTOR_BASE + 10)
        { levelTenMachine with IRR := 4 } = .ret (true, some 0) s1 ∧ s1.IRR = 0x4004 ∧
      (∃ s2, HalEndSystemInterrupt levelInvoke 2 0 s1 =
        .ret (some .HalpDispatchInterrupt2ndEntry) s2 ∧ s2.IRR = 4) ∧
      HalEndSystemInterrupt (fun i _ m => if i = 14 then .undefined else .ret () m) 1 0 s1 =
        .undefined) ∧
    ((7 < 16 ∧
      ({ bootMachine with
          IRR := 4,
          HalpSpecialDismissTable :=
            bootMachine.HalpSpecialDismissTable.set 7 .HalpDismissIrq07Level,
          SWInterruptHandlerTable :=
            bootMachine.SWInterruptHandlerTable.set 11 .HalpHardwareInterruptLevel }
        : Machine).HalpSpecialDismissTable[7]? = some .HalpDismissIrq07Level ∧
      HalDismiss.edge .HalpDismissIrq07Level = false ∧
      ({ bootMachine with
          IRR := 4,
          HalpSpecialDismissTable :=
            bootMachine.HalpSpecialDismissTable.set 7 .HalpDismissIrq07Level,
          SWInterruptHandlerTable :=
            bootMachine.SWInterruptHandlerTable.set 11 .HalpHardwareInterruptLevel }
        : Machine).SWInterruptHandlerTable[7 + 4]? = some .HalpHardwareInterruptLevel) ∧
     ∃ s1, HalBeginSystemInterrupt (PROFILE_LEVEL - 7) (PRIMARY_VECTOR_BASE + 7)
        { bootMachine with
            IRR := 4,
            HalpSpecialDismissTable :=
              bootMachine.HalpSpecialDismissTable.set 7 .HalpDismissIrq07Level,
            SWInterruptHandlerTable :=
              bootMachine.SWInterruptHandlerTable.set 11 .HalpHardwareInterruptLevel } =
          .ret (true, some 0) s1 ∧ s1.IRR = 0x804 ∧
      ∃ s2, HalEndSystemInterrupt levelInvoke 2 0 s1 =
        .ret (some .HalpDispatchInterrupt2ndEntry) s2 ∧ s2.IRR = 4) := by
  have hrun : ∀ (i : Nat) (m : Machine), m.IrrActive &&& 0xFFFFFFF0 ≠ 0 →
      levelInvoke i .HalpHardwareInterruptLevel m = HalpHardwareInterruptLevel levelInvoke m := by
    intro i m _
    show HalpHardwareInterruptLevel idleInvoke m = HalpHardwareInterruptLevel levelInvoke m
    unfold HalpHardwareInterruptLevel
    split
    · rfl
    · dsimp only
      split
      · rfl
      · rfl
  have W := level_end_replays_own_slot_only levelInvoke 0 10 { levelTenMachine with IRR := 4 }
    .HalpDismissIrqLevel (by decide) (by decide) (by decide) (by decide) (by decide)
    (by decide) hrun
  have V := level_end_replays_own_slot_only levelInvoke 0 7
    { bootMachine with
        IRR := 4,
        HalpSpecialDismissTable :=
          bootMachine.HalpSpecialDismissTable.set 7 .HalpDismissIrq07Level,
        SWInterruptHandlerTable :=
          bootMachine.SWInterruptHandlerTable.set 11 .HalpHardwareInterruptLevel }
    .HalpDismissIrq07Level (by decide) (by decide) (by decide) (by decide) (by decide)
    (by decide) hrun
  obtain ⟨o, s1, hb⟩ := W.1 (by decide) (fun e => by cases e) (fun e => by cases e)
  obtain ⟨q1, _, q3, _, _, ⟨tail, he, _, hdsp⟩, hc⟩ := W.2 o s1 hb
  obtain ⟨o', s1', hb'⟩ := V.1 (by decide) (fun _ => by decide) (fun e => by cases e)
  obtain ⟨r1, _, r3, _, _, ⟨tail', he', _, hdsp'⟩, _⟩ := V.2 o' s1' hb'
  have ht := hdsp (by decide) rfl
  have ht' := hdsp' (by decide) rfl
  subst q1 ht r1 ht'
  exact ⟨⟨by decide, s1, hb, q3, ⟨_, he, rfl⟩, hc _ (fun _ _ => rfl)⟩,
    ⟨by decide, s1', hb', r3, ⟨_, he', rfl⟩⟩⟩

/-! ## The static mask tables -/

/-- C22 (validation of the PIC mask table): KiI8259MaskTable[i] = 0 for i in 0..3; the low 16
bits of entry 31 are 0xFFFB; bit 2 is clear in every entry; bit 0 is set in the entry of
CLOCK2_LEVEL and bit 8 in the entry of PROFILE_LEVEL; and every bit set in entry i is set in
entry i + 1, for every i < 31. -/
theorem pic_mask_table_validation :
    KiI8259MaskTable.length = 32 ∧
    (∀ i, i < 4 → KiI8259MaskTable[i]? = some 0) ∧
    KiI8259MaskTable.getD 31 0 &&& 0xFFFF = 0xFFFB ∧
    (∀ i, i < 32 → (KiI8259MaskTable.getD i 0).testBit 2 = false) ∧
    (KiI8259MaskTable.getD CLOCK2_LEVEL 0).testBit 0 = true ∧
    (KiI8259MaskTable.getD PROFILE_LEVEL 0).testBit 8 = true ∧
    (∀ i, i < 31 → ∀ b, (KiI8259MaskTable.getD i 0).testBit b = true →
      (KiI8259MaskTable.getD (i + 1) 0).testBit b = true) := by
  refine ⟨rfl, by decide, by decide, by decide, by decide, by decide, ?_⟩
  intro i hi b hb
  have hsub : ∀ i, i < 31 →
      KiI8259MaskTable.getD i 0 &&& KiI8259MaskTable.getD (i + 1) 0 =
        KiI8259MaskTable.getD i 0 := by decide
  have h := congrArg (fun x => x.testBit b) (hsub i hi)
  simp only [Nat.testBit_and, hb, Bool.true_and] at h
  exact h

/-- C23, counterexample: bit 12 of FindHigherIrqlMask[20] is set although IRQ 8, whose position
it is, has the linear IRQL PROFILE_LEVEL - 8 = 19, which is not above 20; bit 4 of
FindHigherIrqlMask[27] is set although IRQ 0 has the IRQL 27; and bit 31 of
FindHigherIrqlMask[0] is set although the handler table has only 20 slots. -/
theorem preempt_mask_rtc_and_clock_bits :
    ((FindHigherIrqlMask.getD 20 0).testBit (8 + 4) = true ∧
      HalpVectorToIrql (HalpIrqToVector 8) = PROFILE_LEVEL - 8 ∧ PROFILE_LEVEL - 8 ≤ 20) ∧
    ((FindHigherIrqlMask.getD 27 0).testBit (0 + 4) = true ∧
      HalpVectorToIrql (HalpIrqToVector 0) = PROFILE_LEVEL - 0 ∧ PROFILE_LEVEL - 0 ≤ 27) ∧
    ((FindHigherIrqlMask.getD 0 0).testBit 31 = true ∧ SWInterruptHandlerTable.length = 20 ∧
      SWInterruptHandlerTable[31]? = none) := by
  decide

/-- C23, amended: for every IRQL i in 0..31, among the positions 0..19 that have a slot, a
software position s is set in FindHigherIrqlMask[i] exactly when s > i, and the position
k + 4 of a hardware IRQ k other than 0 and 8 exactly when its linear IRQL PROFILE_LEVEL - k
is above i; the position of IRQ 0 (system clock) is set exactly below CLOCK2_LEVEL and that
of IRQ 8 (RTC) exactly below PROFILE_LEVEL; and every bit set in entry i + 1 is set in entry
i, for every i < 31. -/
theorem preempt_mask_table :
    FindHigherIrqlMask.length = 32 ∧
    (∀ i, i < 32 → ∀ s, s < 4 → ((FindHigherIrqlMask.getD i 0).testBit s = true ↔ s > i)) ∧
    (∀ i, i < 32 → ∀ k, k < 16 → k ≠ 0 ∧ k ≠ 8 →
      ((FindHigherIrqlMask.getD i 0).testBit (k + 4) = true ↔
        HalpVectorToIrql (HalpIrqToVector k) > i)) ∧
    (∀ k, k < 16 → HalpVectorToIrql (HalpIrqToVector k) = PROFILE_LEVEL - k) ∧
    (∀ i, i < 32 → ((FindHigherIrqlMask.getD i 0).testBit (0 + 4) = true ↔ i < CLOCK2_LEVEL)) ∧
    (∀ i, i < 32 → ((FindHigherIrqlMask.getD i 0).testBit (8 + 4) = true ↔ i < PROFILE_LEVEL)) ∧
    (∀ i, i < 31 → ∀ b, (FindHigherIrqlMask.getD (i + 1) 0).testBit b = true →
      (FindHigherIrqlMask.getD i 0).testBit b = true) := by
  refine ⟨rfl, by decide, by decide, by decide, by decide, by decide, ?_⟩
  intro i hi b hb
  have hsub : ∀ i, i < 31 →
      FindHigherIrqlMask.getD (i + 1) 0 &&& FindHigherIrqlMask.getD i 0 =
        FindHigherIrqlMask.getD (i + 1) 0 := by decide
  have h := congrArg (fun x => x.testBit b) (hsub i hi)
  simp only [Nat.testBit_and, hb, Bool.true_and] at h
  exact h

/-- C25, counterexample: FindHigherIrqlMask[24] = 0x1070 and FindHigherIrqlMask[25] = 0x1030
differ. -/
theorem preempt_mask_24_25_differ :
    FindHigherIrqlMask[24]? = some 0x1070 ∧ FindHigherIrqlMask[25]? = some 0x1030 ∧
    FindHigherIrqlMask.getD 24 0 ≠ FindHigherIrqlMask.getD 25 0 := by
  decide

/-- C25, amended: KiI8259MaskTable[18] = KiI8259MaskTable[19] and FindHigherIrqlMask[18] =
FindHigherIrqlMask[19]; KiI8259MaskTable[24] = KiI8259MaskTable[25], while
FindHigherIrqlMask[24] is FindHigherIrqlMask[25] with bit 6 added, the position of IRQ 2,
whose linear IRQL is 25. -/
theorem mask_table_plateaus :
    KiI8259MaskTable[18]? = KiI8259MaskTable[19]? ∧ KiI8259MaskTable[18]? ≠ none ∧
    FindHigherIrqlMask[18]? = FindHigherIrqlMask[19]? ∧ FindHigherIrqlMask[18]? ≠ none ∧
    KiI8259MaskTable[24]? = KiI8259MaskTable[25]? ∧ KiI8259MaskTable[24]? ≠ none ∧
    FindHigherIrqlMask.getD 24 0 = FindHigherIrqlMask.getD 25 0 ||| (1 <<< (2 + 4)) ∧
    (FindHigherIrqlMask.getD 25 0).testBit (2 + 4) = false ∧
    HalpVectorToIrql (HalpIrqToVector 2) = 25 := by
  decide

/-- C29 (the two tables agree on the deliverable IRQs): for every IRQL i in 0..31 and every
IRQ k in 0..15 other than 2, bit k of KiI8259MaskTable[i] is set if and only if bit k + 4 of
FindHigherIrqlMask[i] is clear; for k = 2 that equivalence holds exactly for i <= 24. -/
theorem tables_agree_on_deliverable_irqs :
    (∀ i, i < 32 → ∀ k, k < 16 → k ≠ 2 →
      ((KiI8259MaskTable.getD i 0).testBit k = true ↔
        (FindHigherIrqlMask.getD i 0).testBit (k + 4) = false)) ∧
    (∀ i, i < 32 →
      (((KiI8259MaskTable.getD i 0).testBit 2 = true ↔
          (FindHigherIrqlMask.getD i 0).testBit (2 + 4) = false) ↔ i ≤ 24)) ∧
    KiI8259MaskTable.length = 32 ∧ FindHigherIrqlMask.length = 32 := by
  refine ⟨by decide, by decide, rfl, rfl⟩

theorem picMask_writePicMask (M : Nat) (hM : M < 65536) (s : Machine) :
    (writePicMask M s).picMask = M := by
  rw [writePicMask_eq M hM s]
  exact picMask_of_bytes _ M hM rfl rfl

theorem KiI8259MaskTable_linear (n k : Nat) (hn : n ≤ 31) (hk : k < 16)
    (hle : PROFILE_LEVEL - k ≤ n) (hx : k ≠ 0 ∧ k ≠ 2 ∧ k ≠ 8) :
    (KiI8259MaskTable.getD n 0).testBit k = true := by
  have h : ∀ n, n < 32 → ∀ k, k < 16 → PROFILE_LEVEL - k ≤ n ∧ k ≠ 0 ∧ k ≠ 2 ∧ k ≠ 8 →
      (KiI8259MaskTable.getD n 0).testBit k = true := by decide
  exact h n (by omega) k hk ⟨hle, hx⟩

/-- C24, counterexample: IRQ 0 has the linear IRQL PROFILE_LEVEL - 0 = 27, yet bit 0 of
KiI8259MaskTable[27] is clear, and an edge defer of IRQ 0 at IRQL 27 with nothing disabled
writes the mask 0xFFFA, which leaves IRQ 0 open; likewise bit 8 of KiI8259MaskTable[19] is
clear although IRQ 8 has the linear IRQL 19, and bit 2 of KiI8259MaskTable[25] is clear
although IRQ 2 has the linear IRQL 25. -/
theorem defer_of_clock_irq_leaves_it_unmasked :
    (PROFILE_LEVEL - 0 ≤ 27 ∧ (KiI8259MaskTable.getD 27 0).testBit 0 = false) ∧
    _HalpDismissIrqGeneric (PROFILE_LEVEL - 0) 0 { bootMachine with Irql := 27 } =
      .ret (false, none)
        { bootMachine with
            Irql := 27, IRR := 0x10, pic1Mask := 0xFA, pic2Mask := 0xFF,
            trace := [PortEvent.mk .write 0x21 0xFA ⟨27, 0x10, 0, 0⟩,
                      PortEvent.mk .write 0xA1 0xFF ⟨27, 0x10, 0, 0⟩] } ∧
    ({ bootMachine with Irql := 27, IRR := 0x10, pic1Mask := 0xFA, pic2Mask := 0xFF } :
      Machine).picMask.testBit 0 = false ∧
    (PROFILE_LEVEL - 8 ≤ 19 ∧ (KiI8259MaskTable.getD 19 0).testBit 8 = false) ∧
    (PROFILE_LEVEL - 2 ≤ 25 ∧ (KiI8259MaskTable.getD 25 0).testBit 2 = false) := by
  decide

/-- C24, amended: for every IRQL n in 0..31 and every hardware IRQ k in 0..15 other than 0, 2
and 8 whose linear IRQL PROFILE_LEVEL - k is at most n, bit k of KiI8259MaskTable[n] is set,
and the mask (KiI8259MaskTable[n] | IDR) & 0xFFFF that an edge defer of IRQ k at IRQL n
writes has bit k set.  Bit 0 (system clock) is set exactly from CLOCK2_LEVEL up, bit 8 (RTC)
exactly from PROFILE_LEVEL up, and bit 2 (cascade) never. -/
theorem defer_masks_offending_irq (n k : Nat) (hn : n ≤ 31) (hk : k < 16)
    (hle : PROFILE_LEVEL - k ≤ n) (hx : k ≠ 0 ∧ k ≠ 2 ∧ k ≠ 8) :
    (KiI8259MaskTable.getD n 0).testBit k = true ∧
    (∀ s : Machine, s.Irql = n →
      ∃ s', _HalpDismissIrqGeneric (PROFILE_LEVEL - k) k s = .ret (false, none) s' ∧
        s'.picMask = (KiI8259MaskTable.getD n 0 ||| s.IDR) &&& 0xFFFF ∧
        s'.picMask.testBit k = true) ∧
    (∀ m, m < 32 →
      ((KiI8259MaskTable.getD m 0).testBit 0 = true ↔ CLOCK2_LEVEL ≤ m) ∧
      ((KiI8259MaskTable.getD m 0).testBit 8 = true ↔ PROFILE_LEVEL ≤ m) ∧
      (KiI8259MaskTable.getD m 0).testBit 2 = false) := by
  have hbit := KiI8259MaskTable_linear n k hn hk hle hx
  refine ⟨hbit, ?_, by decide⟩
  intro s hs
  subst hs
  have hnd : ¬ (PROFILE_LEVEL - k > s.Irql) := by omega
  have hk32 : ¬ (k + 4 ≥ 32) := by omega
  have hM : (KiI8259MaskTable.getD s.Irql 0 ||| s.IDR) &&& 0xFFFF < 65536 := and_ffff_lt _
  refine ⟨writePicMask ((KiI8259MaskTable.getD s.Irql 0 ||| s.IDR) &&& 0xFFFF)
    { s with IRR := s.IRR ||| (1 <<< (k + 4)) }, ?_, picMask_writePicMask _ hM _, ?_⟩
  · unfold _HalpDismissIrqGeneric
    simp only [if_neg hnd, if_neg hk32, KiI8259MaskTable_get s.Irql hn]
  · rw [picMask_writePicMask _ hM, testBit_and_ffff _ _ hk, Nat.testBit_or, hbit]
    rfl

/-- C24, instance: IRQ 5 deferred at IRQL 24 (scenario S2); bit 5 of the mask written is
set. -/
theorem defer_masks_offending_irq_witness :
    (24 ≤ 31 ∧ 5 < 16 ∧ PROFILE_LEVEL - 5 ≤ 24 ∧ (5 ≠ 0 ∧ 5 ≠ 2 ∧ 5 ≠ 8)) ∧
    (KiI8259MaskTable.getD 24 0).testBit 5 = true :=
  ⟨by decide, (defer_masks_offending_irq 24 5 (by decide) (by decide) (by decide)
    (by decide)).1⟩

/-! ## Debug-build checks -/

theorem callSW_no_bugcheck (run : Invoke) (hrun : ∀ i h m c m', run i h m ≠ .bugcheck c m')
    (i : Nat) (s : Machine) (c : BugCheckCode) (m' : Machine) :
    callSW run i s ≠ .bugcheck c m' := by
  unfold callSW
  split
  · intro h
    cases h
  · exact hrun _ _ _ _ _

theorem KfLowerIrql_release_no_bugcheck (run : Invoke)
    (hrun : ∀ i h m c m', run i h m ≠ .bugcheck c m') (old : Nat) (s : Machine)
    (c : BugCheckCode) (m' : Machine) : KfLowerIrql run false old s ≠ .bugcheck c m' := by
  unfold KfLowerIrql
  rw [if_neg (by simp)]
  dsimp only
  split
  · intro h
    cases h
  · split
    · intro h
      cases hc : callSW run _ _ with
      | ret a m =>
        rw [hc] at h
        cases h
      | bugcheck c2 m2 => exact callSW_no_bugcheck run hrun _ _ _ _ hc
      | undefined =>
        rw [hc] at h
        cases h
      | unfinished =>
        rw [hc] at h
        cases h
    · intro h
      cases h

/-- C21 (debug-build precondition checks): with DBG set, KfRaiseIrql bugchecks with
IRQL_NOT_GREATER_OR_EQUAL exactly when Irql > new, in the state with Irql overwritten by
PASSIVE_LEVEL and nothing else changed; KfLowerIrql bugchecks with IRQL_NOT_LESS_OR_EQUAL
exactly when old > Irql, in the state with Irql overwritten by HIGH_LEVEL and nothing else
changed, and otherwise behaves as the build without DBG (which, with replay handlers that
do not bugcheck, does not bugcheck); KeRaiseIrqlToDpcLevel and KeRaiseIrqlToSynchLevel
bugcheck exactly when Irql > DISPATCH_LEVEL and Irql > SYNCH_LEVEL, with only Irql changed.
Without DBG none of the raise routines bugchecks. -/
theorem debug_precondition_checks (run : Invoke) (SYNCH_LEVEL new old : Nat) (s : Machine) :
    (s.Irql > new →
      KfRaiseIrql true new s =
        .bugcheck .IRQL_NOT_GREATER_OR_EQUAL { s with Irql := PASSIVE_LEVEL }) ∧
    (¬ s.Irql > new → KfRaiseIrql true new s = .ret s.Irql { s with Irql := new }) ∧
    (old > s.Irql →
      KfLowerIrql run true old s =
        .bugcheck .IRQL_NOT_LESS_OR_EQUAL { s with Irql := HIGH_LEVEL }) ∧
    (¬ old > s.Irql → KfLowerIrql run true old s = KfLowerIrql run false old s) ∧
    ((∀ i h m c m', run i h m ≠ .bugcheck c m') →
      ((∃ c m', KfLowerIrql run true old s = .bugcheck c m') ↔ old > s.Irql)) ∧
    (s.Irql > DISPATCH_LEVEL →
      KeRaiseIrqlToDpcLevel true s =
        .bugcheck .IRQL_NOT_GREATER_OR_EQUAL { s with Irql := DISPATCH_LEVEL }) ∧
    (¬ s.Irql > DISPATCH_LEVEL →
      KeRaiseIrqlToDpcLevel true s = .ret s.Irql { s with Irql := DISPATCH_LEVEL }) ∧
    (s.Irql > SYNCH_LEVEL →
      KeRaiseIrqlToSynchLevel SYNCH_LEVEL true s =
        .bugcheck .IRQL_NOT_GREATER_OR_EQUAL { s with Irql := SYNCH_LEVEL }) ∧
    (¬ s.Irql > SYNCH_LEVEL →
      KeRaiseIrqlToSynchLevel SYNCH_LEVEL true s = .ret s.Irql { s with Irql := SYNCH_LEVEL }) ∧
    (KfRaiseIrql false new s = .ret s.Irql { s with Irql := new } ∧
      KeRaiseIrqlToDpcLevel false s = .ret s.Irql { s with Irql := DISPATCH_LEVEL } ∧
      KeRaiseIrqlToSynchLevel SYNCH_LEVEL false s =
        .ret s.Irql { s with Irql := SYNCH_LEVEL }) := by
  have hlow1 : old > s.Irql →
      KfLowerIrql run true old s =
        .bugcheck .IRQL_NOT_LESS_OR_EQUAL { s with Irql := HIGH_LEVEL } := by
    intro h
    unfold KfLowerIrql
    rw [if_pos ⟨rfl, h⟩]
  have hlow2 : ¬ old > s.Irql → KfLowerIrql run true old s = KfLowerIrql run false old s := by
    intro h
    unfold KfLowerIrql
    rw [if_neg (fun hc => h hc.2), if_neg (by simp)]
  refine ⟨?_, ?_, hlow1, hlow2, ?_, ?_, ?_, ?_, ?_, ?_, ?_, ?_⟩
  · intro h
    unfold KfRaiseIrql
    rw [if_pos ⟨rfl, h⟩]
  · intro h
    unfold KfRaiseIrql
    rw [if_neg (fun hc => h hc.2)]
  · intro hrun
    constructor
    · rintro ⟨c, m', e⟩
      by_contra hn
      rw [hlow2 hn] at e
      exact KfLowerIrql_release_no_bugcheck run hrun old s c m' e
    · intro h
      exact ⟨_, _, hlow1 h⟩
  · intro h
    unfold KeRaiseIrqlToDpcLevel
    rw [if_pos ⟨rfl, h⟩]
  · intro h
    unfold KeRaiseIrqlToDpcLevel
    rw [if_neg (fun hc => h hc.2)]
  · intro h
    unfold KeRaiseIrqlToSynchLevel
    rw [if_pos ⟨rfl, h⟩]
  · intro h
    unfold KeRaiseIrqlToSynchLevel
    rw [if_neg (fun hc => h hc.2)]
  · unfold KfRaiseIrql
    rw [if_neg (by simp)]
  · unfold KeRaiseIrqlToDpcLevel
    rw [if_neg (by simp)]
  · unfold KeRaiseIrqlToSynchLevel
    rw [if_neg (by simp)]

/-! ## Mode switching keeps the quirk selection -/

theorem HalEnableSystemInterrupt_ret_Irql (k Irql : Nat) (InterruptMode : KINTERRUPT_MODE)
    (s : Machine) (hk : k < 16) (r : Bool) (s' : Machine)
    (h : HalEnableSystemInterrupt (PRIMARY_VECTOR_BASE + k) Irql InterruptMode s = .ret r s') :
    s.Irql ≤ 31 := by
  by_contra hI
  have hnone : KiI8259MaskTable[s.Irql]? = none :=
    List.getElem?_eq_none (by
      have : KiI8259MaskTable.length = 32 := rfl
      omega)
  have hlt : ¬ k ≥ CLOCK2_LEVEL := by
    unfold CLOCK2_LEVEL
    omega
  unfold HalEnableSystemInterrupt at h
  simp only [vectorIrq_base k hk, if_neg hlt, HalpSpecialDismissLevelTable_get k hk] at h
  cases InterruptMode with
  | LevelSensitive =>
    by_cases hlen : k + 4 < s.SWInterruptHandlerTable.length ∧
        k < s.HalpSpecialDismissTable.length
    · simp only [if_true, if_pos hlen, hnone] at h
      cases h
    · simp only [if_true, if_neg hlen] at h
      cases h
  | Latched =>
    have hne : ¬ (KINTERRUPT_MODE.Latched = KINTERRUPT_MODE.LevelSensitive) := by decide
    simp only [if_neg hne, hnone] at h
    cases h

theorem edge_ne_level (k : Nat) (hk : k < 16) :
    HalpSpecialDismissTable[k]? ≠ HalpSpecialDismissLevelTable[k]? := by
  have h : ∀ k, k < 16 → HalpSpecialDismissTable[k]? ≠ HalpSpecialDismissLevelTable[k]? := by
    decide
  exact h k hk

theorem HalEnableSystemInterrupt_coherent (k Irql : Nat) (InterruptMode : KINTERRUPT_MODE)
    (s : Machine) (hk : k < 16) (r : Bool) (s' : Machine) (hc : TablesCoherent s)
    (h : HalEnableSystemInterrupt (PRIMARY_VECTOR_BASE + k) Irql InterruptMode s = .ret r s') :
    TablesCoherent s' ∧ ∀ j, j < 16 → LevelSlot s j → LevelSlot s' j := by
  have hI := HalEnableSystemInterrupt_ret_Irql k Irql InterruptMode s hk r s' h
  rw [HalEnableSystemInterrupt_eq k Irql InterruptMode s hk hI hc.1 hc.2.1] at h
  cases h
  cases InterruptMode with
  | Latched =>
    have hne : ¬ (KINTERRUPT_MODE.Latched = KINTERRUPT_MODE.LevelSensitive) := by decide
    simp only [if_neg hne]
    exact ⟨hc, fun j _ hj => hj⟩
  | LevelSensitive =>
    simp only [if_true]
    have hD : ∀ j, (s.HalpSpecialDismissTable.set k
        (HalpSpecialDismissLevelTable.getD k .HalpDismissIrqLevel))[j]? =
        if k = j then HalpSpecialDismissLevelTable[k]? else s.HalpSpecialDismissTable[j]? := by
      intro j
      rw [List.getElem?_set]
      by_cases e : k = j
      · rw [if_pos e, if_pos e, if_pos (by rw [hc.1]; exact hk),
          HalpSpecialDismissLevelTable_get k hk]
      · rw [if_neg e, if_neg e]
    have hS : ∀ j, (s.SWInterruptHandlerTable.set (k + 4) .HalpHardwareInterruptLevel)[j]? =
        if k + 4 = j then some .HalpHardwareInterruptLevel
        else s.SWInterruptHandlerTable[j]? := by
      intro j
      rw [List.getElem?_set]
      by_cases e : k + 4 = j
      · rw [if_pos e, if_pos e, if_pos (by rw [hc.2.1]; omega)]
      · rw [if_neg e, if_neg e]
    refine ⟨⟨?_, ?_, ?_⟩, ?_⟩
    · show (s.HalpSpecialDismissTable.set k _).length = 16
      rw [List.length_set]
      exact hc.1
    · show (s.SWInterruptHandlerTable.set (k + 4) _).length = 20
      rw [List.length_set]
      exact hc.2.1
    · intro j hj
      by_cases e : k = j
      · subst e
        refine Or.inr ⟨?_, ?_⟩
        · show (s.HalpSpecialDismissTable.set k _)[k]? = _
          rw [hD k, if_pos rfl]
        · show (s.SWInterruptHandlerTable.set (k + 4) _)[k + 4]? = _
          rw [hS (k + 4), if_pos rfl]
      · have e4 : ¬ (k + 4 = j + 4) := by omega
        rcases hc.2.2 j hj with ⟨h1, h2⟩ | ⟨h1, h2⟩
        · refine Or.inl ⟨?_, ?_⟩
          · show (s.HalpSpecialDismissTable.set k _)[j]? = _
            rw [hD j, if_neg e]
            exact h1
          · show (s.SWInterruptHandlerTable.set (k + 4) _)[j + 4]? = _
            rw [hS (j + 4), if_neg e4]
            exact h2
        · refine Or.inr ⟨?_, ?_⟩
          · show (s.HalpSpecialDismissTable.set k _)[j]? = _
            rw [hD j, if_neg e]
            exact h1
          · show (s.SWInterruptHandlerTable.set (k + 4) _)[j + 4]? = _
            rw [hS (j + 4), if_neg e4]
            exact h2
    · intro j hj hl
      refine ⟨?_, ?_⟩
      · show (s.HalpSpecialDismissTable.set k _)[j]? = _
        rw [hD j]
        by_cases e : k = j
        · rw [if_pos e, e]
        · rw [if_neg e]
          exact hl.1
      · show (s.SWInterruptHandlerTable.set (k + 4) _)[j + 4]? = _
        rw [hS (j + 4)]
        by_cases e : k + 4 = j + 4
        · rw [if_pos e]
        · rw [if_neg e]
          exact hl.2

theorem TablesCoherent_of_tables (s m : Machine)
    (h1 : m.HalpSpecialDismissTable = s.HalpSpecialDismissTable)
    (h2 : m.SWInterruptHandlerTable = s.SWInterruptHandlerTable) :
    (TablesCoherent s → TablesCoherent m) ∧ ∀ j, LevelSlot s j → LevelSlot m j := by
  unfold TablesCoherent EdgeSlot LevelSlot
  rw [h1, h2]
  exact ⟨fun h => h, fun _ h => h⟩

theorem length_eq_of_lookups {α : Type} (l : List α) (n : Nat) (h1 : l[n + 1]? = none)
    (h2 : l[n]? ≠ none) : l.length = n + 1 := by
  rw [List.getElem?_eq_none_iff] at h1
  rw [ne_eq, List.getElem?_eq_none_iff] at h2
  omega

theorem scan_coherent (s : Machine) (hc : TablesCoherent s) :
    ∃ s2, HalpInitializePICs.scan 17 1 0 s = .ret () s2 ∧ TablesCoherent s2 ∧
      ∀ j, j < 16 → LevelSlot s j → LevelSlot s2 j := by
  obtain ⟨s2, h1, _, h3, h4⟩ := HalpInitializePICs_scan_spec 16 0 s (by omega) hc.1 hc.2.1
  have hD : ∀ k, k < 16 → s2.HalpSpecialDismissTable[k]? =
      (if s.HalpEisaELCR.testBit k = true then HalpSpecialDismissLevelTable[k]?
       else s.HalpSpecialDismissTable[k]?) := by
    intro k hk
    rw [h3 k]
    by_cases hb : s.HalpEisaELCR.testBit k = true
    · rw [if_pos ⟨Nat.zero_le _, hk, hb⟩, if_pos hb]
    · have : ¬ (0 ≤ k ∧ k < 16 ∧ s.HalpEisaELCR.testBit k = true) := fun h => hb h.2.2
      rw [if_neg this, if_neg hb]
  have hS : ∀ k, k < 16 → s2.SWInterruptHandlerTable[k + 4]? =
      (if s.HalpEisaELCR.testBit k = true then some .HalpHardwareInterruptLevel
       else s.SWInterruptHandlerTable[k + 4]?) := by
    intro k hk
    rw [h4 (k + 4)]
    have e : k + 4 - 4 = k := by omega
    rw [e]
    by_cases hb : s.HalpEisaELCR.testBit k = true
    · rw [if_pos ⟨by omega, by omega, hb⟩, if_pos hb]
    · have : ¬ (0 + 4 ≤ k + 4 ∧ k + 4 < 20 ∧ s.HalpEisaELCR.testBit k = true) :=
        fun h => hb h.2.2
      rw [if_neg this, if_neg hb]
  have hlenD : s2.HalpSpecialDismissTable.length = 16 := by
    apply length_eq_of_lookups _ 15
    · rw [h3 16, if_neg (by omega)]
      exact List.getElem?_eq_none (by rw [hc.1])
    · rw [hD 15 (by decide)]
      split
      · rw [HalpSpecialDismissLevelTable_get 15 (by decide)]
        exact Option.some_ne_none _
      · rw [List.getElem?_eq_getElem (by rw [hc.1]; decide)]
        exact Option.some_ne_none _
  have hlenS : s2.SWInterruptHandlerTable.length = 20 := by
    apply length_eq_of_lookups _ 19
    · rw [h4 20, if_neg (by omega)]
      exact List.getElem?_eq_none (by rw [hc.2.1])
    · rw [hS 15 (by decide)]
      split
      · exact Option.some_ne_none _
      · rw [List.getElem?_eq_getElem (by rw [hc.2.1]; decide)]
        exact Option.some_ne_none _
  refine ⟨s2, h1, ⟨hlenD, hlenS, ?_⟩, ?_⟩
  · intro k hk
    by_cases hb : s.HalpEisaELCR.testBit k = true
    · refine Or.inr ⟨?_, ?_⟩
      · rw [hD k hk, if_pos hb]
      · rw [hS k hk, if_pos hb]
    · rcases hc.2.2 k hk with ⟨e1, e2⟩ | ⟨e1, e2⟩
      · refine Or.inl ⟨?_, ?_⟩
        · rw [hD k hk, if_neg hb]
          exact e1
        · rw [hS k hk, if_neg hb]
          exact e2
      · refine Or.inr ⟨?_, ?_⟩
        · rw [hD k hk, if_neg hb]
          exact e1
        · rw [hS k hk, if_neg hb]
          exact e2
  · intro k hk hl
    refine ⟨?_, ?_⟩
    · rw [hD k hk]
      split
      · rfl
      · exact hl.1
    · rw [hS k hk]
      split
      · rfl
      · exact hl.2

theorem HalpInitializePICs_coherent (HalpInitializeLegacyPICs : Machine → Machine)
    (HalpRegisterVector : Nat → Nat → Nat → Machine → Machine)
    (hL : ∀ m, (HalpInitializeLegacyPICs m).HalpSpecialDismissTable = m.HalpSpecialDismissTable ∧
      (HalpInitializeLegacyPICs m).SWInterruptHandlerTable = m.SWInterruptHandlerTable)
    (hR : ∀ a b c m,
      (HalpRegisterVector a b c m).HalpSpecialDismissTable = m.HalpSpecialDismissTable ∧
      (HalpRegisterVector a b c m).SWInterruptHandlerTable = m.SWInterruptHandlerTable)
    (EnableInterrupts : Bool) (s s' : Machine) (hc : TablesCoherent s)
    (h : HalpInitializePICs HalpInitializeLegacyPICs HalpRegisterVector EnableInterrupts s =
      .ret () s') :
    TablesCoherent s' ∧ ∀ j, j < 16 → LevelSlot s j → LevelSlot s' j := by
  unfold HalpInitializePICs at h
  obtain ⟨hL1, hL2⟩ := hL { s with IF := false }
  generalize HalpInitializeLegacyPICs { s with IF := false } = s1 at h hL1 hL2
  have t1 := TablesCoherent_of_tables s
    (inbyte EISA_ELCR_MASTER (inbyte EISA_ELCR_SLAVE s1).2).2 hL1 hL2
  dsimp only at h
  obtain ⟨_, s2, e1, e2⟩ := Outcome_andThen_eq_ret _ _ _ _ h
  cases e2
  obtain ⟨hR1, hR2⟩ := hR (PRIMARY_VECTOR_BASE + 2) (PRIMARY_VECTOR_BASE + 2) HIGH_LEVEL s2
  have t3 := TablesCoherent_of_tables s2
    { HalpRegisterVector (PRIMARY_VECTOR_BASE + 2) (PRIMARY_VECTOR_BASE + 2) HIGH_LEVEL s2 with
      IF := (EnableInterrupts || s.IF) } hR1 hR2
  split at e1
  · have t2 := TablesCoherent_of_tables
      (inbyte EISA_ELCR_MASTER (inbyte EISA_ELCR_SLAVE s1).2).2
      { (inbyte EISA_ELCR_MASTER (inbyte EISA_ELCR_SLAVE s1).2).2 with
        HalpEisaELCR := (inbyte EISA_ELCR_SLAVE s1).1 <<< 8 |||
          (inbyte EISA_ELCR_MASTER (inbyte EISA_ELCR_SLAVE s1).2).1 } rfl rfl
    obtain ⟨s3, q1, q2, q3⟩ := scan_coherent _ (t2.1 (t1.1 hc))
    rw [q1] at e1
    cases e1
    exact ⟨t3.1 q2, fun j hj hl => t3.2 j (q3 j hj (t2.2 j (t1.2 j hl)))⟩
  · cases e1
    exact ⟨t3.1 (t1.1 hc), fun j _ hl => t3.2 j (t1.2 j hl)⟩

theorem execTableOps_coherent (HalpInitializeLegacyPICs : Machine → Machine)
    (HalpRegisterVector : Nat → Nat → Nat → Machine → Machine)
    (hL : ∀ m, (HalpInitializeLegacyPICs m).HalpSpecialDismissTable = m.HalpSpecialDismissTable ∧
      (HalpInitializeLegacyPICs m).SWInterruptHandlerTable = m.SWInterruptHandlerTable)
    (hR : ∀ a b c m,
      (HalpRegisterVector a b c m).HalpSpecialDismissTable = m.HalpSpecialDismissTable ∧
      (HalpRegisterVector a b c m).SWInterruptHandlerTable = m.SWInterruptHandlerTable)
    (ops : List TableOp)
    (hops : ∀ V I M, TableOp.enableSystemInterrupt V I M ∈ ops →
      ∃ k, k < 16 ∧ V = PRIMARY_VECTOR_BASE + k)
    (s s' : Machine) (hc : TablesCoherent s)
    (h : execTableOps HalpInitializeLegacyPICs HalpRegisterVector ops s = .ret () s') :
    TablesCoherent s' ∧ ∀ j, j < 16 → LevelSlot s j → LevelSlot s' j := by
  induction ops generalizing s with
  | nil =>
    unfold execTableOps at h
    cases h
    exact ⟨hc, fun _ _ hl => hl⟩
  | cons op ops ih =>
    unfold execTableOps at h
    obtain ⟨_, m1, h1, h2⟩ := Outcome_andThen_eq_ret _ _ _ _ h
    have hstep : TablesCoherent m1 ∧ ∀ j, j < 16 → LevelSlot s j → LevelSlot m1 j := by
      cases op with
      | initializePICs E =>
        exact HalpInitializePICs_coherent _ _ hL hR E s m1 hc h1
      | enableSystemInterrupt V I M =>
        obtain ⟨k, hk, rfl⟩ := hops V I M (List.mem_cons_self _ _)
        have h1' : (HalEnableSystemInterrupt (PRIMARY_VECTOR_BASE + k) I M s).andThen
            (fun _ m => Outcome.ret () m) = .ret () m1 := h1
        obtain ⟨r, m2, e1, e2⟩ := Outcome_andThen_eq_ret _ _ _ _ h1'
        cases e2
        exact HalEnableSystemInterrupt_coherent k I M s hk r _ hc e1
    have hrest := ih (fun V I M hm => hops V I M (List.mem_cons_of_mem _ hm)) m1 hstep.1 h2
    exact ⟨hrest.1, fun j hj hl => hrest.2 j hj (hstep.2 j hj hl)⟩

theorem initial_tables_coherent (s : Machine)
    (hs : s.HalpSpecialDismissTable = HalpSpecialDismissTable ∧
      s.SWInterruptHandlerTable = SWInterruptHandlerTable) :
    TablesCoherent s := by
  unfold TablesCoherent EdgeSlot LevelSlot
  rw [hs.1, hs.2]
  refine ⟨rfl, rfl, ?_⟩
  intro k hk
  have h : ∀ k, k < 16 → SWInterruptHandlerTable[k + 4]? = some (.HalpHardwareInterrupt k) := by
    decide
  exact Or.inl ⟨rfl, h k hk⟩

/-- C26 (mode switching keeps the quirk selection): in every state reached from the initial
tables by HalpInitializePICs and by HalEnableSystemInterrupt on the vectors of IRQs 0..15, in
any mode, for every k in 0..15 slot k of the dismiss table holds either its initial edge
routine or the level routine of the same kind (IR7 for 7, IR13 for 13, IR15 for 15, generic
otherwise); slot k + 4 of the handler table is the level replay entry if and only if the
dismiss slot holds the level routine, and is the trampoline of IRQ k otherwise; and a slot
that is level stays level under every further sequence of these operations.  The external
routines HalpInitializeLegacyPICs and HalpRegisterVector are assumed to leave the two tables
alone. -/
theorem mode_switch_keeps_quirk (HalpInitializeLegacyPICs : Machine → Machine)
    (HalpRegisterVector : Nat → Nat → Nat → Machine → Machine)
    (hL : ∀ m, (HalpInitializeLegacyPICs m).HalpSpecialDismissTable = m.HalpSpecialDismissTable ∧
      (HalpInitializeLegacyPICs m).SWInterruptHandlerTable = m.SWInterruptHandlerTable)
    (hR : ∀ a b c m,
      (HalpRegisterVector a b c m).HalpSpecialDismissTable = m.HalpSpecialDismissTable ∧
      (HalpRegisterVector a b c m).SWInterruptHandlerTable = m.SWInterruptHandlerTable)
    (ops : List TableOp)
    (hops : ∀ V I M, TableOp.enableSystemInterrupt V I M ∈ ops →
      ∃ k, k < 16 ∧ V = PRIMARY_VECTOR_BASE + k)
    (s s' : Machine)
    (hs : s.HalpSpecialDismissTable = HalpSpecialDismissTable ∧
      s.SWInterruptHandlerTable = SWInterruptHandlerTable)
    (h : execTableOps HalpInitializeLegacyPICs HalpRegisterVector ops s = .ret () s') :
    (∀ k, k < 16 →
      (s'.HalpSpecialDismissTable[k]? = HalpSpecialDismissTable[k]? ∨
        s'.HalpSpecialDismissTable[k]? = HalpSpecialDismissLevelTable[k]?) ∧
      (s'.SWInterruptHandlerTable[k + 4]? = some .HalpHardwareInterruptLevel ↔
        s'.HalpSpecialDismissTable[k]? = HalpSpecialDismissLevelTable[k]?) ∧
      (s'.SWInterruptHandlerTable[k + 4]? ≠ some .HalpHardwareInterruptLevel →
        s'.SWInterruptHandlerTable[k + 4]? = some (.HalpHardwareInterrupt k)) ∧
      (∀ ops2 s2,
        (∀ V I M, TableOp.enableSystemInterrupt V I M ∈ ops2 →
          ∃ j, j < 16 ∧ V = PRIMARY_VECTOR_BASE + j) →
        execTableOps HalpInitializeLegacyPICs HalpRegisterVector ops2 s' = .ret () s2 →
        s'.SWInterruptHandlerTable[k + 4]? = some .HalpHardwareInterruptLevel →
        s2.SWInterruptHandlerTable[k + 4]? = some .HalpHardwareInterruptLevel ∧
          s2.HalpSpecialDismissTable[k]? = HalpSpecialDismissLevelTable[k]?)) ∧
    (∀ k, k < 16 →
      HalpSpecialDismissTable[k]? =
        some (if k = 7 then .HalpDismissIrq07 else if k = 13 then .HalpDismissIrq13
          else if k = 15 then .HalpDismissIrq15 else .HalpDismissIrqGeneric) ∧
      HalpSpecialDismissLevelTable[k]? =
        some (if k = 7 then .HalpDismissIrq07Level else if k = 13 then .HalpDismissIrq13Level
          else if k = 15 then .HalpDismissIrq15Level else .HalpDismissIrqLevel)) := by
  have hc := execTableOps_coherent _ _ hL hR ops hops s s' (initial_tables_coherent s hs) h
  refine ⟨?_, by decide⟩
  intro k hk
  have hne := edge_ne_level k hk
  have hslot := hc.1.2.2 k hk
  refine ⟨?_, ?_, ?_, ?_⟩
  · rcases hslot with ⟨e1, _⟩ | ⟨e1, _⟩
    · exact Or.inl e1
    · exact Or.inr e1
  · rcases hslot with ⟨e1, e2⟩ | ⟨e1, e2⟩
    · constructor
      · intro hl
        rw [e2] at hl
        cases hl
      · intro hl
        rw [e1] at hl
        exact absurd hl hne
    · exact ⟨fun _ => e1, fun _ => e2⟩
  · intro hn
    rcases hslot with ⟨_, e2⟩ | ⟨_, e2⟩
    · exact e2
    · exact absurd e2 hn
  · intro ops2 s2 hops2 h2 hl
    have hl' : LevelSlot s' k := by
      rcases hslot with ⟨_, e2⟩ | hh
      · rw [e2] at hl
        cases hl
      · exact hh
    have hc2 := execTableOps_coherent _ _ hL hR ops2 hops2 s' s2 hc.1 h2
    have := hc2.2 k hk hl'
    exact ⟨this.2, this.1⟩

/-- C26, instance: from the boot tables with IRQ 11 marked level in the ELCR, initialisation
followed by enabling IRQ 7 as level and then IRQ 7 and IRQ 5 as latched leaves slots 11 and 7
level, with the IR7 level routine in slot 7, and slot 5 edge. -/
theorem mode_switch_keeps_quirk_witness :
    ∃ s', execTableOps (fun m => m) (fun _ _ _ m => m)
        [.initializePICs false,
         .enableSystemInterrupt (PRIMARY_VECTOR_BASE + 7) 20 .LevelSensitive,
         .enableSystemInterrupt (PRIMARY_VECTOR_BASE + 7) 20 .Latched,
         .enableSystemInterrupt (PRIMARY_VECTOR_BASE + 5) 22 .Latched]
        { bootMachine with elcrSlave := 0x08 } = .ret () s' ∧
      s'.HalpSpecialDismissTable[7]? = some .HalpDismissIrq07Level ∧
      s'.SWInterruptHandlerTable[7 + 4]? = some .HalpHardwareInterruptLevel ∧
      s'.SWInterruptHandlerTable[11 + 4]? = some .HalpHardwareInterruptLevel ∧
      (s'.SWInterruptHandlerTable[5 + 4]? ≠ some .HalpHardwareInterruptLevel →
        s'.SWInterruptHandlerTable[5 + 4]? = some (.HalpHardwareInterrupt 5)) := by
  have hops : ∀ V I M, TableOp.enableSystemInterrupt V I M ∈
      [TableOp.initializePICs false,
       .enableSystemInterrupt (PRIMARY_VECTOR_BASE + 7) 20 .LevelSensitive,
       .enableSystemInterrupt (PRIMARY_VECTOR_BASE + 7) 20 .Latched,
       .enableSystemInterrupt (PRIMARY_VECTOR_BASE + 5) 22 .Latched] →
      ∃ k, k < 16 ∧ V = PRIMARY_VECTOR_BASE + k := by
    intro V I M hm
    simp only [List.mem_cons, List.mem_singleton, TableOp.enableSystemInterrupt.injEq,
      List.not_mem_nil, or_false, false_or, reduceCtorEq] at hm
    rcases hm with ⟨e, _, _⟩ | ⟨e, _, _⟩ | ⟨e, _, _⟩
    · exact ⟨7, by decide, e⟩
    · exact ⟨7, by decide, e⟩
    · exact ⟨5, by decide, e⟩
  have h := mode_switch_keeps_quirk (fun m => m) (fun _ _ _ m => m) (fun _ => ⟨rfl, rfl⟩)
    (fun _ _ _ _ => ⟨rfl, rfl⟩) _ hops { bootMachine with elcrSlave := 0x08 } _ ⟨rfl, rfl⟩ rfl
  exact ⟨_, rfl, by decide, by decide, by decide, (h.1 5 (by decide)).2.2.1⟩

/-! ## Level replay entry: one slot per call -/

/-- C27, counterexample: with only the DISPATCH bit pending at IRQL 0 and no replay active,
HalpHardwareInterruptLevel clears IRR bit 2 and invokes slot 2 of the handler table, a
software slot (with an environment that cannot run slot 2 the call is undefined). -/
theorem level_entry_dispatches_software_slot :
    ¬ (DISPATCH_LEVEL > DISPATCH_LEVEL) ∧
    bootMachine.SWInterruptHandlerTable[DISPATCH_LEVEL]? = some .HalpDispatchInterrupt2 ∧
    HalpHardwareInterruptLevel idleInvoke { bootMachine with IRR := 1 <<< DISPATCH_LEVEL } =
      .ret () { bootMachine with IRR := 0 } ∧
    HalpHardwareInterruptLevel (fun i _ m => if i = DISPATCH_LEVEL then .undefined else .ret () m)
      { bootMachine with IRR := 1 <<< DISPATCH_LEVEL } = .undefined := by
  decide

/-- C27, amended: the level replay entry pops at most one slot, hardware or software.  With
nothing pending and allowed at the current IRQL, or with IrrActive & 0xFFFFFFF0 != 0, it
returns the state unchanged and invokes nothing.  Otherwise it is one call of the handler in
slot top, the highest pending allowed IRR bit, from the state in which exactly that bit of
IRR has been cleared; no test of top > DISPATCH_LEVEL is made. -/
theorem level_entry_pops_one_slot (run : Invoke) (s : Machine) (hI : s.Irql ≤ 31) :
    ∀ pending top, pending = s.IRR &&& FindHigherIrqlMask.getD s.Irql 0 →
      top = BitScanReverse pending →
      (pending = 0 ∨ s.IrrActive &&& 0xFFFFFFF0 ≠ 0 →
        HalpHardwareInterruptLevel run s = .ret () s) ∧
      (pending ≠ 0 → s.IrrActive &&& 0xFFFFFFF0 = 0 →
        HalpHardwareInterruptLevel run s =
          callSW run top { s with IRR := s.IRR ^^^ (1 <<< top) } ∧
        s.IRR.testBit top = true ∧ (s.IRR ^^^ (1 <<< top)).testBit top = false ∧
        (∀ j, j ≠ top → (s.IRR ^^^ (1 <<< top)).testBit j = s.IRR.testBit j) ∧
        (∀ j, pending.testBit j = true → j ≤ top)) := by
  intro pending top hp ht
  subst hp
  subst ht
  refine ⟨?_, ?_⟩
  · intro h
    unfold HalpHardwareInterruptLevel
    simp only [FindHigherIrqlMask_get s.Irql hI]
    rcases h with h | h
    · rw [if_neg (not_not.mpr h)]
    · by_cases hp : s.IRR &&& FindHigherIrqlMask.getD s.Irql 0 ≠ 0
      · rw [if_pos hp, if_pos h]
      · rw [if_neg hp]
  · intro hp hg
    obtain ⟨hb, _, hmax⟩ := BitScanReverse_spec _ hp (pending_lt _ _)
    refine ⟨?_, ?_, ?_, ?_, ?_⟩
    · unfold HalpHardwareInterruptLevel
      simp only [FindHigherIrqlMask_get s.Irql hI]
      rw [if_pos hp, if_neg (not_not.mpr hg)]
    · rw [Nat.testBit_and, Bool.and_eq_true] at hb
      exact hb.1
    · rw [Nat.testBit_and, Bool.and_eq_true] at hb
      rw [testBit_xor_bit, hb.1]
      simp
    · intro j hj
      rw [testBit_xor_bit]
      have : decide (BitScanReverse (s.IRR &&& FindHigherIrqlMask.getD s.Irql 0) = j) = false :=
        decide_eq_false (fun e => hj e.symm)
      rw [this]
      simp
    · intro j hj
      by_contra hlt
      have := hmax j (by omega)
      rw [this] at hj
      cases hj

/-- C27, instance: the boot machine with IRQ 5 and a DPC pending; the entry replays slot 9. -/
theorem level_entry_pops_one_slot_witness :
    ({ bootMachine with IRR := 0x204 } : Machine).Irql ≤ 31 ∧
    HalpHardwareInterruptLevel idleInvoke { bootMachine with IRR := 0x204 } =
      callSW idleInvoke 9 { bootMachine with IRR := 0x204 ^^^ (1 <<< 9) } :=
  ⟨by decide,
   ((level_entry_pops_one_slot idleInvoke { bootMachine with IRR := 0x204 } (by decide)
      (0x204 &&& FindHigherIrqlMask.getD 0 0) 9 (by rfl) (by decide)).2
        (by decide) (by decide)).1⟩

/-! ## IrrActive bracketing -/

theorem writePicMask_IRR (M : Nat) (s : Machine) : (writePicMask M s).IRR = s.IRR :=
  (writePicMask_same M s).2.1

theorem outbyte_picMask_of_ne (p d : Nat) (s : Machine) (h1 : p ≠ PIC1_DATA_PORT)
    (h2 : p ≠ PIC2_DATA_PORT) : (outbyte p d s).picMask = s.picMask := by
  unfold outbyte
  rw [if_neg h1, if_neg h2]
  rfl

theorem sendEoi_picMask (k : Nat) (s : Machine) : (sendEoi k s).picMask = s.picMask := by
  unfold sendEoi
  split
  · rw [outbyte_picMask_of_ne _ _ _ (by decide) (by decide),
      outbyte_picMask_of_ne _ _ _ (by decide) (by decide)]
  · rw [outbyte_picMask_of_ne _ _ _ (by decide) (by decide)]

theorem DisabledMasked_of_fields (s s' : Machine) (h1 : s'.picMask = s.picMask)
    (h2 : s'.IDR = s.IDR) (h : DisabledMasked s) : DisabledMasked s' := by
  intro j hj hb
  rw [h1]
  rw [h2] at hb
  exact h j hj hb

theorem DisabledMasked_writePicMask (M : Nat) (s : Machine) (hM : M < 65536)
    (h : ∀ j, j < 16 → s.IDR.testBit j = true → M.testBit j = true) :
    DisabledMasked (writePicMask M s) := by
  intro j hj hb
  rw [picMask_writePicMask M hM]
  rw [writePicMask_IDR] at hb
  exact h j hj hb

theorem DisabledMasked_table_mask (m : Nat) (s : Machine) :
    DisabledMasked (writePicMask ((m ||| s.IDR) &&& 0xFFFF) s) := by
  refine DisabledMasked_writePicMask _ _ (and_ffff_lt _) ?_
  intro j hj hb
  rw [testBit_and_ffff _ j hj, Nat.testBit_or, hb]
  simp

theorem DisabledMasked_idr_mask (s : Machine) :
    DisabledMasked (writePicMask (s.IDR &&& 0xFFFF) s) := by
  refine DisabledMasked_writePicMask _ _ (and_ffff_lt _) ?_
  intro j hj hb
  rw [testBit_and_ffff _ j hj, hb]

theorem DisabledMasked_outbyte_ctl (p d : Nat) (s : Machine) (h1 : p ≠ PIC1_DATA_PORT)
    (h2 : p ≠ PIC2_DATA_PORT) (hc : DisabledMasked s) : DisabledMasked (outbyte p d s) :=
  DisabledMasked_of_fields s _ (outbyte_picMask_of_ne _ _ _ h1 h2) (outbyte_IDR _ _ _) hc

theorem DisabledMasked_inbyte (p : Nat) (s : Machine) (hc : DisabledMasked s) :
    DisabledMasked (inbyte p s).2 :=
  DisabledMasked_of_fields s _ rfl rfl hc

theorem dismissGeneric_disabled (T Irq : Nat) (s : Machine) (v : Bool × Option Nat)
    (s' : Machine) (h : _HalpDismissIrqGeneric T Irq s = .ret v s') (hc : DisabledMasked s) :
    DisabledMasked s' := by
  unfold _HalpDismissIrqGeneric at h
  dsimp only at h
  split at h
  · cases h
    exact DisabledMasked_of_fields s _ (sendEoi_picMask _ _)
      (by simp only [sendEoi_IDR]) hc
  · split at h
    · cases h
    · split at h
      · cases h
      · rename_i mask hm
        cases h
        exact DisabledMasked_table_mask mask { s with IRR := s.IRR ||| (1 <<< (Irq + 4)) }

theorem dismissLevel_disabled (T Irq : Nat) (s : Machine) (v : Bool × Option Nat)
    (s' : Machine) (h : _HalpDismissIrqLevel T Irq s = .ret v s') :
    DisabledMasked s' := by
  unfold _HalpDismissIrqLevel at h
  split at h
  · cases h
  · rename_i mask hm
    have hw : DisabledMasked (writePicMask ((mask ||| s.IDR) &&& 0xFFFF) s) :=
      DisabledMasked_table_mask mask s
    dsimp only at h
    split at h
    · cases h
    · split at h
      · cases h
        exact DisabledMasked_of_fields _ _ (sendEoi_picMask _ _)
          (by simp only [sendEoi_IDR]) hw
      · cases h
        exact DisabledMasked_of_fields _ _ (sendEoi_picMask _ _)
          (by simp only [sendEoi_IDR]) hw

theorem callDismiss_disabled (d : HalDismiss) (T Irq : Nat) (s : Machine)
    (v : Bool × Option Nat) (s' : Machine) (h : callDismiss d T Irq s = .ret v s')
    (hc : DisabledMasked s) : DisabledMasked s' := by
  cases d <;> unfold callDismiss at h <;> dsimp only at h
  · exact dismissGeneric_disabled _ _ _ _ _ h hc
  · unfold HalpDismissIrq07 at h
    dsimp only at h
    split at h
    · cases h
      exact DisabledMasked_inbyte _ _
        (DisabledMasked_outbyte_ctl _ _ _ (by decide) (by decide) hc)
    · exact dismissGeneric_disabled _ _ _ _ _ h
        (DisabledMasked_inbyte _ _
          (DisabledMasked_outbyte_ctl _ _ _ (by decide) (by decide) hc))
  · unfold HalpDismissIrq13 at h
    exact dismissGeneric_disabled _ _ _ _ _ h
      (DisabledMasked_outbyte_ctl _ _ _ (by decide) (by decide) hc)
  · unfold HalpDismissIrq15 at h
    dsimp only at h
    split at h
    · cases h
      exact DisabledMasked_outbyte_ctl _ _ _ (by decide) (by decide)
        (DisabledMasked_inbyte _ _
          (DisabledMasked_outbyte_ctl _ _ _ (by decide) (by decide) hc))
    · exact dismissGeneric_disabled _ _ _ _ _ h
        (DisabledMasked_inbyte _ _
          (DisabledMasked_outbyte_ctl _ _ _ (by decide) (by decide) hc))
  · exact dismissLevel_disabled _ _ _ _ _ h
  · unfold HalpDismissIrq07Level at h
    dsimp only at h
    split at h
    · cases h
      exact DisabledMasked_inbyte _ _
        (DisabledMasked_outbyte_ctl _ _ _ (by decide) (by decide) hc)
    · exact dismissLevel_disabled _ _ _ _ _ h
  · unfold HalpDismissIrq13Level at h
    exact dismissLevel_disabled _ _ _ _ _ h
  · unfold HalpDismissIrq15Level at h
    dsimp only at h
    split at h
    · cases h
      exact DisabledMasked_outbyte_ctl _ _ _ (by decide) (by decide)
        (DisabledMasked_inbyte _ _
          (DisabledMasked_outbyte_ctl _ _ _ (by decide) (by decide) hc))
    · exact dismissLevel_disabled _ _ _ _ _ h

theorem HalBeginSystemInterrupt_disabled (T Vector : Nat) (s : Machine)
    (v : Bool × Option Nat) (s' : Machine) (h : HalBeginSystemInterrupt T Vector s = .ret v s')
    (hc : DisabledMasked s) : DisabledMasked s' := by
  unfold HalBeginSystemInterrupt at h
  dsimp only at h
  split at h
  · cases h
  · exact callDismiss_disabled _ _ _ _ _ _ h hc

theorem callSW_disabled (run : Invoke)
    (hrun : ∀ i h m m', run i h m = .ret () m' → DisabledMasked m → DisabledMasked m')
    (i : Nat) (s : Machine) (a : Unit) (m : Machine) (h : callSW run i s = .ret a m)
    (hc : DisabledMasked s) : DisabledMasked m := by
  unfold callSW at h
  split at h
  · cases h
  · exact hrun _ _ _ _ h hc

theorem KfLowerIrql_disabled (run : Invoke)
    (hrun : ∀ i h m m', run i h m = .ret () m' → DisabledMasked m → DisabledMasked m')
    (dbg : Bool) (old : Nat) (s s' : Machine) (h : KfLowerIrql run dbg old s = .ret () s')
    (hc : DisabledMasked s) : DisabledMasked s' := by
  unfold KfLowerIrql at h
  split at h
  · cases h
  · split at h
    · cases h
    · dsimp only at h
      split at h
      · obtain ⟨a, m1, hcall, hrest⟩ := Outcome_andThen_eq_ret _ _ _ _ h
        cases hrest
        refine DisabledMasked_of_fields m1 _ rfl rfl (callSW_disabled run hrun _ _ _ _ hcall ?_)
        split
        · exact DisabledMasked_of_fields (writePicMask (s.IDR &&& 0xFFFF)
            { s with IF := false, Irql := old }) _ rfl rfl
            (DisabledMasked_idr_mask { s with IF := false, Irql := old })
        · exact DisabledMasked_of_fields s _ rfl rfl hc
      · cases h
        exact DisabledMasked_of_fields s _ rfl rfl hc

theorem HalRequestSoftwareInterrupt_disabled (run : Invoke)
    (hrun : ∀ i h m m', run i h m = .ret () m' → DisabledMasked m → DisabledMasked m')
    (Irql : Nat) (s s' : Machine) (h : HalRequestSoftwareInterrupt run Irql s = .ret () s')
    (hc : DisabledMasked s) : DisabledMasked s' := by
  unfold HalRequestSoftwareInterrupt at h
  split at h
  · cases h
  · dsimp only at h
    split at h
    · cases h
    · split at h
      · obtain ⟨a, m1, hcall, hrest⟩ := Outcome_andThen_eq_ret _ _ _ _ h
        cases hrest
        exact DisabledMasked_of_fields m1 _ rfl rfl
          (callSW_disabled run hrun _ _ _ _ hcall (DisabledMasked_of_fields s _ rfl rfl hc))
      · cases h
        exact DisabledMasked_of_fields s _ rfl rfl hc

theorem HalClearSoftwareInterrupt_disabled (Irql : Nat) (s s' : Machine)
    (h : HalClearSoftwareInterrupt Irql s = .ret () s') (hc : DisabledMasked s) :
    DisabledMasked s' := by
  unfold HalClearSoftwareInterrupt at h
  split at h
  · cases h
  · cases h
    exact DisabledMasked_of_fields s _ rfl rfl hc

theorem HalEndSystemInterrupt_loop_disabled (run : Invoke)
    (hrun : ∀ i h m m', run i h m = .ret () m' → DisabledMasked m → DisabledMasked m') :
    ∀ fuel mask s r s', HalEndSystemInterrupt.loop run fuel mask s = .ret r s' →
      DisabledMasked s → DisabledMasked s' := by
  intro fuel
  induction fuel with
  | zero =>
    intro mask s r s' h
    cases h
  | succ fuel ih =>
    intro mask s r s' h hc
    unfold HalEndSystemInterrupt.loop at h
    dsimp only at h
    have hw : DisabledMasked (writePicMask (s.IDR &&& 0xFFFF) s) := DisabledMasked_idr_mask s
    split at h
    · split at h
      · cases h
        exact hw
      · obtain ⟨a, m1, hcall, hrest⟩ := Outcome_andThen_eq_ret _ _ _ _ h
        have hm1 := callSW_disabled run hrun _ _ _ _ hcall
          (DisabledMasked_of_fields (writePicMask (s.IDR &&& 0xFFFF) s) _ rfl rfl hw)
        split at hrest
        · cases hrest
        · split at hrest
          · cases hrest
            exact DisabledMasked_of_fields m1 _ rfl rfl hm1
          · exact ih _ _ _ _ hrest (DisabledMasked_of_fields m1 _ rfl rfl hm1)
    · split at h
      · cases h
      · cases h
        exact hc

theorem HalEndSystemInterrupt_disabled (run : Invoke)
    (hrun : ∀ i h m m', run i h m = .ret () m' → DisabledMasked m → DisabledMasked m')
    (fuel old : Nat) (s : Machine) (r : Option SwHandler2) (s' : Machine)
    (h : HalEndSystemInterrupt run fuel old s = .ret r s') (hc : DisabledMasked s) :
    DisabledMasked s' := by
  unfold HalEndSystemInterrupt at h
  dsimp only at h
  have hs1 : DisabledMasked { s with Irql := old } := DisabledMasked_of_fields s _ rfl rfl hc
  split at h
  · cases h
  · split at h
    · split at h
      · cases h
        exact hs1
      · exact HalEndSystemInterrupt_loop_disabled run hrun _ _ _ _ _ h hs1
    · cases h
      exact hs1

theorem HalpEndSoftwareInterrupt2_loop_disabled (run : Invoke)
    (hrun : ∀ i h m m', run i h m = .ret () m' → DisabledMasked m → DisabledMasked m')
    (old : Nat) :
    ∀ fuel s r s', HalpEndSoftwareInterrupt2.loop run old fuel s = .ret r s' →
      DisabledMasked s → DisabledMasked s' := by
  intro fuel
  induction fuel with
  | zero =>
    intro s r s' h
    cases h
  | succ fuel ih =>
    intro s r s' h hc
    unfold HalpEndSoftwareInterrupt2.loop at h
    split at h
    · cases h
    · dsimp only at h
      split at h
      · cases h
        exact hc
      · split at h
        · cases h
          exact hc
        · split at h
          · obtain ⟨a, m1, hcall, hrest⟩ := Outcome_andThen_eq_ret _ _ _ _ h
            have hm1 := callSW_disabled run hrun _ _ _ _ hcall
              (DisabledMasked_of_fields (writePicMask (s.IDR &&& 0xFFFF) s) _ rfl rfl
                (DisabledMasked_idr_mask s))
            exact ih _ _ _ hrest (DisabledMasked_of_fields m1 _ rfl rfl hm1)
          · split at h
            · cases h
            · cases h
              exact hc

theorem HalpEndSoftwareInterrupt2_disabled (run : Invoke)
    (hrun : ∀ i h m m', run i h m = .ret () m' → DisabledMasked m → DisabledMasked m')
    (fuel old : Nat) (s : Machine) (r : Option SwHandler2) (s' : Machine)
    (h : HalpEndSoftwareInterrupt2 run fuel old s = .ret r s') (hc : DisabledMasked s) :
    DisabledMasked s' := by
  unfold HalpEndSoftwareInterrupt2 at h
  exact HalpEndSoftwareInterrupt2_loop_disabled run hrun old _ _ _ _ h
    (DisabledMasked_of_fields s _ rfl rfl hc)

theorem HalpDispatchInterrupt2_disabled (K : Kernel) (run : Invoke)
    (hK : ∀ m, DisabledMasked m → DisabledMasked (K.KiDispatchInterrupt m))
    (hrun : ∀ i h m m', run i h m = .ret () m' → DisabledMasked m → DisabledMasked m')
    (s s' : Machine) (h : HalpDispatchInterrupt2 K run s = .ret () s')
    (hc : DisabledMasked s) : DisabledMasked s' := by
  unfold HalpDispatchInterrupt2 at h
  dsimp only at h
  have h1 : DisabledMasked { (_HalpDispatchInterruptHandler K s).2 with
      Irql := (_HalpDispatchInterruptHandler K s).1 } := by
    unfold _HalpDispatchInterruptHandler
    exact DisabledMasked_of_fields (K.KiDispatchInterrupt _) _ rfl rfl
      (hK _ (DisabledMasked_of_fields s _ rfl rfl hc))
  split at h
  · cases h
  · split at h
    · refine callSW_disabled run hrun _ _ _ _ h ?_
      split
      · exact DisabledMasked_of_fields (writePicMask _ _) _ rfl rfl (DisabledMasked_idr_mask _)
      · exact h1
    · cases h
      exact h1

theorem HalEnableSystemInterrupt_disabled (Vector Irql : Nat) (mode : KINTERRUPT_MODE)
    (s : Machine) (v : Bool) (s' : Machine)
    (h : HalEnableSystemInterrupt Vector Irql mode s = .ret v s') (hc : DisabledMasked s) :
    DisabledMasked s' := by
  unfold HalEnableSystemInterrupt at h
  dsimp only at h
  split at h
  · cases h
    exact hc
  · split at h
    · cases h
    · rename_i s1 hs1
      split at h
      · cases h
      · rename_i mask hm
        cases h
        exact DisabledMasked_of_fields (writePicMask _ _) _ rfl rfl
          (DisabledMasked_table_mask mask
            { s1 with IF := false,
                      IDR := s1.IDR &&& (0xFFFFFFFF ^^^ (1 <<< vectorIrq Vector)) })

theorem HalDisableSystemInterrupt_disabled (Vector Irql : Nat) (s s' : Machine)
    (h : HalDisableSystemInterrupt Vector Irql s = .ret () s') (hc : DisabledMasked s) :
    DisabledMasked s' := by
  unfold HalDisableSystemInterrupt at h
  split at h
  · cases h
  · dsimp only at h
    cases h
    have hb : (inbyte PIC1_DATA_PORT
        { s with IF := false, IDR := s.IDR ||| (1 <<< vectorIrq Vector) }).1 +
        256 * (inbyte PIC2_DATA_PORT (inbyte PIC1_DATA_PORT
          { s with IF := false, IDR := s.IDR ||| (1 <<< vectorIrq Vector) }).2).1 =
        s.picMask := by
      simp [inbyte, portByte, Machine.picMask]
    rw [hb]
    refine DisabledMasked_of_fields (writePicMask _ _) _ rfl rfl
      (DisabledMasked_writePicMask _ _ (Nat.mod_lt _ (by decide)) ?_)
    intro j hj hbit
    have e : (65536 : Nat) = 2 ^ 16 := by decide
    have hbit' : (s.IDR ||| (1 <<< vectorIrq Vector)).testBit j = true := hbit
    rw [e, Nat.testBit_mod_two_pow, decide_eq_true hj, Bool.true_and, Nat.testBit_or]
    rw [Nat.testBit_or] at hbit'
    rcases Bool.or_eq_true _ _ |>.mp hbit' with h1 | h1
    · rw [hc j hj h1]
      rfl
    · rw [h1]
      simp

theorem HalOp_exec_disabled (run : Invoke) (run2 : SwHandler2 → Machine → Outcome Unit)
    (dbg : Bool) (SYNCH_LEVEL fuel : Nat)
    (hrun : ∀ i h m m', run i h m = .ret () m' → DisabledMasked m → DisabledMasked m')
    (hrun2 : ∀ h m m', run2 h m = .ret () m' → DisabledMasked m → DisabledMasked m')
    (op : HalOp) (s s' : Machine) (h : op.exec run run2 dbg SYNCH_LEVEL fuel s = .ret () s')
    (hc : DisabledMasked s) : DisabledMasked s' := by
  cases op with
  | raise NewIrql =>
    obtain ⟨a, m1, h1, h2⟩ := Outcome_andThen_eq_ret _ _ _ _ h
    cases h2
    unfold KfRaiseIrql at h1
    dsimp only at h1
    split at h1
    · cases h1
    · cases h1
      exact DisabledMasked_of_fields s _ rfl rfl hc
  | raiseToDpc =>
    obtain ⟨a, m1, h1, h2⟩ := Outcome_andThen_eq_ret _ _ _ _ h
    cases h2
    unfold KeRaiseIrqlToDpcLevel at h1
    dsimp only at h1
    split at h1
    · cases h1
    · cases h1
      exact DisabledMasked_of_fields s _ rfl rfl hc
  | raiseToSynch =>
    obtain ⟨a, m1, h1, h2⟩ := Outcome_andThen_eq_ret _ _ _ _ h
    cases h2
    unfold KeRaiseIrqlToSynchLevel at h1
    dsimp only at h1
    split at h1
    · cases h1
    · cases h1
      exact DisabledMasked_of_fields s _ rfl rfl hc
  | lower OldIrql => exact KfLowerIrql_disabled run hrun dbg OldIrql s s' h hc
  | beginSystemInterrupt Irql Vector =>
    have h' : (HalBeginSystemInterrupt Irql Vector s).andThen
        (fun _ m => Outcome.ret () m) = .ret () s' := h
    obtain ⟨a, m1, h1, h2⟩ := Outcome_andThen_eq_ret _ _ _ _ h'
    cases h2
    exact HalBeginSystemInterrupt_disabled _ _ _ _ _ h1 hc
  | endSystemInterrupt OldIrql =>
    obtain ⟨a, m1, h1, h2⟩ := Outcome_andThen_eq_ret _ _ _ _ h
    have hm1 := HalEndSystemInterrupt_disabled run hrun _ _ _ _ _ h1 hc
    cases a with
    | none =>
      cases h2
      exact hm1
    | some h2nd => exact hrun2 _ _ _ h2 hm1
  | enableSystemInterrupt Vector Irql InterruptMode =>
    have h' : (HalEnableSystemInterrupt Vector Irql InterruptMode s).andThen
        (fun _ m => Outcome.ret () m) = .ret () s' := h
    obtain ⟨a, m1, h1, h2⟩ := Outcome_andThen_eq_ret _ _ _ _ h'
    cases h2
    exact HalEnableSystemInterrupt_disabled _ _ _ _ _ _ h1 hc
  | disableSystemInterrupt Vector Irql =>
    exact HalDisableSystemInterrupt_disabled Vector Irql s s' h hc
  | requestSoftwareInterrupt Irql =>
    exact HalRequestSoftwareInterrupt_disabled run hrun Irql s s' h hc
  | clearSoftwareInterrupt Irql => exact HalClearSoftwareInterrupt_disabled Irql s s' h hc

theorem execOps_disabled (run : Invoke) (run2 : SwHandler2 → Machine → Outcome Unit)
    (dbg : Bool) (SYNCH_LEVEL fuel : Nat)
    (hrun : ∀ i h m m', run i h m = .ret () m' → DisabledMasked m → DisabledMasked m')
    (hrun2 : ∀ h m m', run2 h m = .ret () m' → DisabledMasked m → DisabledMasked m')
    (ops : List HalOp) (s s' : Machine) (hs : DisabledMasked s)
    (h : execOps run run2 dbg SYNCH_LEVEL fuel ops s = .ret () s') : DisabledMasked s' := by
  induction ops generalizing s with
  | nil =>
    unfold execOps at h
    cases h
    exact hs
  | cons op ops ih =>
    unfold execOps at h
    obtain ⟨a, m1, h1, h2⟩ := Outcome_andThen_eq_ret _ _ _ _ h
    exact ih m1 (HalOp_exec_disabled run run2 dbg SYNCH_LEVEL fuel hrun hrun2 op s m1 h1 hs) h2

/-- C30: administratively disabled IRQs stay masked.  The predicate DisabledMasked (every bit
set in IDR and 0xFFFF is set in the 16-bit PIC mask) is preserved by every operation that
writes the PIC mask or IDR, whenever the operation returns: the eight dismissal routines and
HalBeginSystemInterrupt, the drains of KfLowerIrql, HalEndSystemInterrupt,
HalpEndSoftwareInterrupt2 and HalpDispatchInterrupt2, HalEnableSystemInterrupt and
HalDisableSystemInterrupt; and so by every sequence of exposed operations.  The replayed
handlers and the kernel dispatcher are assumed to preserve the predicate themselves. -/
theorem disabled_irqs_stay_masked (K : Kernel) (run : Invoke)
    (run2 : SwHandler2 → Machine → Outcome Unit) (dbg : Bool) (SYNCH_LEVEL fuel : Nat)
    (hK : ∀ m, DisabledMasked m → DisabledMasked (K.KiDispatchInterrupt m))
    (hrun : ∀ i h m m', run i h m = .ret () m' → DisabledMasked m → DisabledMasked m')
    (hrun2 : ∀ h m m', run2 h m = .ret () m' → DisabledMasked m → DisabledMasked m') :
    (∀ d T k s v s', callDismiss d T k s = .ret v s' → DisabledMasked s → DisabledMasked s') ∧
    (∀ T V s v s', HalBeginSystemInterrupt T V s = .ret v s' → DisabledMasked s →
      DisabledMasked s') ∧
    (∀ old s s', KfLowerIrql run dbg old s = .ret () s' → DisabledMasked s →
      DisabledMasked s') ∧
    (∀ old s r s', HalEndSystemInterrupt run fuel old s = .ret r s' → DisabledMasked s →
      DisabledMasked s') ∧
    (∀ old s r s', HalpEndSoftwareInterrupt2 run fuel old s = .ret r s' → DisabledMasked s →
      DisabledMasked s') ∧
    (∀ s s', HalpDispatchInterrupt2 K run s = .ret () s' → DisabledMasked s →
      DisabledMasked s') ∧
    (∀ V I mode s v s', HalEnableSystemInterrupt V I mode s = .ret v s' → DisabledMasked s →
      DisabledMasked s') ∧
    (∀ V I s s', HalDisableSystemInterrupt V I s = .ret () s' → DisabledMasked s →
      DisabledMasked s') ∧
    (∀ ops s s', execOps run run2 dbg SYNCH_LEVEL fuel ops s = .ret () s' → DisabledMasked s →
      DisabledMasked s') :=
  ⟨fun d T k s v s' h hc => callDismiss_disabled d T k s v s' h hc,
   fun T V s v s' h hc => HalBeginSystemInterrupt_disabled T V s v s' h hc,
   fun old s s' h hc => KfLowerIrql_disabled run hrun dbg old s s' h hc,
   fun old s r s' h hc => HalEndSystemInterrupt_disabled run hrun fuel old s r s' h hc,
   fun old s r s' h hc => HalpEndSoftwareInterrupt2_disabled run hrun fuel old s r s' h hc,
   fun s s' h hc => HalpDispatchInterrupt2_disabled K run hK hrun s s' h hc,
   fun V I mode s v s' h hc => HalEnableSystemInterrupt_disabled V I mode s v s' h hc,
   fun V I s s' h hc => HalDisableSystemInterrupt_disabled V I s s' h hc,
   fun ops s s' h hc =>
     execOps_disabled run run2 dbg SYNCH_LEVEL fuel hrun hrun2 ops s s' hc h⟩

/-- C30, instance: from the boot state, IRQ 3 is disabled at IRQL 24, IRQ 5 is deferred, the
IRQL is lowered to 0 (which replays IRQ 5 and rewrites the mask from IDR) and IRQ 7 is
enabled; in the state reached bit 3 of IDR is set and the predicate holds, so bit 3 of the
PIC mask is set. -/
theorem disabled_irqs_stay_masked_witness :
    DisabledMasked bootMachine ∧
    ∃ s', execOps idleInvoke (fun _ m => .ret () m) true DISPATCH_LEVEL 2
        [HalOp.raise 24, .disableSystemInterrupt (PRIMARY_VECTOR_BASE + 3) 24,
         .beginSystemInterrupt 22 (PRIMARY_VECTOR_BASE + 5), .lower 0,
         .enableSystemInterrupt (PRIMARY_VECTOR_BASE + 7) 20 .Latched] bootMachine =
        .ret () s' ∧
      s'.IDR.testBit 3 = true ∧ DisabledMasked s' ∧ s'.picMask.testBit 3 = true := by
  have hboot : DisabledMasked bootMachine := by
    intro j _ hb
    have h0 : bootMachine.IDR = 0 := rfl
    rw [h0, Nat.zero_testBit] at hb
    cases hb
  have hex : ∃ s', execOps idleInvoke (fun _ m => .ret () m) true DISPATCH_LEVEL 2
      [HalOp.raise 24, .disableSystemInterrupt (PRIMARY_VECTOR_BASE + 3) 24,
       .beginSystemInterrupt 22 (PRIMARY_VECTOR_BASE + 5), .lower 0,
       .enableSystemInterrupt (PRIMARY_VECTOR_BASE + 7) 20 .Latched] bootMachine =
      .ret () s' ∧ s'.IDR.testBit 3 = true := ⟨_, rfl, by decide⟩
  obtain ⟨s', hs', hbit⟩ := hex
  have hd : DisabledMasked s' :=
    (disabled_irqs_stay_masked quietKernel idleInvoke (fun _ m => .ret () m) true
      DISPATCH_LEVEL 2 (fun _ hm => hm) (fun _ _ _ _ e hc => by cases e; exact hc)
      (fun _ _ _ e hc => by cases e; exact hc)).2.2.2.2.2.2.2.2 _ bootMachine s' hs' hboot
  exact ⟨hboot, s', hs', hbit, hd, hd 3 (by decide) hbit⟩

/-! ## Table indexing in HalEnableSystemInterrupt -/

theorem HalEnableSystemInterrupt_level_undefined (V Irql : Nat) (s : Machine)
    (h2 : ¬ (vectorIrq V ≥ CLOCK2_LEVEL))
    (h3 : HalpSpecialDismissLevelTable[vectorIrq V]? = none) :
    HalEnableSystemInterrupt V Irql .LevelSensitive s = .undefined := by
  unfold HalEnableSystemInterrupt
  generalize vectorIrq V = q at h2 h3
  simp only [if_neg h2, h3, if_true]

/-- C31: the validation of HalEnableSystemInterrupt compares the IRQ with CLOCK2_LEVEL (28),
not with the number of IRQ lines (16).  For each of the twelve vectors BASE + 16 .. BASE + 27
the IRQ passes the check, so the routine does not return FALSE; the tables have 16, 16 and 20
entries, so that IRQ is no index of the dismiss tables and IRQ + 4 is no index of
SWInterruptHandlerTable; with LevelSensitive the routine performs those accesses (the model
gives undefined behaviour, in every state), and with Latched it touches no table and returns
TRUE.  For the sixteen vectors BASE + 0 .. BASE + 15 all three indices are in range and the
LevelSensitive call returns TRUE. -/
theorem enable_level_indexes_past_tables :
    (HalpSpecialDismissTable.length = 16 ∧ HalpSpecialDismissLevelTable.length = 16 ∧
      SWInterruptHandlerTable.length = 20 ∧ CLOCK2_LEVEL = 28) ∧
    (∀ (k : Fin 12) (Irql : Nat) (s : Machine),
      HalEnableSystemInterrupt (PRIMARY_VECTOR_BASE + 16 + k.val) Irql .LevelSensitive s =
        .undefined) ∧
    (List.range' 16 12).all (fun k =>
      decide (vectorIrq (PRIMARY_VECTOR_BASE + k) = k) &&
      decide (¬ (k ≥ CLOCK2_LEVEL)) &&
      decide (HalpSpecialDismissLevelTable[k]? = none) &&
      decide (bootMachine.HalpSpecialDismissTable[k]? = none) &&
      decide (bootMachine.SWInterruptHandlerTable[k + 4]? = none) &&
      decide (HalEnableSystemInterrupt (PRIMARY_VECTOR_BASE + k) 0 .LevelSensitive bootMachine =
        .undefined) &&
      (match HalEnableSystemInterrupt (PRIMARY_VECTOR_BASE + k) 0 .Latched bootMachine with
       | .ret true _ => true
       | _ => false)) = true ∧
    (List.range' 0 16).all (fun k =>
      decide (vectorIrq (PRIMARY_VECTOR_BASE + k) = k) &&
      decide (k < HalpSpecialDismissLevelTable.length) &&
      decide (k < bootMachine.HalpSpecialDismissTable.length) &&
      decide (k + 4 < bootMachine.SWInterruptHandlerTable.length) &&
      (match HalEnableSystemInterrupt (PRIMARY_VECTOR_BASE + k) 0 .LevelSensitive
          bootMachine with
       | .ret true _ => true
       | _ => false)) = true := by
  refine ⟨by decide, ?_, by decide, by decide⟩
  intro k Irql s
  have hlt : k.val < 12 := k.isLt
  have h1 : vectorIrq (PRIMARY_VECTOR_BASE + 16 + k.val) = 16 + k.val := by
    unfold vectorIrq PRIMARY_VECTOR_BASE
    omega
  have hlen : HalpSpecialDismissLevelTable.length = 16 := rfl
  refine HalEnableSystemInterrupt_level_undefined _ Irql s ?_ ?_
  · rw [h1]
    unfold CLOCK2_LEVEL
    omega
  · rw [h1]
    exact List.getElem?_eq_none (by omega)

end HalPic
